import Mathlib

/-!
# Thread queue enqueue / extract core (cpukit/score/src/threadqenqueue.c)

A shallow embedding of the thread queue operations of
`cpukit/score/src/threadqenqueue.c`.

* Threads and queues are named by their addresses (natural numbers).
* The kernel state holds what the file reads and writes: the wait block and
  the resource count of every thread, the owner of every queue, the heads
  (opaque, touched only through the operations vector), the registry of links,
  the dispatch disable level of the executing processor.
* Calls into collaborators that are not part of the file (locks, timers, the
  scheduler, priority updates) are recorded, in program order, in `trace`.
* Loops that need not terminate take a fuel argument and return `none` when
  the fuel runs out.
* The build without `RTEMS_MULTIPROCESSING` and without `RTEMS_DEBUG` is
  modelled; `RTEMS_SMP` is a field of `Build`.
-/

namespace ThreadQ

/-! ## Data model -/

/-- Address of a `Thread_Control`. -/
abbrev ThreadId := Nat

/-- Address of a `Thread_queue_Queue`. -/
abbrev QueueId := Nat

/-- Address of a `Thread_queue_Heads` (only ever tested against NULL and handed
to the operations vector). -/
abbrev HeadsPtr := Nat

/-- Modelled from the spec: the header that defines the wait flag words is not
part of the sources; a flag word is `class | phase`, with the object class and
three pairwise distinct phases. -/
def THREAD_WAIT_CLASS_OBJECT : Nat := 0x400

/-- Modelled from the spec: phase "committed to blocking". -/
def THREAD_WAIT_STATE_INTEND_TO_BLOCK : Nat := 0x1

/-- Modelled from the spec: phase "taken off the processor". -/
def THREAD_WAIT_STATE_BLOCKED : Nat := 0x2

/-- Modelled from the spec: phase "another party satisfied or aborted the
wait". -/
def THREAD_WAIT_STATE_READY_AGAIN : Nat := 0x4

/-- Modelled from the spec: mask of the class part of a flag word. -/
def THREAD_WAIT_CLASS_MASK : Nat := 0xff00

/-- Source lines 30-31: the value of
`THREAD_WAIT_CLASS_OBJECT | THREAD_WAIT_STATE_INTEND_TO_BLOCK`
(`THREAD_QUEUE_INTEND_TO_BLOCK_eq`). -/
def THREAD_QUEUE_INTEND_TO_BLOCK : Nat := 0x401

/-- Source lines 33-34: the value of
`THREAD_WAIT_CLASS_OBJECT | THREAD_WAIT_STATE_BLOCKED` (`THREAD_QUEUE_BLOCKED_eq`). -/
def THREAD_QUEUE_BLOCKED : Nat := 0x402

/-- Source lines 36-37: the value of
`THREAD_WAIT_CLASS_OBJECT | THREAD_WAIT_STATE_READY_AGAIN`
(`THREAD_QUEUE_READY_AGAIN_eq`). -/
def THREAD_QUEUE_READY_AGAIN : Nat := 0x404

/-- Status codes stored in `Wait.return_code`. -/
inductive Status_Control
  | STATUS_SUCCESSFUL
  | STATUS_DEADLOCK
  | STATUS_TIMEOUT
  | STATUS_OTHER (code : Nat)
  deriving DecidableEq, Repr

/-- Fatal error codes passed to `_Terminate` by this file. -/
inductive Internal_errors
  | INTERNAL_ERROR_THREAD_QUEUE_DEADLOCK
  | INTERNAL_ERROR_THREAD_QUEUE_ENQUEUE_FROM_BAD_STATE
  deriving DecidableEq, Repr

/-- Timeout disciplines of a queue context. -/
inductive Watchdog_Discipline
  | WATCHDOG_RELATIVE
  | WATCHDOG_ABSOLUTE
  | WATCHDOG_NO_TIMEOUT
  deriving DecidableEq, Repr

/-- Address of a link object: the `Start` link of the path under construction,
or the preallocated `Wait.Link` of a thread. -/
inductive LinkId
  | Start
  | Wait_Link (t : ThreadId)
  deriving DecidableEq, Repr

/-- A `Thread_queue_Link`.  `wait_queue` is `Queue_context.Wait.queue`.  The
fields `source` and `target` are written by `_Thread_queue_Link_add` only and
read through the registry only. -/
structure Thread_queue_Link where
  id : LinkId
  source : QueueId
  target : QueueId
  owner : ThreadId
  wait_queue : Option QueueId
  deriving DecidableEq, Repr

/-- Calls into collaborators, in program order, and with them the two writes of
the wait block whose place in that order matters to other processors: the claim
of a queue and the store of `Wait.return_code`. -/
inductive Event
  | queue_acquire (q : QueueId)
  | queue_release (q : QueueId)
  | wait_acquire_default (t : ThreadId)
  | wait_release_default (t : ThreadId)
  | wait_acquire_queue (q : QueueId)
  | wait_release_queue (q : Option QueueId)
  | wait_acquire (t : ThreadId)
  | wait_release (t : ThreadId)
  | gate_add (t : ThreadId) (l : LinkId)
  | remove_request (t : ThreadId)
  | registry_acquire
  | registry_release
  | dispatch_disable
  | dispatch_enable
  | ops_enqueue (q : QueueId) (t : ThreadId)
  | ops_extract (q : QueueId) (t : ThreadId)
  | ops_surrender (q : QueueId) (previous_owner : ThreadId)
  | set_state (t : ThreadId) (state : Nat)
  | timer_insert_relative (t : ThreadId) (interval : Nat)
  | timer_insert_absolute (t : ThreadId) (expire : Nat)
  | remove_timer_and_unblock (t : ThreadId) (q : QueueId)
  | update_priority (t : Option ThreadId)
  | restore_priority (t : ThreadId)
  | tranquilize (t : ThreadId)
  | flags_set (t : ThreadId) (flags : Nat)
  | flags_try_change_acquire (t : ThreadId) (expected desired : Nat) (success : Bool)
  | flags_try_change_release (t : ThreadId) (expected desired : Nat) (success : Bool)
  | wait_claim (t : ThreadId) (q : QueueId)
  | return_code_store (t : ThreadId) (code : Status_Control)
  deriving DecidableEq, Repr

/-- The operations vector of a queue discipline.  The disciplines are not part
of the sources; a hook is a function on the heads `H`, which this layer never
inspects.  `enqueue` also yields the `update_priority` it stores in the path,
`surrender` yields the new owner. -/
structure Thread_queue_Operations (H : Type) where
  enqueue : H → QueueId → ThreadId → H × Option ThreadId
  extract : H → QueueId → ThreadId → H
  surrender : H → QueueId → HeadsPtr → ThreadId → ThreadId × H
  first : H → QueueId → Option ThreadId

/-- The `Wait` block of a thread. -/
structure Thread_Wait_information (H : Type) where
  queue : Option QueueId
  operations : Thread_queue_Operations H
  return_code : Status_Control
  flags : Nat

/-- The part of a `Thread_Control` this file touches. -/
structure Thread_Control (H : Type) where
  Wait : Thread_Wait_information H
  resource_count : Nat

/-- The part of a `Thread_queue_Queue` this file touches; its heads live in the
opaque heads state. -/
structure Thread_queue_Queue where
  owner : Option ThreadId
  deriving DecidableEq, Repr

/-- Kernel state.  `Links` is `_Thread_queue_Links.Links`, the registry, as the
in-order sequence of the nodes of the tree. -/
structure Kernel (H : Type) where
  threads : ThreadId → Thread_Control H
  queues : QueueId → Thread_queue_Queue
  heads : H
  Links : List Thread_queue_Link
  thread_dispatch_disable_level : Nat
  trace : List Event

/-- A `Thread_queue_Path`: the chain `Links` in append order and the
`update_priority` slot. -/
structure Thread_queue_Path where
  Links : List Thread_queue_Link
  update_priority : Option ThreadId
  deriving DecidableEq, Repr

/-- How a call ends: it returns, or `_Terminate` stops the system. -/
inductive Outcome (σ : Type)
  | returned (s : σ)
  | terminated (error : Internal_errors) (s : σ)

/-- A `Thread_queue_Context` as far as this file reads it. -/
structure Thread_queue_Context (H : Type) where
  expected_thread_dispatch_disable_level : Nat
  timeout_discipline : Watchdog_Discipline
  timeout : Nat
  deadlock_callout : ThreadId → Kernel H → Outcome (Kernel H)

/-- Build configuration. -/
structure Build where
  RTEMS_SMP : Bool
  deriving DecidableEq, Repr

variable {H : Type}

/-- Append an event to the trace. -/
def Kernel.emit (s : Kernel H) (e : Event) : Kernel H :=
  { s with trace := s.trace ++ [e] }

/-- Store new heads. -/
def Kernel.setHeads (s : Kernel H) (heads : H) : Kernel H :=
  { s with heads := heads }

/-- Store a new registry. -/
def Kernel.setLinks (s : Kernel H) (links : List Thread_queue_Link) : Kernel H :=
  { s with Links := links }

/-- Store a new dispatch disable level. -/
def Kernel.setLevel (s : Kernel H) (level : Nat) : Kernel H :=
  { s with thread_dispatch_disable_level := level }

/-- Replace the control block of thread `t` by `f` of it. -/
def Kernel.updThread (s : Kernel H) (t : ThreadId)
    (f : Thread_Control H → Thread_Control H) : Kernel H :=
  { s with threads := Function.update s.threads t (f (s.threads t)) }

/-- Replace the queue `q` by `f` of it. -/
def Kernel.updQueue (s : Kernel H) (q : QueueId)
    (f : Thread_queue_Queue → Thread_queue_Queue) : Kernel H :=
  { s with queues := Function.update s.queues q (f (s.queues q)) }

/-! ## Collaborators that are not part of the file -/

/-- Modelled from the spec: the wait flag helpers are declared in a header
that is not part of the sources; `get()` is a load of the flag word. -/
def _Thread_Wait_flags_get (s : Kernel H) (the_thread : ThreadId) : Nat :=
  (s.threads the_thread).Wait.flags

/-- The store of a flag word into the wait block of a thread. -/
def Kernel.storeFlags (s : Kernel H) (the_thread : ThreadId) (flags : Nat) : Kernel H :=
  s.updThread the_thread (fun c => { c with Wait := { c.Wait with flags := flags } })

/-- Modelled from the spec: `set(new)`, an unconditional store (header not part
of the sources); the call is recorded. -/
def _Thread_Wait_flags_set (s : Kernel H) (the_thread : ThreadId) (flags : Nat) :
    Kernel H :=
  (s.storeFlags the_thread flags).emit (Event.flags_set the_thread flags)

/-- Modelled from the spec: `try_change_acquire(expect, new)`, a compare and set
(header not part of the sources); the fence has no sequential meaning; the call
is recorded with its outcome. -/
def _Thread_Wait_flags_try_change_acquire (s : Kernel H) (the_thread : ThreadId)
    (expected_flags desired_flags : Nat) : Bool × Kernel H :=
  if _Thread_Wait_flags_get s the_thread = expected_flags then
    (true, (s.storeFlags the_thread desired_flags).emit
      (Event.flags_try_change_acquire the_thread expected_flags desired_flags true))
  else
    (false, s.emit
      (Event.flags_try_change_acquire the_thread expected_flags desired_flags false))

/-- Modelled from the spec: `try_change_release(expect, new)`, a compare and set
(header not part of the sources); the fence has no sequential meaning; the call
is recorded with its outcome. -/
def _Thread_Wait_flags_try_change_release (s : Kernel H) (the_thread : ThreadId)
    (expected_flags desired_flags : Nat) : Bool × Kernel H :=
  if _Thread_Wait_flags_get s the_thread = expected_flags then
    (true, (s.storeFlags the_thread desired_flags).emit
      (Event.flags_try_change_release the_thread expected_flags desired_flags true))
  else
    (false, s.emit
      (Event.flags_try_change_release the_thread expected_flags desired_flags false))

/-- Modelled from the spec: the default operations vector (not part of the
sources), the value of `wait.operations` of a thread that waits on nothing; its
hooks do nothing. -/
def _Thread_queue_Operations_default : Thread_queue_Operations H where
  enqueue := fun h _ _ => (h, none)
  extract := fun h _ _ => h
  surrender := fun h _ _ previous_owner => (previous_owner, h)
  first := fun _ _ => none

/-- Modelled from the spec: `_Thread_Wait_claim` (header not part of the
sources) publishes `thread.wait.queue = queue` and
`thread.wait.operations = operations`; the call is recorded. -/
def _Thread_Wait_claim (s : Kernel H) (the_thread : ThreadId) (queue : QueueId)
    (operations : Thread_queue_Operations H) : Kernel H :=
  (s.updThread the_thread
    (fun c => { c with Wait := { c.Wait with queue := some queue,
                                             operations := operations } })).emit
    (Event.wait_claim the_thread queue)

/-- Modelled from the spec: `_Thread_Wait_restore_default` (header not part of
the sources) restores the default wait state of the thread: it clears
`wait.queue` and `wait.operations`. -/
def _Thread_Wait_restore_default (s : Kernel H) (the_thread : ThreadId) : Kernel H :=
  s.updThread the_thread
    (fun c => { c with Wait := { c.Wait with queue := none,
                                             operations := _Thread_queue_Operations_default } })

/-- Modelled from the spec: `_Thread_Wait_tranquilize` (header not part of the
sources) resets wait related bookkeeping without unblocking; none of it is
state this file reads, so the call is recorded only. -/
def _Thread_Wait_tranquilize (s : Kernel H) (the_thread : ThreadId) : Kernel H :=
  s.emit (Event.tranquilize the_thread)

/-- Modelled from the spec: `_Thread_queue_Queue_release` (header not part of
the sources) releases the lock of the queue. -/
def _Thread_queue_Queue_release (s : Kernel H) (queue : QueueId) : Kernel H :=
  s.emit (Event.queue_release queue)

/-- Modelled from the spec: `_Thread_Dispatch_disable_critical` (header not part
of the sources) increments the dispatch disable level of the executing
processor, a 32 bit counter. -/
def _Thread_Dispatch_disable_critical (s : Kernel H) : Kernel H :=
  (s.emit Event.dispatch_disable).setLevel ((s.thread_dispatch_disable_level + 1) % 2 ^ 32)

/-- Modelled from the spec: `_Thread_Dispatch_disable` (header not part of the
sources), as `_Thread_Dispatch_disable_critical` without a lock context. -/
def _Thread_Dispatch_disable (s : Kernel H) : Kernel H :=
  _Thread_Dispatch_disable_critical s

/-- Modelled from the spec: `_Thread_Dispatch_enable` (not part of the sources)
decrements the dispatch disable level of the executing processor, a 32 bit
counter. -/
def _Thread_Dispatch_enable (s : Kernel H) : Kernel H :=
  (s.emit Event.dispatch_enable).setLevel
    (if s.thread_dispatch_disable_level = 0 then 2 ^ 32 - 1
     else s.thread_dispatch_disable_level - 1)

/-- Modelled from the spec: `_Thread_Set_state` (scheduler, not part of the
sources) sets the blocking state; recorded only. -/
def _Thread_Set_state (s : Kernel H) (the_thread : ThreadId) (state : Nat) : Kernel H :=
  s.emit (Event.set_state the_thread state)

/-- Modelled from the spec: `_Thread_Timer_insert_relative` (not part of the
sources) arms the timer of the thread; recorded only. -/
def _Thread_Timer_insert_relative (s : Kernel H) (the_thread : ThreadId)
    (ticks : Nat) : Kernel H :=
  s.emit (Event.timer_insert_relative the_thread ticks)

/-- Modelled from the spec: `_Thread_Timer_insert_absolute` (not part of the
sources) arms the timer of the thread; recorded only. -/
def _Thread_Timer_insert_absolute (s : Kernel H) (the_thread : ThreadId)
    (expire : Nat) : Kernel H :=
  s.emit (Event.timer_insert_absolute the_thread expire)

/-- Modelled from the spec: `_Thread_Remove_timer_and_unblock` (not part of the
sources) cancels the timer if armed and undoes the scheduler block; recorded
only. -/
def _Thread_Remove_timer_and_unblock (s : Kernel H) (the_thread : ThreadId)
    (queue : QueueId) : Kernel H :=
  s.emit (Event.remove_timer_and_unblock the_thread queue)

/-- Modelled from the spec: `_Thread_Update_priority` (not part of the sources);
recorded only. -/
def _Thread_Update_priority (s : Kernel H) (the_thread : Option ThreadId) : Kernel H :=
  s.emit (Event.update_priority the_thread)

/-- Modelled from the spec: `_Thread_Restore_priority` (not part of the
sources); recorded only. -/
def _Thread_Restore_priority (s : Kernel H) (the_thread : ThreadId) : Kernel H :=
  s.emit (Event.restore_priority the_thread)

/-- Modelled from the spec: the conversion `(Watchdog_Interval) timeout` of
source line 404; the type declarations are not part of the sources, the
interval is a 32 bit word and the timeout of a queue context a 64 bit word. -/
def Watchdog_Interval_of (timeout : Nat) : Nat :=
  timeout % 2 ^ 32

/-! ## The registry of links (source lines 39-163) -/

/-- Source lines 60-72. -/
def _Thread_queue_Link_equal (left : QueueId) (right : Thread_queue_Link) : Bool :=
  decide (left = right.source)

/-- Source lines 74-86. -/
def _Thread_queue_Link_less (left : QueueId) (right : Thread_queue_Link) : Bool :=
  decide (left < right.source)

/-- Modelled from the spec: `_RBTree_Find_inline` (not part of the sources)
looks a key up in the ordered map; on the in-order sequence it yields a node
whose key equals the searched key (the only one when keys are unique). -/
def _RBTree_Find_inline (tree : List Thread_queue_Link) (key : QueueId)
    (equal : QueueId → Thread_queue_Link → Bool) : Option Thread_queue_Link :=
  tree.find? (fun node => equal key node)

/-- Modelled from the spec: `_RBTree_Insert_inline` (not part of the sources)
inserts a node into the ordered map: it descends left where the key is less
than the key of a node and right otherwise, so in the in-order sequence the new
node stands before the first node with a greater key. -/
def _RBTree_Insert_inline (tree : List Thread_queue_Link) (node : Thread_queue_Link)
    (key : QueueId) (less : QueueId → Thread_queue_Link → Bool) :
    List Thread_queue_Link :=
  match tree with
  | [] => [node]
  | n :: rest =>
    if less key n then node :: n :: rest
    else n :: _RBTree_Insert_inline rest node key less

/-- Modelled from the spec: `_RBTree_Extract` (not part of the sources) takes
the given node out of the ordered map.  The node is the link object; in the
in-order sequence it is the record the link had when it was inserted, which is
the record the path holds as long as nobody else writes to the link. -/
def _RBTree_Extract (tree : List Thread_queue_Link) (node : Thread_queue_Link) :
    List Thread_queue_Link :=
  tree.erase node

/-- Source lines 93-105. -/
def _Thread_queue_Link_find (links : List Thread_queue_Link) (source : QueueId) :
    Option Thread_queue_Link :=
  _RBTree_Find_inline links source _Thread_queue_Link_equal

/-- The `while ( true )` loop of `_Thread_queue_Link_add`, source lines
122-137: `some false` when the walk reaches `source` (line 135), `some true`
when it leaves the loop at line 128, `none` when the fuel runs out. -/
def _Thread_queue_Link_add_walk (links : List Thread_queue_Link) (source : QueueId) :
    Nat → QueueId → Option Bool
  | 0, _ => none
  | fuel + 1, recursive_target =>
    match _Thread_queue_Link_find links recursive_target with
    | none => some true
    | some recursive_link =>
      if recursive_link.target = source then some false
      else _Thread_queue_Link_add_walk links source fuel recursive_link.target

/-- Source lines 107-150.  Yields the return value, the link as written, and
the state. -/
def _Thread_queue_Link_add (fuel : Nat) (s : Kernel H) (link : Thread_queue_Link)
    (source target : QueueId) : Option (Bool × Thread_queue_Link × Kernel H) :=
  let s1 := s.emit Event.registry_acquire
  match _Thread_queue_Link_add_walk s1.Links source fuel target with
  | none => none
  | some false => some (false, link, s1.emit Event.registry_release)
  | some true =>
    let link1 := { link with source := source, target := target }
    let s2 := s1.setLinks (_RBTree_Insert_inline s1.Links link1 source _Thread_queue_Link_less)
    some (true, link1, s2.emit Event.registry_release)

/-- Source lines 152-162. -/
def _Thread_queue_Link_remove (s : Kernel H) (link : Thread_queue_Link) : Kernel H :=
  let s1 := s.emit Event.registry_acquire
  let s2 := s1.setLinks (_RBTree_Extract s1.Links link)
  s2.emit Event.registry_release

/-! ## Path acquire and release (source lines 168-324) -/

/-- The loop of source lines 199-215 for one link. -/
def _Thread_queue_Path_release_link (s : Kernel H) (link : Thread_queue_Link) : Kernel H :=
  let s1 := _Thread_queue_Link_remove s link
  let s2 := s1.emit (Event.wait_release_queue link.wait_queue)
  s2.emit (Event.remove_request link.owner)

/-- Source lines 168-220 with `RTEMS_SMP`: the chain is walked from its last
node to its head. -/
def _Thread_queue_Path_release_SMP (s : Kernel H) (path : Thread_queue_Path) : Kernel H :=
  match path.Links.reverse with
  | [] => s
  | link :: previous =>
    if link.wait_queue = none then
      previous.foldl _Thread_queue_Path_release_link
        (s.emit (Event.wait_release_default link.owner))
    else
      (link :: previous).foldl _Thread_queue_Path_release_link s

/-- Source lines 168-220. -/
def _Thread_queue_Path_release (b : Build) (s : Kernel H) (path : Thread_queue_Path) :
    Kernel H :=
  if b.RTEMS_SMP then _Thread_queue_Path_release_SMP s path else s

/-- Source lines 308-323, the loop of `_Thread_queue_Path_acquire` without
`RTEMS_SMP`; `none` when the fuel runs out. -/
def _Thread_queue_Path_acquire_UP (s : Kernel H) (the_thread : ThreadId) :
    Nat → QueueId → Option Bool
  | 0, _ => none
  | fuel + 1, queue =>
    match (s.queues queue).owner with
    | none => some true
    | some owner =>
      if owner = the_thread then some false
      else
        match (s.threads owner).Wait.queue with
        | none => some true
        | some queue1 => _Thread_queue_Path_acquire_UP s the_thread fuel queue1

/-- Source lines 259-306, the loop of `_Thread_queue_Path_acquire` with
`RTEMS_SMP`.  `links` is the chain before the current link is appended; the
link is stored in the chain with the fields it has when the iteration is left.
Yields the return value, the chain and the state; `none` when the fuel runs
out. -/
def _Thread_queue_Path_acquire_SMP_loop :
    Nat → Kernel H → List Thread_queue_Link → LinkId → QueueId → ThreadId →
      Option (Bool × List Thread_queue_Link × Kernel H)
  | 0, _, _, _, _, _ => none
  | fuel + 1, s, links, link_id, queue, owner =>
    let s1 := s.emit (Event.wait_acquire_default owner)
    match (s1.threads owner).Wait.queue with
    | none =>
      some (true, links ++ [{ id := link_id, source := 0, target := 0, owner := owner,
                              wait_queue := none }], s1)
    | some target =>
      let link : Thread_queue_Link :=
        { id := link_id, source := 0, target := 0, owner := owner, wait_queue := some target }
      match _Thread_queue_Link_add (fuel + 1) s1 link queue target with
      | none => none
      | some (false, link1, s2) =>
        let link2 := { link1 with wait_queue := none }
        some (false, links ++ [link2],
          _Thread_queue_Path_release_SMP s2 { Links := links ++ [link2], update_priority := none })
      | some (true, link1, s2) =>
        let s3 := s2.emit (Event.gate_add owner link1.id)
        let s4 := s3.emit (Event.wait_release_default owner)
        let s5 := s4.emit (Event.wait_acquire_queue target)
        if link1.wait_queue = none then
          let s6 := _Thread_queue_Link_remove s5 link1
          let s7 := s6.emit (Event.wait_release_queue (some target))
          let s8 := s7.emit (Event.wait_acquire_default owner)
          some (true, links ++ [link1], s8.emit (Event.remove_request owner))
        else
          match (s5.queues target).owner with
          | none => some (true, links ++ [link1], s5)
          | some owner1 =>
            _Thread_queue_Path_acquire_SMP_loop fuel s5 (links ++ [link1])
              (LinkId.Wait_Link owner) target owner1

/-- Source lines 222-324 with `RTEMS_SMP`. -/
def _Thread_queue_Path_acquire_SMP (fuel : Nat) (s : Kernel H) (the_thread : ThreadId)
    (queue : QueueId) : Option (Bool × List Thread_queue_Link × Kernel H) :=
  match (s.queues queue).owner with
  | none => some (true, [], s)
  | some owner =>
    if owner = the_thread then some (false, [], s)
    else _Thread_queue_Path_acquire_SMP_loop fuel s [] LinkId.Start queue owner

/-- Source lines 222-324: the return value, the chain of the path, the state. -/
def _Thread_queue_Path_acquire (b : Build) (fuel : Nat) (s : Kernel H)
    (the_thread : ThreadId) (queue : QueueId) :
    Option (Bool × List Thread_queue_Link × Kernel H) :=
  if b.RTEMS_SMP then _Thread_queue_Path_acquire_SMP fuel s the_thread queue
  else (_Thread_queue_Path_acquire_UP s the_thread fuel queue).map (fun r => (r, [], s))

/-! ## The drivers (source lines 326-660) -/

/-- The store `the_thread->Wait.return_code = code` of source lines 328 and
372; the store is recorded. -/
def Kernel.storeReturnCode (s : Kernel H) (the_thread : ThreadId) (code : Status_Control) :
    Kernel H :=
  (s.updThread the_thread
    (fun c => { c with Wait := { c.Wait with return_code := code } })).emit
    (Event.return_code_store the_thread code)

/-- Source lines 326-329. -/
def _Thread_queue_Deadlock_status (the_thread : ThreadId) (s : Kernel H) :
    Outcome (Kernel H) :=
  Outcome.returned (s.storeReturnCode the_thread Status_Control.STATUS_DEADLOCK)

/-- Source lines 331-338. -/
def _Thread_queue_Deadlock_fatal (_the_thread : ThreadId) (s : Kernel H) :
    Outcome (Kernel H) :=
  Outcome.terminated Internal_errors.INTERNAL_ERROR_THREAD_QUEUE_DEADLOCK s

/-- Where `_Thread_queue_Enqueue_critical` stands after source line 418: it is
over (deadlock callout done, or the system terminated), or the thread is about
to reconcile its wait flags with the path it built. -/
inductive Enqueue_stage (H : Type)
  | finished (o : Outcome (Kernel H))
  | blocking (s : Kernel H) (path : Thread_queue_Path)

/-- Source lines 393-418: the timer of the thread is armed as the timeout
discipline says. -/
def _Thread_queue_Enqueue_timer (s : Kernel H) (the_thread : ThreadId)
    (queue_context : Thread_queue_Context H) : Kernel H :=
  match queue_context.timeout_discipline with
  | Watchdog_Discipline.WATCHDOG_RELATIVE =>
    if queue_context.timeout ≠ 0 then
      _Thread_Timer_insert_relative s the_thread (Watchdog_Interval_of queue_context.timeout)
    else s
  | Watchdog_Discipline.WATCHDOG_ABSOLUTE =>
    _Thread_Timer_insert_absolute s the_thread queue_context.timeout
  | Watchdog_Discipline.WATCHDOG_NO_TIMEOUT => s

/-- Source lines 368-375 of `_Thread_queue_Enqueue_critical`: the thread is put
on the queue, the path is released, status and wait flags are published,
dispatching is disabled and the queue lock released.  Yields the state and the
path. -/
def _Thread_queue_Enqueue_critical_publish (b : Build) (s2 : Kernel H) (queue : QueueId)
    (operations : Thread_queue_Operations H) (the_thread : ThreadId)
    (links : List Thread_queue_Link) : Kernel H × Thread_queue_Path :=
  let r := operations.enqueue s2.heads queue the_thread
  let s3 := (s2.emit (Event.ops_enqueue queue the_thread)).setHeads r.1
  let path : Thread_queue_Path := { Links := links, update_priority := r.2 }
  let s4 := _Thread_queue_Path_release b s3 path
  let s5 := s4.storeReturnCode the_thread Status_Control.STATUS_SUCCESSFUL
  let s6 := _Thread_Wait_flags_set s5 the_thread THREAD_QUEUE_INTEND_TO_BLOCK
  let s7 := _Thread_Dispatch_disable_critical s6
  (_Thread_queue_Queue_release s7 queue, path)

/-- Source lines 358-418 of `_Thread_queue_Enqueue_critical`: everything up to
and including the arming of the timer. -/
def _Thread_queue_Enqueue_critical_block (b : Build) (fuel : Nat) (s : Kernel H)
    (queue : QueueId) (operations : Thread_queue_Operations H) (the_thread : ThreadId)
    (state : Nat) (queue_context : Thread_queue_Context H) : Option (Enqueue_stage H) :=
  let s1 := _Thread_Wait_claim s the_thread queue operations
  match _Thread_queue_Path_acquire b fuel s1 the_thread queue with
  | none => none
  | some (false, _, s2) =>
    let s3 := _Thread_Wait_restore_default s2 the_thread
    let s4 := _Thread_queue_Queue_release s3 queue
    let s5 := _Thread_Wait_tranquilize s4 the_thread
    some (Enqueue_stage.finished (queue_context.deadlock_callout the_thread s5))
  | some (true, links, s2) =>
    let p := _Thread_queue_Enqueue_critical_publish b s2 queue operations the_thread links
    if p.1.thread_dispatch_disable_level
        ≠ queue_context.expected_thread_dispatch_disable_level then
      some (Enqueue_stage.finished (Outcome.terminated
        Internal_errors.INTERNAL_ERROR_THREAD_QUEUE_ENQUEUE_FROM_BAD_STATE p.1))
    else
      let s9 := _Thread_Set_state p.1 the_thread state
      some (Enqueue_stage.blocking (_Thread_queue_Enqueue_timer s9 the_thread queue_context) p.2)

/-- Source lines 429-440 of `_Thread_queue_Enqueue_critical`: the thread
reconciles its wait flags and cancels the blocking operation itself if another
party was faster. -/
def _Thread_queue_Enqueue_critical_reconcile (s : Kernel H) (queue : QueueId)
    (the_thread : ThreadId) (path : Thread_queue_Path) : Kernel H :=
  let r := _Thread_Wait_flags_try_change_acquire s the_thread
    THREAD_QUEUE_INTEND_TO_BLOCK THREAD_QUEUE_BLOCKED
  let s1 := if !r.1 then _Thread_Remove_timer_and_unblock r.2 the_thread queue else r.2
  let s2 := _Thread_Update_priority s1 path.update_priority
  _Thread_Dispatch_enable s2

/-- Source lines 340-440. -/
def _Thread_queue_Enqueue_critical (b : Build) (fuel : Nat) (s : Kernel H)
    (queue : QueueId) (operations : Thread_queue_Operations H) (the_thread : ThreadId)
    (state : Nat) (queue_context : Thread_queue_Context H) : Option (Outcome (Kernel H)) :=
  match _Thread_queue_Enqueue_critical_block b fuel s queue operations the_thread state
      queue_context with
  | none => none
  | some (Enqueue_stage.finished o) => some o
  | some (Enqueue_stage.blocking s1 path) =>
    some (Outcome.returned (_Thread_queue_Enqueue_critical_reconcile s1 queue the_thread path))

/-- Source lines 463-487; the `_Assert` of line 480 is empty in this build. -/
def _Thread_queue_Make_ready_again (s : Kernel H) (the_thread : ThreadId) :
    Bool × Kernel H :=
  let r := _Thread_Wait_flags_try_change_release s the_thread
    THREAD_QUEUE_INTEND_TO_BLOCK THREAD_QUEUE_READY_AGAIN
  let u : Bool × Kernel H :=
    if r.1 then (false, r.2)
    else (true, _Thread_Wait_flags_set r.2 the_thread THREAD_QUEUE_READY_AGAIN)
  (u.1, _Thread_Wait_restore_default u.2 the_thread)

/-- Source lines 489-504. -/
def _Thread_queue_Do_extract_locked (s : Kernel H) (queue : QueueId)
    (operations : Thread_queue_Operations H) (the_thread : ThreadId) : Bool × Kernel H :=
  let s1 := (s.emit (Event.ops_extract queue the_thread)).setHeads
    (operations.extract s.heads queue the_thread)
  _Thread_queue_Make_ready_again s1 the_thread

/-- Modelled from the spec: `_Thread_queue_Extract_locked` (header not part of
the sources) invokes `ops.extract` and runs `make_ready_again`, that is, it is
`_Thread_queue_Do_extract_locked`. -/
def _Thread_queue_Extract_locked (s : Kernel H) (queue : QueueId)
    (operations : Thread_queue_Operations H) (the_thread : ThreadId) : Bool × Kernel H :=
  _Thread_queue_Do_extract_locked s queue operations the_thread

/-- Source lines 506-525. -/
def _Thread_queue_Unblock_critical (s : Kernel H) (unblock : Bool) (queue : QueueId)
    (the_thread : ThreadId) : Kernel H :=
  if unblock then
    let s1 := _Thread_Dispatch_disable_critical s
    let s2 := _Thread_queue_Queue_release s1 queue
    let s3 := _Thread_Remove_timer_and_unblock s2 the_thread queue
    _Thread_Dispatch_enable s3
  else
    _Thread_queue_Queue_release s queue

/-- Source lines 527-549. -/
def _Thread_queue_Extract_critical (s : Kernel H) (queue : QueueId)
    (operations : Thread_queue_Operations H) (the_thread : ThreadId) : Kernel H :=
  let r := _Thread_queue_Extract_locked s queue operations the_thread
  _Thread_queue_Unblock_critical r.2 r.1 queue the_thread

/-- Source lines 551-584.  `_Thread_Wait_acquire`, `_Thread_Wait_release` and
`_Thread_Wait_remove_request` (not part of the sources) are recorded. -/
def _Thread_queue_Extract (s : Kernel H) (the_thread : ThreadId) : Kernel H :=
  let s1 := s.emit (Event.wait_acquire the_thread)
  match (s1.threads the_thread).Wait.queue with
  | some queue =>
    let s2 := s1.emit (Event.remove_request the_thread)
    let r := _Thread_queue_Extract_locked s2 queue (s2.threads the_thread).Wait.operations
      the_thread
    _Thread_queue_Unblock_critical r.2 r.1 queue the_thread
  | none => s1.emit (Event.wait_release the_thread)

/-- Source lines 586-628; `heads` is `none` for a NULL pointer. -/
def _Thread_queue_Surrender (s : Kernel H) (queue : QueueId)
    (operations : Thread_queue_Operations H) (heads : Option HeadsPtr)
    (previous_owner : ThreadId) (keep_priority : Bool) : Kernel H :=
  let s1 : Kernel H :=
    match heads with
    | some h =>
      let r := operations.surrender s.heads queue h previous_owner
      let new_owner := r.1
      let sa := (s.emit (Event.ops_surrender queue previous_owner)).setHeads r.2
      let sb := sa.updQueue queue (fun q => { q with owner := some new_owner })
      let sc := sb.updThread new_owner
        (fun c => { c with resource_count := (c.resource_count + 1) % 2 ^ 32 })
      let m := _Thread_queue_Make_ready_again sc new_owner
      _Thread_queue_Unblock_critical m.2 m.1 queue new_owner
    | none => _Thread_queue_Queue_release s queue
  if !keep_priority then
    let s2 := _Thread_Dispatch_disable s1
    let s3 := _Thread_Restore_priority s2 previous_owner
    _Thread_Dispatch_enable s3
  else s1

/-- Modelled from the spec: `_Thread_queue_First_locked` (header not part of
the sources) picks `ops.first(queue)`; it changes nothing. -/
def _Thread_queue_First_locked (s : Kernel H) (the_thread_queue : QueueId)
    (operations : Thread_queue_Operations H) : Option ThreadId :=
  operations.first s.heads the_thread_queue

/-- Source lines 630-660. -/
def _Thread_queue_Do_dequeue (s : Kernel H) (the_thread_queue : QueueId)
    (operations : Thread_queue_Operations H) : Option ThreadId × Kernel H :=
  let s1 := s.emit (Event.queue_acquire the_thread_queue)
  match _Thread_queue_First_locked s1 the_thread_queue operations with
  | some the_thread =>
    (some the_thread, _Thread_queue_Extract_critical s1 the_thread_queue operations the_thread)
  | none => (none, s1.emit (Event.queue_release the_thread_queue))

/-! ## Specification side notions -/

/-- Following `queue.owner` and `owner.Wait.queue` in turn from `queue`, an
owner equal to `the_thread` is met (hence before a queue without owner and
before an owner that does not wait, where the walk would end). -/
inductive Reaches_thread (s : Kernel H) (the_thread : ThreadId) : QueueId → Prop
  | here {queue : QueueId} :
      (s.queues queue).owner = some the_thread → Reaches_thread s the_thread queue
  | step {queue queue1 : QueueId} {owner : ThreadId} :
      (s.queues queue).owner = some owner →
      (s.threads owner).Wait.queue = some queue1 →
      Reaches_thread s the_thread queue1 → Reaches_thread s the_thread queue

/-- The owner chain from `queue` is finite: following `queue.owner` and
`owner.Wait.queue` in turn comes to an end, at a queue without owner or at an
owner that does not wait. -/
inductive Chain_finite (s : Kernel H) : QueueId → Prop
  | no_owner {queue : QueueId} :
      (s.queues queue).owner = none → Chain_finite s queue
  | not_waiting {queue : QueueId} {owner : ThreadId} :
      (s.queues queue).owner = some owner →
      (s.threads owner).Wait.queue = none → Chain_finite s queue
  | step {queue queue1 : QueueId} {owner : ThreadId} :
      (s.queues queue).owner = some owner →
      (s.threads owner).Wait.queue = some queue1 →
      Chain_finite s queue1 → Chain_finite s queue

/-- The owner chain from `queue`, as far as a walk on behalf of `the_thread`
follows it, is finite: it comes to an end as in `Chain_finite`, or at an owner
equal to `the_thread`.  Every finite owner chain is of this kind
(`Chain_finite.walk_finite`). -/
inductive Walk_finite (s : Kernel H) (the_thread : ThreadId) : QueueId → Prop
  | no_owner {queue : QueueId} :
      (s.queues queue).owner = none → Walk_finite s the_thread queue
  | at_thread {queue : QueueId} :
      (s.queues queue).owner = some the_thread → Walk_finite s the_thread queue
  | not_waiting {queue : QueueId} {owner : ThreadId} :
      (s.queues queue).owner = some owner →
      (s.threads owner).Wait.queue = none → Walk_finite s the_thread queue
  | step {queue queue1 : QueueId} {owner : ThreadId} :
      (s.queues queue).owner = some owner →
      (s.threads owner).Wait.queue = some queue1 →
      Walk_finite s the_thread queue1 → Walk_finite s the_thread queue

/-! ## Example configurations -/

/-- A first-in first-out discipline on heads that hold, per queue, the list of
waiting threads. -/
def fifo_operations : Thread_queue_Operations (QueueId → List ThreadId) where
  enqueue := fun h q t => (Function.update h q (h q ++ [t]), none)
  extract := fun h q t => Function.update h q ((h q).erase t)
  surrender := fun h q _ previous_owner =>
    ((h q).headD previous_owner, Function.update h q (h q).tail)
  first := fun h q => (h q).head?

/-- A thread that waits on nothing. -/
def idle_thread : Thread_Control (QueueId → List ThreadId) where
  Wait := { queue := none, operations := _Thread_queue_Operations_default,
            return_code := Status_Control.STATUS_SUCCESSFUL, flags := 0 }
  resource_count := 0

/-- A thread that waits on `queue` with the given wait flags. -/
def waiting_thread (queue : QueueId) (flags : Nat) :
    Thread_Control (QueueId → List ThreadId) where
  Wait := { queue := some queue, operations := fifo_operations,
            return_code := Status_Control.STATUS_SUCCESSFUL, flags := flags }
  resource_count := 0

/-- Nothing is owned, nobody waits. -/
def idle_kernel : Kernel (QueueId → List ThreadId) where
  threads := fun _ => idle_thread
  queues := fun _ => { owner := none }
  heads := fun _ => []
  Links := []
  thread_dispatch_disable_level := 0
  trace := []

/-- The two hop cycle: queue 1 is owned by thread 2, thread 2 is blocked on
queue 2, queue 2 is owned by thread 1. -/
def two_hop_kernel : Kernel (QueueId → List ThreadId) :=
  { idle_kernel with
    threads := fun t => if t = 2 then waiting_thread 2 THREAD_QUEUE_BLOCKED else idle_thread
    queues := fun q => if q = 1 then { owner := some 2 } else if q = 2 then { owner := some 1 }
                       else { owner := none }
    heads := fun q => if q = 2 then [2] else [] }

/-- The registry holds at most one link per source queue. -/
def One_link_per_source (links : List Thread_queue_Link) : Prop :=
  links.Pairwise (fun l1 l2 => l1.source ≠ l2.source)

/-- Walking forward from a queue along the links of the registry (from the
source of a link to its target) reaches the queue `source`. -/
inductive Registry_reaches (links : List Thread_queue_Link) (source : QueueId) :
    QueueId → Prop
  | last {q : QueueId} {l : Thread_queue_Link} :
      l ∈ links → l.source = q → l.target = source → Registry_reaches links source q
  | step {q : QueueId} {l : Thread_queue_Link} :
      l ∈ links → l.source = q → Registry_reaches links source l.target →
      Registry_reaches links source q

/-- Walking forward from a queue along the links of the registry comes to a
queue that is the source of no link. -/
inductive Registry_walk_ends (links : List Thread_queue_Link) : QueueId → Prop
  | stop {q : QueueId} : (∀ l ∈ links, l.source ≠ q) → Registry_walk_ends links q
  | step {q : QueueId} {l : Thread_queue_Link} :
      l ∈ links → l.source = q → Registry_walk_ends links l.target →
      Registry_walk_ends links q

/-- A registry with the one link from queue 1 to queue 2, held by the start
link of a path through thread 2. -/
def one_link_registry : List Thread_queue_Link :=
  [{ id := LinkId.Start, source := 1, target := 2, owner := 2, wait_queue := some 2 }]

/-- The idle kernel with `one_link_registry` as registry. -/
def one_link_kernel : Kernel (QueueId → List ThreadId) :=
  { idle_kernel with Links := one_link_registry }

/-- A link object of thread 1 before it is written. -/
def fresh_link : Thread_queue_Link :=
  { id := LinkId.Wait_Link 1, source := 0, target := 0, owner := 1, wait_queue := some 1 }

/-- Number of calls of `_Thread_Remove_timer_and_unblock` for `the_thread` in a
trace. -/
def unblock_calls (trace : List Event) (the_thread : ThreadId) : Nat :=
  trace.countP (fun e =>
    match e with
    | Event.remove_timer_and_unblock t _ => decide (t = the_thread)
    | _ => false)

/-- Thread 1 is enqueued on queue 1, which nobody owns, and has published
`THREAD_QUEUE_INTEND_TO_BLOCK`. -/
def intend_kernel : Kernel (QueueId → List ThreadId) :=
  { idle_kernel with
    threads := fun t =>
      if t = 1 then waiting_thread 1 THREAD_QUEUE_INTEND_TO_BLOCK else idle_thread
    heads := fun q => if q = 1 then [1] else []
    thread_dispatch_disable_level := 1 }

/-- The events of path building: wait locks, pending requests, the registry
lock. -/
def Event.is_path_event : Event → Bool
  | Event.wait_acquire_default _ => true
  | Event.wait_release_default _ => true
  | Event.wait_acquire_queue _ => true
  | Event.wait_release_queue _ => true
  | Event.gate_add _ _ => true
  | Event.remove_request _ => true
  | Event.registry_acquire => true
  | Event.registry_release => true
  | _ => false

/-- From `s` to `s1` nothing happened but path events and changes of the
registry. -/
def Path_frame (s s1 : Kernel H) : Prop :=
  s1.threads = s.threads ∧ s1.queues = s.queues ∧ s1.heads = s.heads ∧
  s1.thread_dispatch_disable_level = s.thread_dispatch_disable_level ∧
  ∃ events, s1.trace = s.trace ++ events ∧ ∀ e ∈ events, Event.is_path_event e = true

/-- The timer insertions of a trace, in order. -/
def timer_inserts (trace : List Event) : List Event :=
  trace.filter (fun e =>
    match e with
    | Event.timer_insert_relative _ _ => true
    | Event.timer_insert_absolute _ _ => true
    | _ => false)

/-- Queue 1 is owned by thread 1; nobody waits. -/
def owned_kernel : Kernel (QueueId → List ThreadId) :=
  { idle_kernel with
    queues := fun q => if q = 1 then { owner := some 1 } else { owner := none } }

/-- A queue context with the status deadlock callout. -/
def status_context (discipline : Watchdog_Discipline) (timeout : Nat) :
    Thread_queue_Context (QueueId → List ThreadId) where
  expected_thread_dispatch_disable_level := 1
  timeout_discipline := discipline
  timeout := timeout
  deadlock_callout := _Thread_queue_Deadlock_status

/-- Number of calls of `_Thread_Restore_priority` for `the_thread` in a
trace. -/
def restore_calls (trace : List Event) (the_thread : ThreadId) : Nat :=
  trace.count (Event.restore_priority the_thread)

/-- The three transitions of the wait flags the protocol allows. -/
def Legal_transition (old_flags new_flags : Nat) : Prop :=
  (old_flags = THREAD_QUEUE_INTEND_TO_BLOCK ∧ new_flags = THREAD_QUEUE_BLOCKED) ∨
  (old_flags = THREAD_QUEUE_INTEND_TO_BLOCK ∧ new_flags = THREAD_QUEUE_READY_AGAIN) ∨
  (old_flags = THREAD_QUEUE_BLOCKED ∧ new_flags = THREAD_QUEUE_READY_AGAIN)

/-- The calls of the wait flag mutators in a trace, in order. -/
def flag_calls (trace : List Event) : List Event :=
  trace.filter (fun e =>
    match e with
    | Event.flags_set _ _ => true
    | Event.flags_try_change_acquire _ _ _ _ => true
    | Event.flags_try_change_release _ _ _ _ => true
    | _ => false)

/-- Queue 1 is owned by thread 2, who waits on nothing. -/
def depth_one_kernel : Kernel (QueueId → List ThreadId) :=
  { idle_kernel with
    queues := fun q => if q = 1 then { owner := some 2 } else { owner := none } }

/-- A queue context with the status deadlock callout that expects the given
dispatch disable level. -/
def level_context (expected : Nat) (discipline : Watchdog_Discipline) (timeout : Nat) :
    Thread_queue_Context (QueueId → List ThreadId) where
  expected_thread_dispatch_disable_level := expected
  timeout_discipline := discipline
  timeout := timeout
  deadlock_callout := _Thread_queue_Deadlock_status

/-- The walk of the loop of `_Thread_queue_Path_acquire` without `RTEMS_SMP`
from `queue` on behalf of `the_thread`: the owners it meets, in order, the
number of iterations the loop makes, and the value it returns. -/
inductive Owner_walk (s : Kernel H) (the_thread : ThreadId) :
    QueueId → List ThreadId → Nat → Bool → Prop
  | no_owner {queue : QueueId} :
      (s.queues queue).owner = none → Owner_walk s the_thread queue [] 1 true
  | at_thread {queue : QueueId} :
      (s.queues queue).owner = some the_thread →
      Owner_walk s the_thread queue [the_thread] 1 false
  | not_waiting {queue : QueueId} {owner : ThreadId} :
      (s.queues queue).owner = some owner → owner ≠ the_thread →
      (s.threads owner).Wait.queue = none → Owner_walk s the_thread queue [owner] 1 true
  | step {queue queue1 : QueueId} {owner : ThreadId} {owners : List ThreadId} {n : Nat}
      {r : Bool} :
      (s.queues queue).owner = some owner → owner ≠ the_thread →
      (s.threads owner).Wait.queue = some queue1 →
      Owner_walk s the_thread queue1 owners n r →
      Owner_walk s the_thread queue (owner :: owners) (n + 1) r

/-- A cycle that does not contain thread 1: queue 1 is owned by thread 2, who
waits on queue 2, which is owned by thread 3, who waits on queue 1. -/
def cycle_kernel : Kernel (QueueId → List ThreadId) :=
  { idle_kernel with
    threads := fun t =>
      if t = 2 then waiting_thread 2 THREAD_QUEUE_BLOCKED
      else if t = 3 then waiting_thread 1 THREAD_QUEUE_BLOCKED else idle_thread
    queues := fun q => if q = 1 then { owner := some 2 } else if q = 2 then { owner := some 3 }
                       else { owner := none }
    heads := fun q => if q = 1 then [3] else if q = 2 then [2] else [] }

/-- The two hop cycle after thread 1 has claimed queue 1. -/
def claimed_two_hop_kernel : Kernel (QueueId → List ThreadId) :=
  _Thread_Wait_claim two_hop_kernel 1 1 fifo_operations

/-- The locks the walk of `_Thread_queue_Path_acquire` takes: the default wait
lock of a thread, the lock of a thread queue, the lock of the registry. -/
inductive Lock
  | thread_default (t : ThreadId)
  | queue (q : QueueId)
  | registry
  deriving DecidableEq

/-- What an event of path building does to the number of holders of `lock`:
an acquire adds one, a release takes one away. -/
def Event.lock_delta (lock : Lock) : Event → Int
  | Event.wait_acquire_default t => if lock = Lock.thread_default t then 1 else 0
  | Event.wait_release_default t => if lock = Lock.thread_default t then -1 else 0
  | Event.wait_acquire_queue q => if lock = Lock.queue q then 1 else 0
  | Event.wait_release_queue (some q) => if lock = Lock.queue q then -1 else 0
  | Event.registry_acquire => if lock = Lock.registry then 1 else 0
  | Event.registry_release => if lock = Lock.registry then -1 else 0
  | _ => 0

/-- Acquires minus releases of `lock` in a trace. -/
def locks_held (trace : List Event) (lock : Lock) : Int :=
  (trace.map (Event.lock_delta lock)).sum

/-- The lock a link of a path stands for: the lock of the queue its owner waits
on, or the default wait lock of its owner when the owner waits on nothing. -/
def Thread_queue_Link.lock_held (link : Thread_queue_Link) (lock : Lock) : Int :=
  match link.wait_queue with
  | some q => if lock = Lock.queue q then 1 else 0
  | none => if lock = Lock.thread_default link.owner then 1 else 0

/-- How often the links of a path stand for `lock`. -/
def Path_locks (links : List Thread_queue_Link) (lock : Lock) : Int :=
  (links.map (fun l => l.lock_held lock)).sum

/-- The links of a path that are in the registry: those whose owner waits on a
queue. -/
def Path_registered (links : List Thread_queue_Link) : List Thread_queue_Link :=
  links.filter (fun l => l.wait_queue.isSome)

/-- Modelled from the spec: the class of a wait flags word, the part of the
word under `THREAD_WAIT_CLASS_MASK` (the header is not part of the sources). -/
def Thread_Wait_flags_class (flags : Nat) : Nat :=
  flags &&& THREAD_WAIT_CLASS_MASK

/-- A thread with `Wait.queue` set has wait flags of the object class. -/
def Wait_queue_has_object_class (s : Kernel H) : Prop :=
  ∀ t, (s.threads t).Wait.queue ≠ none →
    Thread_Wait_flags_class (s.threads t).Wait.flags = THREAD_WAIT_CLASS_OBJECT

/-- The state in which a call ends. -/
def Outcome.state {σ : Type} : Outcome σ → σ
  | Outcome.returned s => s
  | Outcome.terminated _ s => s

/-- The state at a stage of `_Thread_queue_Enqueue_critical`. -/
def Enqueue_stage.state : Enqueue_stage H → Kernel H
  | Enqueue_stage.finished o => o.state
  | Enqueue_stage.blocking s _ => s

/-- The deadlock callout is one of the two of the file. -/
def Standard_callout (queue_context : Thread_queue_Context H) : Prop :=
  queue_context.deadlock_callout = _Thread_queue_Deadlock_status ∨
  queue_context.deadlock_callout = _Thread_queue_Deadlock_fatal

/-- One step of a party on the state: a call of one of the operations run to
its end, or one of the two halves of `_Thread_queue_Enqueue_critical` (up to
the arming of the timer; the reconciliation of the wait flags), between which
other parties can run. -/
inductive Thread_queue_Step : Kernel H → Kernel H → Prop
  | block (b : Build) (fuel : Nat) (s : Kernel H) (queue : QueueId)
      (operations : Thread_queue_Operations H) (the_thread : ThreadId) (state : Nat)
      (queue_context : Thread_queue_Context H) (stage : Enqueue_stage H) :
      Standard_callout queue_context →
      _Thread_queue_Enqueue_critical_block b fuel s queue operations the_thread state
        queue_context = some stage →
      Thread_queue_Step s stage.state
  | reconcile (s : Kernel H) (queue : QueueId) (the_thread : ThreadId)
      (path : Thread_queue_Path) :
      Thread_queue_Step s (_Thread_queue_Enqueue_critical_reconcile s queue the_thread path)
  | enqueue (b : Build) (fuel : Nat) (s : Kernel H) (queue : QueueId)
      (operations : Thread_queue_Operations H) (the_thread : ThreadId) (state : Nat)
      (queue_context : Thread_queue_Context H) (o : Outcome (Kernel H)) :
      Standard_callout queue_context →
      _Thread_queue_Enqueue_critical b fuel s queue operations the_thread state
        queue_context = some o →
      Thread_queue_Step s o.state
  | make_ready_again (s : Kernel H) (the_thread : ThreadId) :
      Thread_queue_Step s (_Thread_queue_Make_ready_again s the_thread).2
  | do_extract_locked (s : Kernel H) (queue : QueueId)
      (operations : Thread_queue_Operations H) (the_thread : ThreadId) :
      Thread_queue_Step s (_Thread_queue_Do_extract_locked s queue operations the_thread).2
  | extract_critical (s : Kernel H) (queue : QueueId)
      (operations : Thread_queue_Operations H) (the_thread : ThreadId) :
      Thread_queue_Step s (_Thread_queue_Extract_critical s queue operations the_thread)
  | extract (s : Kernel H) (the_thread : ThreadId) :
      Thread_queue_Step s (_Thread_queue_Extract s the_thread)
  | surrender (s : Kernel H) (queue : QueueId) (operations : Thread_queue_Operations H)
      (heads : Option HeadsPtr) (previous_owner : ThreadId) (keep_priority : Bool) :
      Thread_queue_Step s
        (_Thread_queue_Surrender s queue operations heads previous_owner keep_priority)
  | do_dequeue (s : Kernel H) (the_thread_queue : QueueId)
      (operations : Thread_queue_Operations H) :
      Thread_queue_Step s (_Thread_queue_Do_dequeue s the_thread_queue operations).2

/-- The in-order sequence of the registry is ordered by the key of the map, the
source queue. -/
def Registry_ordered (links : List Thread_queue_Link) : Prop :=
  links.Pairwise (fun a b => a.source ≤ b.source)

/-- The registry has no cycle: walking forward from a queue along the links
never comes back to that queue. -/
def Registry_acyclic (links : List Thread_queue_Link) : Prop :=
  ∀ q, ¬ Registry_reaches links q q

/-- The wait flags of every thread with `Wait.queue` set are INTEND_TO_BLOCK or
BLOCKED: what `_Thread_queue_Make_ready_again` relies on when its
compare-and-set from INTEND_TO_BLOCK fails (the `_Assert` there). -/
def Wait_flags_admissible (s : Kernel H) : Prop :=
  ∀ t, (s.threads t).Wait.queue ≠ none →
    (s.threads t).Wait.flags = THREAD_QUEUE_INTEND_TO_BLOCK ∨
    (s.threads t).Wait.flags = THREAD_QUEUE_BLOCKED

/-! ## Lemmas -/

theorem THREAD_QUEUE_INTEND_TO_BLOCK_eq :
    THREAD_QUEUE_INTEND_TO_BLOCK
      = THREAD_WAIT_CLASS_OBJECT ||| THREAD_WAIT_STATE_INTEND_TO_BLOCK := by
  decide

theorem THREAD_QUEUE_BLOCKED_eq :
    THREAD_QUEUE_BLOCKED = THREAD_WAIT_CLASS_OBJECT ||| THREAD_WAIT_STATE_BLOCKED := by
  decide

theorem THREAD_QUEUE_READY_AGAIN_eq :
    THREAD_QUEUE_READY_AGAIN = THREAD_WAIT_CLASS_OBJECT ||| THREAD_WAIT_STATE_READY_AGAIN := by
  decide

theorem Chain_finite.walk_finite {s : Kernel H} {queue : QueueId} (the_thread : ThreadId)
    (h : Chain_finite s queue) : Walk_finite s the_thread queue := by
  induction h with
  | no_owner h => exact Walk_finite.no_owner h
  | not_waiting h1 h2 => exact Walk_finite.not_waiting h1 h2
  | step h1 h2 _ ih => exact Walk_finite.step h1 h2 ih

theorem Reaches_thread.owner_some {s : Kernel H} {the_thread : ThreadId} {queue : QueueId}
    (h : Reaches_thread s the_thread queue) : ∃ owner, (s.queues queue).owner = some owner := by
  cases h with
  | here h => exact ⟨_, h⟩
  | step h _ _ => exact ⟨_, h⟩

theorem Reaches_thread.step_iff {s : Kernel H} {the_thread owner : ThreadId}
    {queue queue1 : QueueId} (ho : (s.queues queue).owner = some owner)
    (hne : owner ≠ the_thread) (hw : (s.threads owner).Wait.queue = some queue1) :
    Reaches_thread s the_thread queue ↔ Reaches_thread s the_thread queue1 := by
  constructor
  · intro h
    cases h with
    | here h =>
      rw [ho] at h
      exact absurd (Option.some.inj h) hne
    | step h1 h2 h3 =>
      rw [ho] at h1
      cases Option.some.inj h1
      rw [hw] at h2
      cases Option.some.inj h2
      exact h3
  · intro h
    exact Reaches_thread.step ho hw h

/-! ## Claims -/

/-- C1: without SMP, `_Thread_queue_Path_acquire(thread, queue)` on a finite
owner chain returns (given enough fuel for its loop) a value that is false
exactly when following `queue.owner` and `owner.Wait.queue` in turn from
`queue` meets an owner equal to `thread`, and true otherwise. -/
theorem Path_acquire_UP_deadlock_iff (s : Kernel H) (the_thread : ThreadId) (queue : QueueId)
    (hfin : Walk_finite s the_thread queue) :
    ∃ n b, (∀ m, n ≤ m → _Thread_queue_Path_acquire_UP s the_thread m queue = some b) ∧
      (b = false ↔ Reaches_thread s the_thread queue) := by
  induction hfin with
  | no_owner h =>
    refine ⟨1, true, ?_, ?_⟩
    · intro m hm
      obtain ⟨k, rfl⟩ := Nat.exists_eq_add_of_le hm
      rw [Nat.add_comm]
      simp [_Thread_queue_Path_acquire_UP, h]
    · constructor
      · intro hb
        cases hb
      · intro hr
        obtain ⟨o, ho⟩ := hr.owner_some
        rw [h] at ho
        cases ho
  | at_thread h =>
    refine ⟨1, false, ?_, ?_⟩
    · intro m hm
      obtain ⟨k, rfl⟩ := Nat.exists_eq_add_of_le hm
      rw [Nat.add_comm]
      simp [_Thread_queue_Path_acquire_UP, h]
    · exact ⟨fun _ => Reaches_thread.here h, fun _ => rfl⟩
  | @not_waiting queue owner h1 h2 =>
    by_cases hot : owner = the_thread
    · subst hot
      refine ⟨1, false, ?_, ?_⟩
      · intro m hm
        obtain ⟨k, rfl⟩ := Nat.exists_eq_add_of_le hm
        rw [Nat.add_comm]
        simp [_Thread_queue_Path_acquire_UP, h1]
      · exact ⟨fun _ => Reaches_thread.here h1, fun _ => rfl⟩
    · refine ⟨1, true, ?_, ?_⟩
      · intro m hm
        obtain ⟨k, rfl⟩ := Nat.exists_eq_add_of_le hm
        rw [Nat.add_comm]
        simp [_Thread_queue_Path_acquire_UP, h1, h2, hot]
      · constructor
        · intro hb
          cases hb
        · intro hr
          cases hr with
          | here h =>
            rw [h1] at h
            exact absurd (Option.some.inj h) hot
          | step h3 h4 _ =>
            rw [h1] at h3
            cases Option.some.inj h3
            rw [h2] at h4
            cases h4
  | @step queue queue1 owner h1 h2 _ ih =>
    by_cases hot : owner = the_thread
    · subst hot
      refine ⟨1, false, ?_, ?_⟩
      · intro m hm
        obtain ⟨k, rfl⟩ := Nat.exists_eq_add_of_le hm
        rw [Nat.add_comm]
        simp [_Thread_queue_Path_acquire_UP, h1]
      · exact ⟨fun _ => Reaches_thread.here h1, fun _ => rfl⟩
    · obtain ⟨n, b, hrun, hb⟩ := ih
      refine ⟨n + 1, b, ?_, ?_⟩
      · intro m hm
        obtain ⟨k, rfl⟩ := Nat.exists_eq_add_of_le hm
        have hk : n + 1 + k = (n + k) + 1 := by omega
        rw [hk]
        simp only [_Thread_queue_Path_acquire_UP, h1, h2, hot, if_false]
        exact hrun (n + k) (Nat.le_add_right n k)
      · rw [hb]
        exact (Reaches_thread.step_iff h1 hot h2).symm

/-- Witness of C1 on the two hop cycle: thread 1 asks for queue 1. -/
theorem Path_acquire_UP_deadlock_iff_witness :
    Walk_finite two_hop_kernel 1 1 ∧
    ∃ n b, (∀ m, n ≤ m → _Thread_queue_Path_acquire_UP two_hop_kernel 1 m 1 = some b) ∧
      (b = false ↔ Reaches_thread two_hop_kernel 1 1) :=
  ⟨@Walk_finite.step _ two_hop_kernel 1 1 2 2 rfl rfl (Walk_finite.at_thread rfl),
   Path_acquire_UP_deadlock_iff two_hop_kernel 1 1
     (@Walk_finite.step _ two_hop_kernel 1 1 2 2 rfl rfl (Walk_finite.at_thread rfl))⟩

theorem Link_find_some {links : List Thread_queue_Link} {q : QueueId} {l : Thread_queue_Link}
    (h : _Thread_queue_Link_find links q = some l) : l ∈ links ∧ l.source = q := by
  unfold _Thread_queue_Link_find _RBTree_Find_inline at h
  refine ⟨List.mem_of_find?_eq_some h, ?_⟩
  have := List.find?_some h
  simp [_Thread_queue_Link_equal] at this
  exact this.symm

theorem Link_find_none {links : List Thread_queue_Link} {q : QueueId}
    (h : _Thread_queue_Link_find links q = none) : ∀ l ∈ links, l.source ≠ q := by
  unfold _Thread_queue_Link_find _RBTree_Find_inline at h
  intro l hl hq
  have := List.find?_eq_none.mp h l hl
  simp [_Thread_queue_Link_equal] at this
  exact this hq.symm

theorem Link_find_of_mem {links : List Thread_queue_Link} (huniq : One_link_per_source links)
    {l : Thread_queue_Link} (hl : l ∈ links) :
    _Thread_queue_Link_find links l.source = some l := by
  unfold _Thread_queue_Link_find _RBTree_Find_inline
  induction links with
  | nil => cases hl
  | cons a rest ih =>
    unfold One_link_per_source at huniq
    rw [List.pairwise_cons] at huniq
    by_cases hal : a = l
    · subst hal
      simp [List.find?, _Thread_queue_Link_equal]
    · have hl1 : l ∈ rest := by
        rcases List.mem_cons.mp hl with h | h
        · exact absurd h.symm hal
        · exact h
      have hne : a.source ≠ l.source := huniq.1 l hl1
      have hne1 : ¬ l.source = a.source := fun h => hne h.symm
      simp only [List.find?, _Thread_queue_Link_equal, hne1, decide_False]
      exact ih huniq.2 hl1

theorem Link_add_walk_false {links : List Thread_queue_Link} {source : QueueId} :
    ∀ (n : Nat) (t : QueueId), _Thread_queue_Link_add_walk links source n t = some false →
      Registry_reaches links source t := by
  intro n
  induction n with
  | zero =>
    intro t h
    simp [_Thread_queue_Link_add_walk] at h
  | succ n ih =>
    intro t h
    unfold _Thread_queue_Link_add_walk at h
    cases hf : _Thread_queue_Link_find links t with
    | none => simp [hf] at h
    | some l =>
      obtain ⟨hmem, hsrc⟩ := Link_find_some hf
      simp only [hf] at h
      by_cases ht : l.target = source
      · exact Registry_reaches.last hmem hsrc ht
      · simp only [ht, if_false] at h
        exact Registry_reaches.step hmem hsrc (ih _ h)

theorem Link_add_walk_true {links : List Thread_queue_Link}
    (huniq : One_link_per_source links) {source : QueueId} :
    ∀ (n : Nat) (t : QueueId), _Thread_queue_Link_add_walk links source n t = some true →
      ¬ Registry_reaches links source t := by
  intro n
  induction n with
  | zero =>
    intro t h
    simp [_Thread_queue_Link_add_walk] at h
  | succ n ih =>
    intro t h hr
    unfold _Thread_queue_Link_add_walk at h
    cases hf : _Thread_queue_Link_find links t with
    | none =>
      have hno := Link_find_none hf
      cases hr with
      | last hm hs _ => exact hno _ hm hs
      | step hm hs _ => exact hno _ hm hs
    | some l =>
      simp only [hf] at h
      by_cases ht : l.target = source
      · simp [ht] at h
      · simp only [ht, if_false] at h
        cases hr with
        | @last _ l1 hm hs htg =>
          have h1 := Link_find_of_mem huniq hm
          rw [hs, hf] at h1
          cases Option.some.inj h1
          exact ht htg
        | @step _ l1 hm hs hrest =>
          have h1 := Link_find_of_mem huniq hm
          rw [hs, hf] at h1
          cases Option.some.inj h1
          exact ih _ h hrest

theorem Link_add_walk_of_reaches {links : List Thread_queue_Link}
    (huniq : One_link_per_source links) {source t : QueueId}
    (hr : Registry_reaches links source t) :
    ∃ n, ∀ m, n ≤ m → _Thread_queue_Link_add_walk links source m t = some false := by
  induction hr with
  | @last q l hm hs htg =>
    refine ⟨1, fun m hle => ?_⟩
    obtain ⟨k, rfl⟩ := Nat.exists_eq_add_of_le hle
    have hf := Link_find_of_mem huniq hm
    rw [hs] at hf
    rw [Nat.add_comm]
    simp [_Thread_queue_Link_add_walk, hf, htg]
  | @step q l hm hs _ ih =>
    obtain ⟨n, hn⟩ := ih
    refine ⟨n + 1, fun m hle => ?_⟩
    obtain ⟨k, rfl⟩ := Nat.exists_eq_add_of_le hle
    have hf := Link_find_of_mem huniq hm
    rw [hs] at hf
    have hk : n + 1 + k = (n + k) + 1 := by omega
    rw [hk]
    by_cases htg : l.target = source
    · simp [_Thread_queue_Link_add_walk, hf, htg]
    · simp only [_Thread_queue_Link_add_walk, hf, htg, if_false]
      exact hn (n + k) (Nat.le_add_right n k)

theorem Link_add_walk_of_ends {links : List Thread_queue_Link}
    (huniq : One_link_per_source links) (source : QueueId) {t : QueueId}
    (he : Registry_walk_ends links t) :
    ∃ n b, ∀ m, n ≤ m → _Thread_queue_Link_add_walk links source m t = some b := by
  induction he with
  | @stop q hno =>
    refine ⟨1, true, fun m hle => ?_⟩
    obtain ⟨k, rfl⟩ := Nat.exists_eq_add_of_le hle
    have hf : _Thread_queue_Link_find links q = none := by
      cases hq : _Thread_queue_Link_find links q with
      | none => rfl
      | some l => exact absurd (Link_find_some hq).2 (hno l (Link_find_some hq).1)
    rw [Nat.add_comm]
    simp [_Thread_queue_Link_add_walk, hf]
  | @step q l hm hs _ ih =>
    have hf := Link_find_of_mem huniq hm
    rw [hs] at hf
    by_cases htg : l.target = source
    · refine ⟨1, false, fun m hle => ?_⟩
      obtain ⟨k, rfl⟩ := Nat.exists_eq_add_of_le hle
      rw [Nat.add_comm]
      simp [_Thread_queue_Link_add_walk, hf, htg]
    · obtain ⟨n, b, hn⟩ := ih
      refine ⟨n + 1, b, fun m hle => ?_⟩
      obtain ⟨k, rfl⟩ := Nat.exists_eq_add_of_le hle
      have hk : n + 1 + k = (n + k) + 1 := by omega
      rw [hk]
      simp only [_Thread_queue_Link_add_walk, hf, htg, if_false]
      exact hn (n + k) (Nat.le_add_right n k)

theorem RBTree_Insert_inline_perm (tree : List Thread_queue_Link) (node : Thread_queue_Link)
    (key : QueueId) (less : QueueId → Thread_queue_Link → Bool) :
    (_RBTree_Insert_inline tree node key less).Perm (node :: tree) := by
  induction tree with
  | nil => exact List.Perm.refl _
  | cons a rest ih =>
    unfold _RBTree_Insert_inline
    by_cases h : less key a = true
    · simp [h]
    · simp only [h]
      exact (List.Perm.cons a ih).trans (List.Perm.swap node a rest)

/-- C2: on a registry with at most one link per source queue,
`_Thread_queue_Link_add(link, source, target)` returns false exactly when
walking forward from `target` along the links of the registry reaches `source`;
it then leaves the registry as it was; when it returns true the registry is the
old one plus the one link `source -> target`.  The call returns (given enough
fuel for its loop) whenever the walk reaches `source` or comes to an end. -/
theorem Link_add_spec (s : Kernel H) (link : Thread_queue_Link) (source target : QueueId)
    (huniq : One_link_per_source s.Links) :
    ((Registry_reaches s.Links source target ∨ Registry_walk_ends s.Links target) →
        ∃ n r, ∀ m, n ≤ m → _Thread_queue_Link_add m s link source target = some r) ∧
    (∀ m r, _Thread_queue_Link_add m s link source target = some r →
        (r.1 = false ↔ Registry_reaches s.Links source target) ∧
        (r.1 = false → r.2.2.Links = s.Links) ∧
        (r.1 = true →
          r.2.2.Links.Perm ({ link with source := source, target := target } :: s.Links))) := by
  have hemit : (s.emit Event.registry_acquire).Links = s.Links := rfl
  constructor
  · intro hcase
    have hwalk : ∃ n b, ∀ m, n ≤ m →
        _Thread_queue_Link_add_walk s.Links source m target = some b := by
      rcases hcase with hr | he
      · obtain ⟨n, hn⟩ := Link_add_walk_of_reaches huniq hr
        exact ⟨n, false, hn⟩
      · exact Link_add_walk_of_ends huniq source he
    obtain ⟨n, b, hn⟩ := hwalk
    cases b with
    | false =>
      refine ⟨n, (false, link, (s.emit Event.registry_acquire).emit Event.registry_release),
        fun m hle => ?_⟩
      unfold _Thread_queue_Link_add
      simp only [hemit, hn m hle]
    | true =>
      let link1 : Thread_queue_Link := { link with source := source, target := target }
      let s2 : Kernel H := (s.emit Event.registry_acquire).setLinks
        (_RBTree_Insert_inline s.Links link1 source _Thread_queue_Link_less)
      refine ⟨n, (true, link1, s2.emit Event.registry_release), fun m hle => ?_⟩
      unfold _Thread_queue_Link_add
      simp only [hemit, hn m hle]
  · intro m r hrun
    unfold _Thread_queue_Link_add at hrun
    simp only [hemit] at hrun
    cases hw : _Thread_queue_Link_add_walk s.Links source m target with
    | none => simp [hw] at hrun
    | some b =>
      cases b with
      | false =>
        simp only [hw, Option.some.injEq] at hrun
        subst hrun
        refine ⟨⟨fun _ => Link_add_walk_false m target hw, fun _ => rfl⟩, fun _ => rfl, ?_⟩
        intro h
        cases h
      | true =>
        simp only [hw, Option.some.injEq] at hrun
        subst hrun
        refine ⟨⟨fun h => (by cases h), fun h => ?_⟩, fun h => (by cases h), fun _ => ?_⟩
        · exact absurd h (Link_add_walk_true huniq m target hw)
        · exact RBTree_Insert_inline_perm _ _ _ _

/-- Witness of C2: the registry holds the link 1 -> 2 and a link 2 -> 1 is to
be added, which would close a cycle. -/
theorem Link_add_spec_witness :
    One_link_per_source one_link_kernel.Links ∧
    (∃ n r, ∀ m, n ≤ m → _Thread_queue_Link_add m one_link_kernel fresh_link 2 1 = some r) ∧
    (_Thread_queue_Link_add 1 one_link_kernel fresh_link 2 1).map (fun r => r.1)
      = some false :=
  ⟨by simp [One_link_per_source, one_link_kernel, one_link_registry],
   (Link_add_spec one_link_kernel fresh_link 2 1
      (by simp [One_link_per_source, one_link_kernel, one_link_registry])).1
      (Or.inl (@Registry_reaches.last one_link_registry 2 1
        { id := LinkId.Start, source := 1, target := 2, owner := 2, wait_queue := some 2 }
        (List.mem_singleton.mpr rfl) rfl rfl)),
   by decide⟩

theorem INTEND_TO_BLOCK_ne_BLOCKED : THREAD_QUEUE_INTEND_TO_BLOCK ≠ THREAD_QUEUE_BLOCKED := by
  decide

theorem INTEND_TO_BLOCK_ne_READY_AGAIN :
    THREAD_QUEUE_INTEND_TO_BLOCK ≠ THREAD_QUEUE_READY_AGAIN := by
  decide

theorem BLOCKED_ne_READY_AGAIN : THREAD_QUEUE_BLOCKED ≠ THREAD_QUEUE_READY_AGAIN := by
  decide

@[simp] theorem emit_threads (s : Kernel H) (e : Event) : (s.emit e).threads = s.threads := rfl

@[simp] theorem emit_queues (s : Kernel H) (e : Event) : (s.emit e).queues = s.queues := rfl

@[simp] theorem emit_heads (s : Kernel H) (e : Event) : (s.emit e).heads = s.heads := rfl

@[simp] theorem emit_Links (s : Kernel H) (e : Event) : (s.emit e).Links = s.Links := rfl

@[simp] theorem emit_level (s : Kernel H) (e : Event) :
    (s.emit e).thread_dispatch_disable_level = s.thread_dispatch_disable_level := rfl

@[simp] theorem emit_trace (s : Kernel H) (e : Event) : (s.emit e).trace = s.trace ++ [e] := rfl

@[simp] theorem setHeads_threads (s : Kernel H) (h : H) : (s.setHeads h).threads = s.threads :=
  rfl

@[simp] theorem setHeads_queues (s : Kernel H) (h : H) : (s.setHeads h).queues = s.queues := rfl

@[simp] theorem setHeads_heads (s : Kernel H) (h : H) : (s.setHeads h).heads = h := rfl

@[simp] theorem setHeads_Links (s : Kernel H) (h : H) : (s.setHeads h).Links = s.Links := rfl

@[simp] theorem setHeads_level (s : Kernel H) (h : H) :
    (s.setHeads h).thread_dispatch_disable_level = s.thread_dispatch_disable_level := rfl

@[simp] theorem setHeads_trace (s : Kernel H) (h : H) : (s.setHeads h).trace = s.trace := rfl

@[simp] theorem setLinks_threads (s : Kernel H) (l : List Thread_queue_Link) :
    (s.setLinks l).threads = s.threads := rfl

@[simp] theorem setLinks_queues (s : Kernel H) (l : List Thread_queue_Link) :
    (s.setLinks l).queues = s.queues := rfl

@[simp] theorem setLinks_heads (s : Kernel H) (l : List Thread_queue_Link) :
    (s.setLinks l).heads = s.heads := rfl

@[simp] theorem setLinks_Links (s : Kernel H) (l : List Thread_queue_Link) :
    (s.setLinks l).Links = l := rfl

@[simp] theorem setLinks_level (s : Kernel H) (l : List Thread_queue_Link) :
    (s.setLinks l).thread_dispatch_disable_level = s.thread_dispatch_disable_level := rfl

@[simp] theorem setLinks_trace (s : Kernel H) (l : List Thread_queue_Link) :
    (s.setLinks l).trace = s.trace := rfl

@[simp] theorem setLevel_threads (s : Kernel H) (n : Nat) : (s.setLevel n).threads = s.threads :=
  rfl

@[simp] theorem setLevel_queues (s : Kernel H) (n : Nat) : (s.setLevel n).queues = s.queues := rfl

@[simp] theorem setLevel_heads (s : Kernel H) (n : Nat) : (s.setLevel n).heads = s.heads := rfl

@[simp] theorem setLevel_Links (s : Kernel H) (n : Nat) : (s.setLevel n).Links = s.Links := rfl

@[simp] theorem setLevel_level (s : Kernel H) (n : Nat) :
    (s.setLevel n).thread_dispatch_disable_level = n := rfl

@[simp] theorem setLevel_trace (s : Kernel H) (n : Nat) : (s.setLevel n).trace = s.trace := rfl

@[simp] theorem updQueue_Links (s : Kernel H) (q : QueueId)
    (f : Thread_queue_Queue → Thread_queue_Queue) : (s.updQueue q f).Links = s.Links := rfl

@[simp] theorem updQueue_level (s : Kernel H) (q : QueueId)
    (f : Thread_queue_Queue → Thread_queue_Queue) :
    (s.updQueue q f).thread_dispatch_disable_level = s.thread_dispatch_disable_level := rfl

@[simp] theorem updThread_threads_same (s : Kernel H) (t : ThreadId)
    (f : Thread_Control H → Thread_Control H) :
    (s.updThread t f).threads t = f (s.threads t) := by
  simp [Kernel.updThread]

theorem updThread_threads_other (s : Kernel H) {t t1 : ThreadId}
    (f : Thread_Control H → Thread_Control H) (h : t1 ≠ t) :
    (s.updThread t f).threads t1 = s.threads t1 := by
  simp [Kernel.updThread, Function.update, h]

@[simp] theorem updThread_queues (s : Kernel H) (t : ThreadId)
    (f : Thread_Control H → Thread_Control H) : (s.updThread t f).queues = s.queues := rfl

@[simp] theorem updThread_heads (s : Kernel H) (t : ThreadId)
    (f : Thread_Control H → Thread_Control H) : (s.updThread t f).heads = s.heads := rfl

@[simp] theorem updThread_Links (s : Kernel H) (t : ThreadId)
    (f : Thread_Control H → Thread_Control H) : (s.updThread t f).Links = s.Links := rfl

@[simp] theorem updThread_level (s : Kernel H) (t : ThreadId)
    (f : Thread_Control H → Thread_Control H) :
    (s.updThread t f).thread_dispatch_disable_level = s.thread_dispatch_disable_level := rfl

@[simp] theorem updThread_trace (s : Kernel H) (t : ThreadId)
    (f : Thread_Control H → Thread_Control H) : (s.updThread t f).trace = s.trace := rfl

@[simp] theorem updQueue_queues_same (s : Kernel H) (q : QueueId)
    (f : Thread_queue_Queue → Thread_queue_Queue) :
    (s.updQueue q f).queues q = f (s.queues q) := by
  simp [Kernel.updQueue]

theorem updQueue_queues_other (s : Kernel H) {q q1 : QueueId}
    (f : Thread_queue_Queue → Thread_queue_Queue) (h : q1 ≠ q) :
    (s.updQueue q f).queues q1 = s.queues q1 := by
  simp [Kernel.updQueue, Function.update, h]

@[simp] theorem updQueue_threads (s : Kernel H) (q : QueueId)
    (f : Thread_queue_Queue → Thread_queue_Queue) : (s.updQueue q f).threads = s.threads := rfl

@[simp] theorem updQueue_heads (s : Kernel H) (q : QueueId)
    (f : Thread_queue_Queue → Thread_queue_Queue) : (s.updQueue q f).heads = s.heads := rfl

@[simp] theorem updQueue_trace (s : Kernel H) (q : QueueId)
    (f : Thread_queue_Queue → Thread_queue_Queue) : (s.updQueue q f).trace = s.trace := rfl

@[simp] theorem storeFlags_threads (s : Kernel H) (t : ThreadId) (f : Nat) :
    (s.storeFlags t f).threads
      = Function.update s.threads t
          { s.threads t with Wait := { (s.threads t).Wait with flags := f } } := rfl

@[simp] theorem storeFlags_queues (s : Kernel H) (t : ThreadId) (f : Nat) :
    (s.storeFlags t f).queues = s.queues := rfl

@[simp] theorem storeFlags_heads (s : Kernel H) (t : ThreadId) (f : Nat) :
    (s.storeFlags t f).heads = s.heads := rfl

@[simp] theorem storeFlags_Links (s : Kernel H) (t : ThreadId) (f : Nat) :
    (s.storeFlags t f).Links = s.Links := rfl

@[simp] theorem storeFlags_level (s : Kernel H) (t : ThreadId) (f : Nat) :
    (s.storeFlags t f).thread_dispatch_disable_level = s.thread_dispatch_disable_level := rfl

@[simp] theorem storeFlags_trace (s : Kernel H) (t : ThreadId) (f : Nat) :
    (s.storeFlags t f).trace = s.trace := rfl

@[simp] theorem storeReturnCode_threads (s : Kernel H) (t : ThreadId) (c : Status_Control) :
    (s.storeReturnCode t c).threads
      = Function.update s.threads t
          { s.threads t with Wait := { (s.threads t).Wait with return_code := c } } := rfl

@[simp] theorem storeReturnCode_queues (s : Kernel H) (t : ThreadId) (c : Status_Control) :
    (s.storeReturnCode t c).queues = s.queues := rfl

@[simp] theorem storeReturnCode_heads (s : Kernel H) (t : ThreadId) (c : Status_Control) :
    (s.storeReturnCode t c).heads = s.heads := rfl

@[simp] theorem storeReturnCode_Links (s : Kernel H) (t : ThreadId) (c : Status_Control) :
    (s.storeReturnCode t c).Links = s.Links := rfl

@[simp] theorem storeReturnCode_level (s : Kernel H) (t : ThreadId) (c : Status_Control) :
    (s.storeReturnCode t c).thread_dispatch_disable_level = s.thread_dispatch_disable_level :=
  rfl

@[simp] theorem storeReturnCode_trace (s : Kernel H) (t : ThreadId) (c : Status_Control) :
    (s.storeReturnCode t c).trace = s.trace ++ [Event.return_code_store t c] := rfl

@[simp] theorem Wait_claim_threads (s : Kernel H) (t : ThreadId) (q : QueueId)
    (ops : Thread_queue_Operations H) :
    (_Thread_Wait_claim s t q ops).threads
      = Function.update s.threads t
          { s.threads t with
            Wait := { (s.threads t).Wait with queue := some q, operations := ops } } := rfl

@[simp] theorem Wait_claim_queues (s : Kernel H) (t : ThreadId) (q : QueueId)
    (ops : Thread_queue_Operations H) : (_Thread_Wait_claim s t q ops).queues = s.queues := rfl

@[simp] theorem Wait_claim_heads (s : Kernel H) (t : ThreadId) (q : QueueId)
    (ops : Thread_queue_Operations H) : (_Thread_Wait_claim s t q ops).heads = s.heads := rfl

@[simp] theorem Wait_claim_Links (s : Kernel H) (t : ThreadId) (q : QueueId)
    (ops : Thread_queue_Operations H) : (_Thread_Wait_claim s t q ops).Links = s.Links := rfl

@[simp] theorem Wait_claim_level (s : Kernel H) (t : ThreadId) (q : QueueId)
    (ops : Thread_queue_Operations H) :
    (_Thread_Wait_claim s t q ops).thread_dispatch_disable_level
      = s.thread_dispatch_disable_level := rfl

@[simp] theorem Wait_claim_trace (s : Kernel H) (t : ThreadId) (q : QueueId)
    (ops : Thread_queue_Operations H) :
    (_Thread_Wait_claim s t q ops).trace = s.trace ++ [Event.wait_claim t q] := rfl

/-- What `_Thread_queue_Make_ready_again` does, for every value of the flags. -/
theorem Make_ready_again_run (s : Kernel H) (the_thread : ThreadId) :
    (_Thread_queue_Make_ready_again s the_thread).1
        = !decide ((s.threads the_thread).Wait.flags = THREAD_QUEUE_INTEND_TO_BLOCK) ∧
    (_Thread_queue_Make_ready_again s the_thread).2.threads
        = Function.update s.threads the_thread
            { s.threads the_thread with
              Wait := { (s.threads the_thread).Wait with
                        flags := THREAD_QUEUE_READY_AGAIN, queue := none,
                        operations := _Thread_queue_Operations_default } } ∧
    (_Thread_queue_Make_ready_again s the_thread).2.queues = s.queues ∧
    (_Thread_queue_Make_ready_again s the_thread).2.heads = s.heads ∧
    (_Thread_queue_Make_ready_again s the_thread).2.Links = s.Links ∧
    (_Thread_queue_Make_ready_again s the_thread).2.thread_dispatch_disable_level
        = s.thread_dispatch_disable_level ∧
    (_Thread_queue_Make_ready_again s the_thread).2.trace
        = s.trace ++
          (if (s.threads the_thread).Wait.flags = THREAD_QUEUE_INTEND_TO_BLOCK then
            [Event.flags_try_change_release the_thread THREAD_QUEUE_INTEND_TO_BLOCK
              THREAD_QUEUE_READY_AGAIN true]
           else
            [Event.flags_try_change_release the_thread THREAD_QUEUE_INTEND_TO_BLOCK
              THREAD_QUEUE_READY_AGAIN false,
             Event.flags_set the_thread THREAD_QUEUE_READY_AGAIN]) := by
  unfold _Thread_queue_Make_ready_again _Thread_Wait_flags_try_change_release
    _Thread_Wait_flags_get
  by_cases h : (s.threads the_thread).Wait.flags = THREAD_QUEUE_INTEND_TO_BLOCK
  · refine ⟨?_, ?_, ?_, ?_, ?_, ?_, ?_⟩ <;>
      simp [h, _Thread_Wait_restore_default, Kernel.updThread, Kernel.storeFlags]
  · refine ⟨?_, ?_, ?_, ?_, ?_, ?_, ?_⟩ <;>
      simp [h, _Thread_Wait_restore_default, _Thread_Wait_flags_set, Kernel.updThread,
        Kernel.storeFlags]

/-- C3: for a thread whose wait flags are INTEND_TO_BLOCK or BLOCKED,
`_Thread_queue_Make_ready_again` returns false exactly when they were
INTEND_TO_BLOCK and true exactly when they were BLOCKED; afterwards the flags
are READY_AGAIN, `Wait.queue` is none and `Wait.operations` is the default. -/
theorem Make_ready_again_spec (s : Kernel H) (the_thread : ThreadId)
    (hflags : (s.threads the_thread).Wait.flags = THREAD_QUEUE_INTEND_TO_BLOCK ∨
      (s.threads the_thread).Wait.flags = THREAD_QUEUE_BLOCKED) :
    ((_Thread_queue_Make_ready_again s the_thread).1 = false ↔
        (s.threads the_thread).Wait.flags = THREAD_QUEUE_INTEND_TO_BLOCK) ∧
    ((_Thread_queue_Make_ready_again s the_thread).1 = true ↔
        (s.threads the_thread).Wait.flags = THREAD_QUEUE_BLOCKED) ∧
    ((_Thread_queue_Make_ready_again s the_thread).2.threads the_thread).Wait.flags
        = THREAD_QUEUE_READY_AGAIN ∧
    ((_Thread_queue_Make_ready_again s the_thread).2.threads the_thread).Wait.queue = none ∧
    ((_Thread_queue_Make_ready_again s the_thread).2.threads the_thread).Wait.operations
        = _Thread_queue_Operations_default := by
  obtain ⟨h1, h2, -⟩ := Make_ready_again_run s the_thread
  rw [h1, h2]
  rcases hflags with h | h
  · simp [h, INTEND_TO_BLOCK_ne_BLOCKED]
  · have hne : ¬ THREAD_QUEUE_BLOCKED = THREAD_QUEUE_INTEND_TO_BLOCK :=
      fun e => INTEND_TO_BLOCK_ne_BLOCKED e.symm
    simp [h, hne]

/-- Witness of C3: thread 2 of the two hop cycle is BLOCKED on queue 2. -/
theorem Make_ready_again_spec_witness :
    ((two_hop_kernel.threads 2).Wait.flags = THREAD_QUEUE_INTEND_TO_BLOCK ∨
      (two_hop_kernel.threads 2).Wait.flags = THREAD_QUEUE_BLOCKED) ∧
    (_Thread_queue_Make_ready_again two_hop_kernel 2).1 = true ∧
    ((_Thread_queue_Make_ready_again two_hop_kernel 2).2.threads 2).Wait.flags
        = THREAD_QUEUE_READY_AGAIN :=
  ⟨Or.inr rfl,
   (Make_ready_again_spec two_hop_kernel 2 (Or.inr rfl)).2.1.mpr rfl,
   (Make_ready_again_spec two_hop_kernel 2 (Or.inr rfl)).2.2.1⟩

/-- The state after `_Thread_queue_Extract_locked`: the hook has run on the
heads, the handshake on the thread. -/
theorem Extract_locked_run (s : Kernel H) (queue : QueueId)
    (operations : Thread_queue_Operations H) (the_thread : ThreadId) :
    (_Thread_queue_Extract_locked s queue operations the_thread).1
        = !decide ((s.threads the_thread).Wait.flags = THREAD_QUEUE_INTEND_TO_BLOCK) ∧
    (_Thread_queue_Extract_locked s queue operations the_thread).2.threads
        = Function.update s.threads the_thread
            { s.threads the_thread with
              Wait := { (s.threads the_thread).Wait with
                        flags := THREAD_QUEUE_READY_AGAIN, queue := none,
                        operations := _Thread_queue_Operations_default } } ∧
    (_Thread_queue_Extract_locked s queue operations the_thread).2.queues = s.queues ∧
    (_Thread_queue_Extract_locked s queue operations the_thread).2.heads
        = operations.extract s.heads queue the_thread ∧
    (_Thread_queue_Extract_locked s queue operations the_thread).2.Links = s.Links ∧
    (_Thread_queue_Extract_locked s queue operations the_thread).2.thread_dispatch_disable_level
        = s.thread_dispatch_disable_level ∧
    (_Thread_queue_Extract_locked s queue operations the_thread).2.trace
        = s.trace ++ [Event.ops_extract queue the_thread] ++
          (if (s.threads the_thread).Wait.flags = THREAD_QUEUE_INTEND_TO_BLOCK then
            [Event.flags_try_change_release the_thread THREAD_QUEUE_INTEND_TO_BLOCK
              THREAD_QUEUE_READY_AGAIN true]
           else
            [Event.flags_try_change_release the_thread THREAD_QUEUE_INTEND_TO_BLOCK
              THREAD_QUEUE_READY_AGAIN false,
             Event.flags_set the_thread THREAD_QUEUE_READY_AGAIN]) := by
  unfold _Thread_queue_Extract_locked _Thread_queue_Do_extract_locked
  simp only []
  obtain ⟨h1, h2, h3, h4, h5, h6, h7⟩ := Make_ready_again_run
    ((s.emit (Event.ops_extract queue the_thread)).setHeads
      (operations.extract s.heads queue the_thread)) the_thread
  rw [h1, h2, h3, h4, h5, h6, h7]
  simp only [setHeads_threads, setHeads_queues, setHeads_heads, setHeads_Links, setHeads_level,
    setHeads_trace, emit_threads, emit_queues, emit_Links, emit_level, emit_trace, and_self]

/-- The trace of `_Thread_queue_Unblock_critical`; nothing else but the
dispatch disable level is touched, and the level is restored when it is below
`2 ^ 32`. -/
theorem Unblock_critical_run (s : Kernel H) (unblock : Bool) (queue : QueueId)
    (the_thread : ThreadId) :
    (_Thread_queue_Unblock_critical s unblock queue the_thread).threads = s.threads ∧
    (_Thread_queue_Unblock_critical s unblock queue the_thread).queues = s.queues ∧
    (_Thread_queue_Unblock_critical s unblock queue the_thread).heads = s.heads ∧
    (_Thread_queue_Unblock_critical s unblock queue the_thread).Links = s.Links ∧
    (_Thread_queue_Unblock_critical s unblock queue the_thread).trace
        = s.trace ++
          (if unblock then
            [Event.dispatch_disable, Event.queue_release queue,
             Event.remove_timer_and_unblock the_thread queue, Event.dispatch_enable]
           else [Event.queue_release queue]) := by
  unfold _Thread_queue_Unblock_critical
  cases unblock <;>
    simp [_Thread_Dispatch_disable_critical, _Thread_queue_Queue_release,
      _Thread_Remove_timer_and_unblock, _Thread_Dispatch_enable, Kernel.emit]

/-- The state after the reconcile step of `_Thread_queue_Enqueue_critical`. -/
theorem Enqueue_critical_reconcile_run (s : Kernel H) (queue : QueueId)
    (the_thread : ThreadId) (path : Thread_queue_Path) :
    (_Thread_queue_Enqueue_critical_reconcile s queue the_thread path).threads
        = (if (s.threads the_thread).Wait.flags = THREAD_QUEUE_INTEND_TO_BLOCK then
            Function.update s.threads the_thread
              { s.threads the_thread with
                Wait := { (s.threads the_thread).Wait with flags := THREAD_QUEUE_BLOCKED } }
           else s.threads) ∧
    (_Thread_queue_Enqueue_critical_reconcile s queue the_thread path).queues = s.queues ∧
    (_Thread_queue_Enqueue_critical_reconcile s queue the_thread path).heads = s.heads ∧
    (_Thread_queue_Enqueue_critical_reconcile s queue the_thread path).Links = s.Links ∧
    (_Thread_queue_Enqueue_critical_reconcile s queue the_thread path).trace
        = s.trace ++
          (if (s.threads the_thread).Wait.flags = THREAD_QUEUE_INTEND_TO_BLOCK then
            [Event.flags_try_change_acquire the_thread THREAD_QUEUE_INTEND_TO_BLOCK
              THREAD_QUEUE_BLOCKED true]
           else
            [Event.flags_try_change_acquire the_thread THREAD_QUEUE_INTEND_TO_BLOCK
              THREAD_QUEUE_BLOCKED false,
             Event.remove_timer_and_unblock the_thread queue]) ++
          [Event.update_priority path.update_priority, Event.dispatch_enable] := by
  unfold _Thread_queue_Enqueue_critical_reconcile _Thread_Wait_flags_try_change_acquire
    _Thread_Wait_flags_get
  by_cases h : (s.threads the_thread).Wait.flags = THREAD_QUEUE_INTEND_TO_BLOCK
  · refine ⟨?_, ?_, ?_, ?_, ?_⟩ <;>
      simp [h, _Thread_Update_priority, _Thread_Dispatch_enable,
        _Thread_Remove_timer_and_unblock]
  · refine ⟨?_, ?_, ?_, ?_, ?_⟩ <;>
      simp [h, _Thread_Update_priority, _Thread_Dispatch_enable,
        _Thread_Remove_timer_and_unblock]

/-- The state after `_Thread_queue_Extract_critical`. -/
theorem Extract_critical_run (s : Kernel H) (queue : QueueId)
    (operations : Thread_queue_Operations H) (the_thread : ThreadId) :
    (_Thread_queue_Extract_critical s queue operations the_thread).threads
        = Function.update s.threads the_thread
            { s.threads the_thread with
              Wait := { (s.threads the_thread).Wait with
                        flags := THREAD_QUEUE_READY_AGAIN, queue := none,
                        operations := _Thread_queue_Operations_default } } ∧
    (_Thread_queue_Extract_critical s queue operations the_thread).queues = s.queues ∧
    (_Thread_queue_Extract_critical s queue operations the_thread).heads
        = operations.extract s.heads queue the_thread ∧
    (_Thread_queue_Extract_critical s queue operations the_thread).Links = s.Links ∧
    (_Thread_queue_Extract_critical s queue operations the_thread).trace
        = s.trace ++ [Event.ops_extract queue the_thread] ++
          (if (s.threads the_thread).Wait.flags = THREAD_QUEUE_INTEND_TO_BLOCK then
            [Event.flags_try_change_release the_thread THREAD_QUEUE_INTEND_TO_BLOCK
              THREAD_QUEUE_READY_AGAIN true,
             Event.queue_release queue]
           else
            [Event.flags_try_change_release the_thread THREAD_QUEUE_INTEND_TO_BLOCK
              THREAD_QUEUE_READY_AGAIN false,
             Event.flags_set the_thread THREAD_QUEUE_READY_AGAIN,
             Event.dispatch_disable, Event.queue_release queue,
             Event.remove_timer_and_unblock the_thread queue, Event.dispatch_enable]) := by
  unfold _Thread_queue_Extract_critical
  simp only []
  obtain ⟨h1, h2, h3, h4, h5, -, h7⟩ := Extract_locked_run s queue operations the_thread
  obtain ⟨u1, u2, u3, u4, u5⟩ := Unblock_critical_run
    (_Thread_queue_Extract_locked s queue operations the_thread).2
    (_Thread_queue_Extract_locked s queue operations the_thread).1 queue the_thread
  rw [u1, u2, u3, u4, u5, h1, h2, h3, h4, h5, h7]
  by_cases h : (s.threads the_thread).Wait.flags = THREAD_QUEUE_INTEND_TO_BLOCK
  · simp [h]
  · simp [h]

theorem unblock_calls_append (tr1 tr2 : List Event) (t : ThreadId) :
    unblock_calls (tr1 ++ tr2) t = unblock_calls tr1 t + unblock_calls tr2 t := by
  simp [unblock_calls, List.countP_append]

/-- C4: from wait flags INTEND_TO_BLOCK, in both orders of the reconcile step
of the blocker and the extract of a waker exactly one of the two calls
`_Thread_Remove_timer_and_unblock`: the waker when the blocker ran first (the
waker gets `unblock = true`), the blocker when the waker ran first (the waker
gets `unblock = false`); the flags end as READY_AGAIN and `Wait.queue` as none
in both orders. -/
theorem block_wake_handshake (s : Kernel H) (queue : QueueId)
    (operations : Thread_queue_Operations H) (the_thread : ThreadId)
    (path : Thread_queue_Path)
    (hflags : (s.threads the_thread).Wait.flags = THREAD_QUEUE_INTEND_TO_BLOCK) :
    (unblock_calls (_Thread_queue_Enqueue_critical_reconcile s queue the_thread path).trace
          the_thread
        = unblock_calls s.trace the_thread ∧
      (_Thread_queue_Extract_locked
          (_Thread_queue_Enqueue_critical_reconcile s queue the_thread path)
          queue operations the_thread).1 = true ∧
      unblock_calls (_Thread_queue_Extract_critical
          (_Thread_queue_Enqueue_critical_reconcile s queue the_thread path)
          queue operations the_thread).trace the_thread
        = unblock_calls (_Thread_queue_Enqueue_critical_reconcile s queue the_thread path).trace
            the_thread + 1 ∧
      ((_Thread_queue_Extract_critical
          (_Thread_queue_Enqueue_critical_reconcile s queue the_thread path)
          queue operations the_thread).threads the_thread).Wait.flags
        = THREAD_QUEUE_READY_AGAIN ∧
      ((_Thread_queue_Extract_critical
          (_Thread_queue_Enqueue_critical_reconcile s queue the_thread path)
          queue operations the_thread).threads the_thread).Wait.queue = none) ∧
    ((_Thread_queue_Extract_locked s queue operations the_thread).1 = false ∧
      unblock_calls (_Thread_queue_Extract_critical s queue operations the_thread).trace
          the_thread
        = unblock_calls s.trace the_thread ∧
      unblock_calls (_Thread_queue_Enqueue_critical_reconcile
          (_Thread_queue_Extract_critical s queue operations the_thread)
          queue the_thread path).trace the_thread
        = unblock_calls (_Thread_queue_Extract_critical s queue operations the_thread).trace
            the_thread + 1 ∧
      ((_Thread_queue_Enqueue_critical_reconcile
          (_Thread_queue_Extract_critical s queue operations the_thread)
          queue the_thread path).threads the_thread).Wait.flags
        = THREAD_QUEUE_READY_AGAIN ∧
      ((_Thread_queue_Enqueue_critical_reconcile
          (_Thread_queue_Extract_critical s queue operations the_thread)
          queue the_thread path).threads the_thread).Wait.queue = none) := by
  have hne : ¬ THREAD_QUEUE_BLOCKED = THREAD_QUEUE_INTEND_TO_BLOCK :=
    fun e => INTEND_TO_BLOCK_ne_BLOCKED e.symm
  have hne1 : ¬ THREAD_QUEUE_READY_AGAIN = THREAD_QUEUE_INTEND_TO_BLOCK :=
    fun e => INTEND_TO_BLOCK_ne_READY_AGAIN e.symm
  constructor
  · obtain ⟨r1, -, -, -, r5⟩ := Enqueue_critical_reconcile_run s queue the_thread path
    have hf1 : ((_Thread_queue_Enqueue_critical_reconcile s queue the_thread path).threads
        the_thread).Wait.flags = THREAD_QUEUE_BLOCKED := by
      rw [r1]
      simp [hflags]
    obtain ⟨e1, -, -, -, e5⟩ := Extract_critical_run
      (_Thread_queue_Enqueue_critical_reconcile s queue the_thread path) queue operations
      the_thread
    obtain ⟨l1, -⟩ := Extract_locked_run
      (_Thread_queue_Enqueue_critical_reconcile s queue the_thread path) queue operations
      the_thread
    refine ⟨?_, ?_, ?_, ?_, ?_⟩
    · rw [r5]
      simp [hflags, unblock_calls_append, unblock_calls]
    · rw [l1, hf1]
      simp [hne]
    · rw [e5, hf1]
      simp [hne, unblock_calls_append, unblock_calls]
    · rw [e1]
      simp
    · rw [e1]
      simp
  · obtain ⟨e1, -, -, -, e5⟩ := Extract_critical_run s queue operations the_thread
    obtain ⟨l1, -⟩ := Extract_locked_run s queue operations the_thread
    have hf1 : ((_Thread_queue_Extract_critical s queue operations the_thread).threads
        the_thread).Wait.flags = THREAD_QUEUE_READY_AGAIN := by
      rw [e1]
      simp
    have hq1 : ((_Thread_queue_Extract_critical s queue operations the_thread).threads
        the_thread).Wait.queue = none := by
      rw [e1]
      simp
    obtain ⟨r1, -, -, -, r5⟩ := Enqueue_critical_reconcile_run
      (_Thread_queue_Extract_critical s queue operations the_thread) queue the_thread path
    refine ⟨?_, ?_, ?_, ?_, ?_⟩
    · rw [l1, hflags]
      simp
    · rw [e5]
      simp [hflags, unblock_calls_append, unblock_calls]
    · rw [r5, hf1]
      simp [hne1, unblock_calls_append, unblock_calls]
    · rw [r1, hf1]
      simp [hne1, hf1]
    · rw [r1, hf1]
      simp [hne1, hq1]

/-- Witness of C4: thread 1 has published INTEND_TO_BLOCK on queue 1. -/
theorem block_wake_handshake_witness :
    (intend_kernel.threads 1).Wait.flags = THREAD_QUEUE_INTEND_TO_BLOCK ∧
    (_Thread_queue_Extract_locked intend_kernel 1 fifo_operations 1).1 = false ∧
    unblock_calls (_Thread_queue_Enqueue_critical_reconcile
        (_Thread_queue_Extract_critical intend_kernel 1 fifo_operations 1)
        1 1 { Links := [], update_priority := none }).trace 1
      = unblock_calls (_Thread_queue_Extract_critical intend_kernel 1 fifo_operations 1).trace
          1 + 1 :=
  ⟨rfl,
   (block_wake_handshake intend_kernel 1 fifo_operations 1
      { Links := [], update_priority := none } rfl).2.1,
   (block_wake_handshake intend_kernel 1 fifo_operations 1
      { Links := [], update_priority := none } rfl).2.2.2.1⟩

theorem Path_frame.refl (s : Kernel H) : Path_frame s s :=
  ⟨rfl, rfl, rfl, rfl, [], by simp, by simp⟩

theorem Path_frame.trans {s s1 s2 : Kernel H} (h1 : Path_frame s s1) (h2 : Path_frame s1 s2) :
    Path_frame s s2 := by
  obtain ⟨a1, a2, a3, a4, ev1, a5, a6⟩ := h1
  obtain ⟨b1, b2, b3, b4, ev2, b5, b6⟩ := h2
  refine ⟨b1.trans a1, b2.trans a2, b3.trans a3, b4.trans a4, ev1 ++ ev2, ?_, ?_⟩
  · rw [b5, a5, List.append_assoc]
  · intro e he
    rcases List.mem_append.mp he with h | h
    · exact a6 e h
    · exact b6 e h

theorem Path_frame.emit (s : Kernel H) (e : Event) (he : Event.is_path_event e = true) :
    Path_frame s (s.emit e) :=
  ⟨rfl, rfl, rfl, rfl, [e], rfl, by simpa using he⟩

theorem Path_frame.set_Links (s : Kernel H) (links : List Thread_queue_Link) :
    Path_frame s (s.setLinks links) :=
  ⟨rfl, rfl, rfl, rfl, [], by simp, by simp⟩

theorem Link_add_frame {fuel : Nat} {s : Kernel H} {link : Thread_queue_Link}
    {source target : QueueId} {r : Bool × Thread_queue_Link × Kernel H}
    (h : _Thread_queue_Link_add fuel s link source target = some r) : Path_frame s r.2.2 := by
  unfold _Thread_queue_Link_add at h
  simp only [emit_Links] at h
  cases hw : _Thread_queue_Link_add_walk s.Links source fuel target with
  | none => simp [hw] at h
  | some b =>
    cases b with
    | false =>
      simp only [hw, Option.some.injEq] at h
      subst h
      exact (Path_frame.emit s Event.registry_acquire rfl).trans
        (Path_frame.emit _ Event.registry_release rfl)
    | true =>
      simp only [hw, Option.some.injEq] at h
      subst h
      exact ((Path_frame.emit s Event.registry_acquire rfl).trans
        (Path_frame.set_Links _ _)).trans (Path_frame.emit _ Event.registry_release rfl)

theorem Link_add_link {fuel : Nat} {s : Kernel H} {link : Thread_queue_Link}
    {source target : QueueId} {r : Bool × Thread_queue_Link × Kernel H}
    (h : _Thread_queue_Link_add fuel s link source target = some r) :
    r.2.1.id = link.id ∧ r.2.1.owner = link.owner ∧ r.2.1.wait_queue = link.wait_queue := by
  unfold _Thread_queue_Link_add at h
  simp only [emit_Links] at h
  cases hw : _Thread_queue_Link_add_walk s.Links source fuel target with
  | none => simp [hw] at h
  | some b =>
    cases b with
    | false =>
      simp only [hw, Option.some.injEq] at h
      subst h
      exact ⟨rfl, rfl, rfl⟩
    | true =>
      simp only [hw, Option.some.injEq] at h
      subst h
      exact ⟨rfl, rfl, rfl⟩

theorem Link_remove_frame (s : Kernel H) (link : Thread_queue_Link) :
    Path_frame s (_Thread_queue_Link_remove s link) := by
  unfold _Thread_queue_Link_remove
  exact ((Path_frame.emit s Event.registry_acquire rfl).trans
    (Path_frame.set_Links _ _)).trans (Path_frame.emit _ Event.registry_release rfl)

theorem Path_release_link_frame (s : Kernel H) (link : Thread_queue_Link) :
    Path_frame s (_Thread_queue_Path_release_link s link) := by
  unfold _Thread_queue_Path_release_link
  exact ((Link_remove_frame s link).trans
    (Path_frame.emit _ (Event.wait_release_queue link.wait_queue) rfl)).trans
    (Path_frame.emit _ (Event.remove_request link.owner) rfl)

theorem Path_release_foldl_frame (links : List Thread_queue_Link) :
    ∀ s : Kernel H, Path_frame s (links.foldl _Thread_queue_Path_release_link s) := by
  induction links with
  | nil => exact fun s => Path_frame.refl s
  | cons l rest ih =>
    intro s
    rw [List.foldl_cons]
    exact (Path_release_link_frame s l).trans (ih _)

theorem Path_release_SMP_frame (s : Kernel H) (path : Thread_queue_Path) :
    Path_frame s (_Thread_queue_Path_release_SMP s path) := by
  unfold _Thread_queue_Path_release_SMP
  cases path.Links.reverse with
  | nil => exact Path_frame.refl s
  | cons link previous =>
    by_cases h : link.wait_queue = none
    · simp only [h, if_true]
      exact (Path_frame.emit s (Event.wait_release_default link.owner) rfl).trans
        (Path_release_foldl_frame _ _)
    · simp only [h, if_false]
      exact Path_release_foldl_frame _ _

theorem Path_release_frame (b : Build) (s : Kernel H) (path : Thread_queue_Path) :
    Path_frame s (_Thread_queue_Path_release b s path) := by
  unfold _Thread_queue_Path_release
  cases b.RTEMS_SMP with
  | false => exact Path_frame.refl s
  | true => exact Path_release_SMP_frame s path

theorem Path_acquire_SMP_loop_frame :
    ∀ (fuel : Nat) (s : Kernel H) (links : List Thread_queue_Link) (link_id : LinkId)
      (queue : QueueId) (owner : ThreadId) (r : Bool × List Thread_queue_Link × Kernel H),
      _Thread_queue_Path_acquire_SMP_loop fuel s links link_id queue owner = some r →
      Path_frame s r.2.2 := by
  intro fuel
  induction fuel with
  | zero =>
    intro s links link_id queue owner r h
    simp [_Thread_queue_Path_acquire_SMP_loop] at h
  | succ n ih =>
    intro s links link_id queue owner r h
    unfold _Thread_queue_Path_acquire_SMP_loop at h
    simp only [emit_threads] at h
    have h0 : Path_frame s (s.emit (Event.wait_acquire_default owner)) :=
      Path_frame.emit s (Event.wait_acquire_default owner) rfl
    cases hq : (s.threads owner).Wait.queue with
    | none =>
      simp only [hq, Option.some.injEq] at h
      subst h
      exact h0
    | some target =>
      simp only [hq] at h
      cases ha : _Thread_queue_Link_add (n + 1) (s.emit (Event.wait_acquire_default owner))
          { id := link_id, source := 0, target := 0, owner := owner, wait_queue := some target }
          queue target with
      | none => simp [ha] at h
      | some ra =>
        have hf := Link_add_frame ha
        have hl := (Link_add_link ha).2.2
        obtain ⟨rb, link1, s2⟩ := ra
        simp only [ha] at h
        simp only at hf hl
        cases rb with
        | false =>
          simp only [Option.some.injEq] at h
          subst h
          exact (h0.trans hf).trans (Path_release_SMP_frame _ _)
        | true =>
          have hne : ¬ link1.wait_queue = none := by
            rw [hl]
            simp
          simp only [hne, if_false, emit_queues] at h
          have h5 : Path_frame s
              (((s2.emit (Event.gate_add owner link1.id)).emit
                (Event.wait_release_default owner)).emit (Event.wait_acquire_queue target)) :=
            (((h0.trans hf).trans (Path_frame.emit _ (Event.gate_add owner link1.id) rfl)).trans
              (Path_frame.emit _ (Event.wait_release_default owner) rfl)).trans
              (Path_frame.emit _ (Event.wait_acquire_queue target) rfl)
          cases ho : (s2.queues target).owner with
          | none =>
            simp only [ho, Option.some.injEq] at h
            subst h
            exact h5
          | some owner1 =>
            simp only [ho] at h
            exact h5.trans (ih _ _ _ _ _ _ h)

theorem Path_acquire_frame {b : Build} {fuel : Nat} {s : Kernel H} {the_thread : ThreadId}
    {queue : QueueId} {r : Bool × List Thread_queue_Link × Kernel H}
    (h : _Thread_queue_Path_acquire b fuel s the_thread queue = some r) :
    Path_frame s r.2.2 := by
  unfold _Thread_queue_Path_acquire at h
  cases hb : b.RTEMS_SMP with
  | true =>
    simp only [hb, if_true] at h
    unfold _Thread_queue_Path_acquire_SMP at h
    cases ho : (s.queues queue).owner with
    | none =>
      simp only [ho, Option.some.injEq] at h
      subst h
      exact Path_frame.refl s
    | some owner =>
      simp only [ho] at h
      by_cases hot : owner = the_thread
      · simp only [hot, if_true, Option.some.injEq] at h
        subst h
        exact Path_frame.refl s
      · simp only [hot, if_false] at h
        exact Path_acquire_SMP_loop_frame _ _ _ _ _ _ _ h
  | false =>
    simp only [hb] at h
    cases hu : _Thread_queue_Path_acquire_UP s the_thread fuel queue with
    | none => simp [hu] at h
    | some v =>
      simp [hu] at h
      subst h
      exact Path_frame.refl s

theorem timer_inserts_append (tr1 tr2 : List Event) :
    timer_inserts (tr1 ++ tr2) = timer_inserts tr1 ++ timer_inserts tr2 := by
  simp [timer_inserts]

theorem timer_inserts_path_events (events : List Event)
    (h : ∀ e ∈ events, Event.is_path_event e = true) : timer_inserts events = [] := by
  unfold timer_inserts
  rw [List.filter_eq_nil_iff]
  intro e he
  have hp := h e he
  revert hp
  cases e <;> simp [Event.is_path_event]

theorem Path_frame.timer_inserts {s s1 : Kernel H} (h : Path_frame s s1) :
    timer_inserts s1.trace = timer_inserts s.trace := by
  obtain ⟨-, -, -, -, events, h5, h6⟩ := h
  rw [h5, timer_inserts_append, timer_inserts_path_events events h6, List.append_nil]

theorem Path_acquire_self (b : Build) (fuel : Nat) (s : Kernel H) (the_thread : ThreadId)
    (queue : QueueId) (howner : (s.queues queue).owner = some the_thread) :
    _Thread_queue_Path_acquire b (fuel + 1) s the_thread queue = some (false, [], s) := by
  unfold _Thread_queue_Path_acquire
  cases b.RTEMS_SMP with
  | true => simp [_Thread_queue_Path_acquire_SMP, howner]
  | false => simp [_Thread_queue_Path_acquire_UP, howner]

/-- C5: when `queue.owner == thread`, `_Thread_queue_Enqueue_critical` with the
status deadlock callout returns with `Wait.return_code = STATUS_DEADLOCK` and
`Wait.queue = none`, leaves every queue owner, the heads, the registry and the
dispatch disable level as they were, and after the claim calls nothing but the
release of the queue lock of the caller and the tranquilize of the thread,
followed by the store of the status: no `ops.enqueue`, no timer, no blocking
state, no dispatch disable, no further lock. -/
theorem Enqueue_critical_self_deadlock (b : Build) (fuel : Nat) (s : Kernel H)
    (queue : QueueId) (operations : Thread_queue_Operations H) (the_thread : ThreadId)
    (state : Nat) (queue_context : Thread_queue_Context H)
    (howner : (s.queues queue).owner = some the_thread)
    (hcallout : queue_context.deadlock_callout = _Thread_queue_Deadlock_status) :
    ∃ s1, _Thread_queue_Enqueue_critical b (fuel + 1) s queue operations the_thread state
        queue_context = some (Outcome.returned s1) ∧
      (s1.threads the_thread).Wait.return_code = Status_Control.STATUS_DEADLOCK ∧
      (s1.threads the_thread).Wait.queue = none ∧
      (∀ t, t ≠ the_thread → s1.threads t = s.threads t) ∧
      s1.queues = s.queues ∧
      s1.heads = s.heads ∧
      s1.Links = s.Links ∧
      s1.thread_dispatch_disable_level = s.thread_dispatch_disable_level ∧
      s1.trace = s.trace ++ [Event.wait_claim the_thread queue, Event.queue_release queue,
        Event.tranquilize the_thread,
        Event.return_code_store the_thread Status_Control.STATUS_DEADLOCK] := by
  have hpa := Path_acquire_self b fuel (_Thread_Wait_claim s the_thread queue operations)
    the_thread queue (by simpa using howner)
  refine ⟨(_Thread_Wait_tranquilize (_Thread_queue_Queue_release
      (_Thread_Wait_restore_default (_Thread_Wait_claim s the_thread queue operations)
        the_thread) queue) the_thread).storeReturnCode the_thread
      Status_Control.STATUS_DEADLOCK,
    ?_, ?_, ?_, ?_, ?_, ?_, ?_, ?_, ?_⟩
  · unfold _Thread_queue_Enqueue_critical _Thread_queue_Enqueue_critical_block
    simp only [hpa, hcallout, _Thread_queue_Deadlock_status]
  · simp [_Thread_Wait_tranquilize, _Thread_queue_Queue_release, _Thread_Wait_restore_default]
  · simp [_Thread_Wait_tranquilize, _Thread_queue_Queue_release, _Thread_Wait_restore_default]
  · intro t ht
    simp [_Thread_Wait_tranquilize, _Thread_queue_Queue_release, _Thread_Wait_restore_default,
      Kernel.updThread, Function.update, ht]
  · simp [_Thread_Wait_tranquilize, _Thread_queue_Queue_release, _Thread_Wait_restore_default]
  · simp [_Thread_Wait_tranquilize, _Thread_queue_Queue_release, _Thread_Wait_restore_default]
  · simp [_Thread_Wait_tranquilize, _Thread_queue_Queue_release, _Thread_Wait_restore_default]
  · simp [_Thread_Wait_tranquilize, _Thread_queue_Queue_release, _Thread_Wait_restore_default]
  · simp [_Thread_Wait_tranquilize, _Thread_queue_Queue_release, _Thread_Wait_restore_default]

/-- Witness of C5: thread 1 asks for queue 1, which it owns, on an SMP build. -/
theorem Enqueue_critical_self_deadlock_witness :
    (owned_kernel.queues 1).owner = some 1 ∧
    ∃ s1, _Thread_queue_Enqueue_critical { RTEMS_SMP := true } 1 owned_kernel 1 fifo_operations 1
        0 (status_context Watchdog_Discipline.WATCHDOG_RELATIVE 10)
        = some (Outcome.returned s1) ∧
      (s1.threads 1).Wait.return_code = Status_Control.STATUS_DEADLOCK ∧
      s1.trace = owned_kernel.trace ++ [Event.wait_claim 1 1, Event.queue_release 1,
        Event.tranquilize 1, Event.return_code_store 1 Status_Control.STATUS_DEADLOCK] := by
  obtain ⟨s1, h1, h2, -, -, -, -, -, -, h9⟩ :=
    Enqueue_critical_self_deadlock { RTEMS_SMP := true } 0 owned_kernel 1 fifo_operations 1 0
      (status_context Watchdog_Discipline.WATCHDOG_RELATIVE 10) rfl rfl
  exact ⟨rfl, s1, h1, h2, h9⟩

/-- What the publish step of `_Thread_queue_Enqueue_critical` does. -/
theorem Enqueue_critical_publish_run (b : Build) (s2 : Kernel H) (queue : QueueId)
    (operations : Thread_queue_Operations H) (the_thread : ThreadId)
    (links : List Thread_queue_Link) :
    (_Thread_queue_Enqueue_critical_publish b s2 queue operations the_thread links).2
        = { Links := links, update_priority := (operations.enqueue s2.heads queue the_thread).2 } ∧
    (_Thread_queue_Enqueue_critical_publish b s2 queue operations the_thread links).1.threads
        = Function.update s2.threads the_thread
            { s2.threads the_thread with
              Wait := { (s2.threads the_thread).Wait with
                        return_code := Status_Control.STATUS_SUCCESSFUL,
                        flags := THREAD_QUEUE_INTEND_TO_BLOCK } } ∧
    (_Thread_queue_Enqueue_critical_publish b s2 queue operations the_thread links).1.queues
        = s2.queues ∧
    (_Thread_queue_Enqueue_critical_publish b s2 queue operations the_thread links).1.heads
        = (operations.enqueue s2.heads queue the_thread).1 ∧
    (_Thread_queue_Enqueue_critical_publish b s2 queue operations the_thread
        links).1.thread_dispatch_disable_level
        = (s2.thread_dispatch_disable_level + 1) % 2 ^ 32 ∧
    ∃ events, (∀ e ∈ events, Event.is_path_event e = true) ∧
      (_Thread_queue_Enqueue_critical_publish b s2 queue operations the_thread links).1.trace
        = s2.trace ++ [Event.ops_enqueue queue the_thread] ++ events ++
          [Event.return_code_store the_thread Status_Control.STATUS_SUCCESSFUL,
           Event.flags_set the_thread THREAD_QUEUE_INTEND_TO_BLOCK,
           Event.dispatch_disable, Event.queue_release queue] ∧
      (_Thread_queue_Path_release b
        ((s2.emit (Event.ops_enqueue queue the_thread)).setHeads
          (operations.enqueue s2.heads queue the_thread).1)
        { Links := links,
          update_priority := (operations.enqueue s2.heads queue the_thread).2 }).trace
        = s2.trace ++ [Event.ops_enqueue queue the_thread] ++ events := by
  obtain ⟨g1, g2, g3, g4, ev2, g5, g6⟩ := Path_release_frame b
    ((s2.emit (Event.ops_enqueue queue the_thread)).setHeads
      (operations.enqueue s2.heads queue the_thread).1)
    { Links := links, update_priority := (operations.enqueue s2.heads queue the_thread).2 }
  unfold _Thread_queue_Enqueue_critical_publish
  refine ⟨rfl, ?_, ?_, ?_, ?_, ev2, g6, ?_, ?_⟩
  · simp only [_Thread_queue_Queue_release, _Thread_Dispatch_disable_critical,
      _Thread_Wait_flags_set, Kernel.storeFlags, Kernel.storeReturnCode, Kernel.updThread,
      emit_threads, setLevel_threads, g1, setHeads_threads]
    simp
  · simp only [_Thread_queue_Queue_release, _Thread_Dispatch_disable_critical,
      _Thread_Wait_flags_set, emit_queues, storeReturnCode_queues, setLevel_queues, g2,
      setHeads_queues, storeFlags_queues]
  · simp only [_Thread_queue_Queue_release, _Thread_Dispatch_disable_critical,
      _Thread_Wait_flags_set, emit_heads, storeReturnCode_heads, setLevel_heads, g3,
      setHeads_heads, storeFlags_heads]
  · simp only [_Thread_queue_Queue_release, _Thread_Dispatch_disable_critical,
      _Thread_Wait_flags_set, emit_level, storeReturnCode_level, setLevel_level, g4,
      setHeads_level, storeFlags_level]
  · simp only [_Thread_queue_Queue_release, _Thread_Dispatch_disable_critical,
      _Thread_Wait_flags_set, emit_trace, storeReturnCode_trace, setLevel_trace, g5,
      setHeads_trace, storeFlags_trace, List.append_assoc, List.cons_append, List.nil_append]
  · simp only [g5, setHeads_trace, emit_trace]

/-- What the arming of the timer does. -/
theorem Enqueue_timer_run (s : Kernel H) (the_thread : ThreadId)
    (queue_context : Thread_queue_Context H) :
    (_Thread_queue_Enqueue_timer s the_thread queue_context).threads = s.threads ∧
    (_Thread_queue_Enqueue_timer s the_thread queue_context).queues = s.queues ∧
    (_Thread_queue_Enqueue_timer s the_thread queue_context).heads = s.heads ∧
    (_Thread_queue_Enqueue_timer s the_thread queue_context).Links = s.Links ∧
    (_Thread_queue_Enqueue_timer s the_thread queue_context).thread_dispatch_disable_level
        = s.thread_dispatch_disable_level ∧
    (_Thread_queue_Enqueue_timer s the_thread queue_context).trace = s.trace ++
        (match queue_context.timeout_discipline with
         | Watchdog_Discipline.WATCHDOG_RELATIVE =>
           if queue_context.timeout ≠ 0 then
             [Event.timer_insert_relative the_thread (queue_context.timeout % 2 ^ 32)]
           else []
         | Watchdog_Discipline.WATCHDOG_ABSOLUTE =>
           [Event.timer_insert_absolute the_thread queue_context.timeout]
         | Watchdog_Discipline.WATCHDOG_NO_TIMEOUT => []) := by
  unfold _Thread_queue_Enqueue_timer
  cases queue_context.timeout_discipline with
  | WATCHDOG_RELATIVE =>
    by_cases h : queue_context.timeout = 0
    · simp [h]
    · simp [h, _Thread_Timer_insert_relative, Watchdog_Interval_of]
  | WATCHDOG_ABSOLUTE => simp [_Thread_Timer_insert_absolute]
  | WATCHDOG_NO_TIMEOUT => simp

/-- A run of `_Thread_queue_Enqueue_critical` in which nobody interferes, the
path is acquired and the dispatch disable level is as expected: the call
returns, and the trace is the old one, path events, `ops.enqueue`, path events,
the store of the status and of the wait flags, dispatch disable, queue release,
set state, the timer events, priority update and dispatch enable; the first
path events are those of the acquire of the path, the second those of its
release. -/
theorem Enqueue_critical_run (b : Build) (fuel : Nat) (s : Kernel H)
    (queue : QueueId) (operations : Thread_queue_Operations H) (the_thread : ThreadId)
    (state : Nat) (queue_context : Thread_queue_Context H)
    (links : List Thread_queue_Link) (s2 : Kernel H)
    (hpath : _Thread_queue_Path_acquire b fuel
      (_Thread_Wait_claim s the_thread queue operations) the_thread queue
        = some (true, links, s2))
    (hlevel : (s.thread_dispatch_disable_level + 1) % 2 ^ 32
      = queue_context.expected_thread_dispatch_disable_level) :
    ∃ s1 events1 events2,
      (∀ e ∈ events1, Event.is_path_event e = true) ∧
      (∀ e ∈ events2, Event.is_path_event e = true) ∧
      _Thread_queue_Enqueue_critical b fuel s queue operations the_thread state
        queue_context = some (Outcome.returned s1) ∧
      s1.trace = s.trace ++ [Event.wait_claim the_thread queue] ++ events1 ++
        [Event.ops_enqueue queue the_thread] ++ events2 ++
        [Event.return_code_store the_thread Status_Control.STATUS_SUCCESSFUL,
         Event.flags_set the_thread THREAD_QUEUE_INTEND_TO_BLOCK, Event.dispatch_disable,
         Event.queue_release queue, Event.set_state the_thread state] ++
        (match queue_context.timeout_discipline with
         | Watchdog_Discipline.WATCHDOG_RELATIVE =>
           if queue_context.timeout ≠ 0 then
             [Event.timer_insert_relative the_thread (queue_context.timeout % 2 ^ 32)]
           else []
         | Watchdog_Discipline.WATCHDOG_ABSOLUTE =>
           [Event.timer_insert_absolute the_thread queue_context.timeout]
         | Watchdog_Discipline.WATCHDOG_NO_TIMEOUT => []) ++
        [Event.flags_try_change_acquire the_thread THREAD_QUEUE_INTEND_TO_BLOCK
           THREAD_QUEUE_BLOCKED true,
         Event.update_priority (operations.enqueue s.heads queue the_thread).2,
         Event.dispatch_enable] ∧
      s1.threads = Function.update s.threads the_thread
        { s.threads the_thread with
          Wait := { queue := some queue, operations := operations,
                    return_code := Status_Control.STATUS_SUCCESSFUL,
                    flags := THREAD_QUEUE_BLOCKED } } ∧
      s1.queues = s.queues ∧
      s1.heads = (operations.enqueue s.heads queue the_thread).1 ∧
      s2.trace = s.trace ++ [Event.wait_claim the_thread queue] ++ events1 ∧
      (_Thread_queue_Path_release b
        ((s2.emit (Event.ops_enqueue queue the_thread)).setHeads
          (operations.enqueue s2.heads queue the_thread).1)
        { Links := links,
          update_priority := (operations.enqueue s2.heads queue the_thread).2 }).trace
        = s2.trace ++ [Event.ops_enqueue queue the_thread] ++ events2 := by
  obtain ⟨f1, f2, f3, f4, ev, f5, f6⟩ := Path_acquire_frame hpath
  simp only [Wait_claim_threads, Wait_claim_queues, Wait_claim_heads, Wait_claim_level,
    Wait_claim_trace] at f1 f2 f3 f4 f5
  obtain ⟨p1, p2, p3, p4, p5, ev2, p6, p7, p8⟩ :=
    Enqueue_critical_publish_run b s2 queue operations the_thread links
  obtain ⟨t1, t2, t3, -, -, t6⟩ := Enqueue_timer_run
    (_Thread_Set_state
      (_Thread_queue_Enqueue_critical_publish b s2 queue operations the_thread links).1
      the_thread state) the_thread queue_context
  obtain ⟨r1, r2, r3, -, r5⟩ := Enqueue_critical_reconcile_run
    (_Thread_queue_Enqueue_timer (_Thread_Set_state
      (_Thread_queue_Enqueue_critical_publish b s2 queue operations the_thread links).1
      the_thread state) the_thread queue_context) queue the_thread
    (_Thread_queue_Enqueue_critical_publish b s2 queue operations the_thread links).2
  have hlev : (_Thread_queue_Enqueue_critical_publish b s2 queue operations the_thread
      links).1.thread_dispatch_disable_level
      = queue_context.expected_thread_dispatch_disable_level := by
    rw [p5, f4]
    exact hlevel
  have hflags : ((_Thread_queue_Enqueue_critical_publish b s2 queue operations the_thread
      links).1.threads the_thread).Wait.flags = THREAD_QUEUE_INTEND_TO_BLOCK := by
    rw [p2]
    simp
  refine ⟨_Thread_queue_Enqueue_critical_reconcile
    (_Thread_queue_Enqueue_timer (_Thread_Set_state
      (_Thread_queue_Enqueue_critical_publish b s2 queue operations the_thread links).1
      the_thread state) the_thread queue_context) queue the_thread
    (_Thread_queue_Enqueue_critical_publish b s2 queue operations the_thread links).2,
    ev, ev2, f6, p6, ?_, ?_, ?_, ?_, ?_, f5, p8⟩
  · unfold _Thread_queue_Enqueue_critical _Thread_queue_Enqueue_critical_block
    simp only [hpath, hlev, ne_eq, not_true_eq_false, if_false]
  · rw [r5, t1, t6]
    simp only [_Thread_Set_state, emit_threads, emit_trace, hflags, if_true, p7, f5, p1, f3,
      List.append_assoc, List.nil_append, List.cons_append, List.singleton_append]
  · rw [r1, t1]
    simp only [_Thread_Set_state, emit_threads, hflags, if_true, p2, f1]
    simp
  · rw [r2, t2]
    simp only [_Thread_Set_state, emit_queues, p3, f2]
  · rw [r3, t3]
    simp only [_Thread_Set_state, emit_heads, p4, f3]

/-- A run of `_Thread_queue_Enqueue_critical` in which the path is acquired and
the dispatch disable level is not the expected one: the system terminates after
the release of the queue lock. -/
theorem Enqueue_critical_bad_state_run (b : Build) (fuel : Nat) (s : Kernel H)
    (queue : QueueId) (operations : Thread_queue_Operations H) (the_thread : ThreadId)
    (state : Nat) (queue_context : Thread_queue_Context H)
    (links : List Thread_queue_Link) (s2 : Kernel H)
    (hpath : _Thread_queue_Path_acquire b fuel
      (_Thread_Wait_claim s the_thread queue operations) the_thread queue
        = some (true, links, s2))
    (hlevel : (s.thread_dispatch_disable_level + 1) % 2 ^ 32
      ≠ queue_context.expected_thread_dispatch_disable_level) :
    ∃ s8 events1 events2,
      (∀ e ∈ events1, Event.is_path_event e = true) ∧
      (∀ e ∈ events2, Event.is_path_event e = true) ∧
      _Thread_queue_Enqueue_critical b fuel s queue operations the_thread state
        queue_context = some (Outcome.terminated
          Internal_errors.INTERNAL_ERROR_THREAD_QUEUE_ENQUEUE_FROM_BAD_STATE s8) ∧
      s8.trace = s.trace ++ [Event.wait_claim the_thread queue] ++ events1 ++
        [Event.ops_enqueue queue the_thread] ++ events2 ++
        [Event.return_code_store the_thread Status_Control.STATUS_SUCCESSFUL,
         Event.flags_set the_thread THREAD_QUEUE_INTEND_TO_BLOCK, Event.dispatch_disable,
         Event.queue_release queue] ∧
      s8.threads = Function.update s.threads the_thread
        { s.threads the_thread with
          Wait := { queue := some queue, operations := operations,
                    return_code := Status_Control.STATUS_SUCCESSFUL,
                    flags := THREAD_QUEUE_INTEND_TO_BLOCK } } ∧
      s2.trace = s.trace ++ [Event.wait_claim the_thread queue] ++ events1 ∧
      (_Thread_queue_Path_release b
        ((s2.emit (Event.ops_enqueue queue the_thread)).setHeads
          (operations.enqueue s2.heads queue the_thread).1)
        { Links := links,
          update_priority := (operations.enqueue s2.heads queue the_thread).2 }).trace
        = s2.trace ++ [Event.ops_enqueue queue the_thread] ++ events2 := by
  obtain ⟨f1, f2, f3, f4, ev, f5, f6⟩ := Path_acquire_frame hpath
  simp only [Wait_claim_threads, Wait_claim_queues, Wait_claim_heads, Wait_claim_level,
    Wait_claim_trace] at f1 f2 f3 f4 f5
  obtain ⟨p1, p2, p3, p4, p5, ev2, p6, p7, p8⟩ :=
    Enqueue_critical_publish_run b s2 queue operations the_thread links
  have hlev : (_Thread_queue_Enqueue_critical_publish b s2 queue operations the_thread
      links).1.thread_dispatch_disable_level
      ≠ queue_context.expected_thread_dispatch_disable_level := by
    rw [p5, f4]
    exact hlevel
  refine ⟨(_Thread_queue_Enqueue_critical_publish b s2 queue operations the_thread links).1,
    ev, ev2, f6, p6, ?_, ?_, ?_, f5, p8⟩
  · unfold _Thread_queue_Enqueue_critical _Thread_queue_Enqueue_critical_block
    simp only [hpath, hlev, ne_eq, not_false_eq_true, if_true]
  · rw [p7, f5]
  · rw [p2, f1]
    simp

/-- C6 (as amended): on the path without deadlock, when the dispatch disable
level after the disabling of dispatching is the expected one,
`_Thread_queue_Enqueue_critical` returns, and the timer insertions it makes
are: for discipline relative and `timeout != 0` one relative insertion with
interval `(Watchdog_Interval) timeout`, that is `timeout` modulo `2 ^ 32`; for
discipline absolute one absolute insertion with `timeout`, also when it is 0;
none for discipline none and for relative with timeout 0.  When the level is
not the expected one, the system terminates before the timer is reached and no
timer is inserted, whatever the discipline. -/
theorem Enqueue_critical_timer_arming (b : Build) (fuel : Nat) (s : Kernel H)
    (queue : QueueId) (operations : Thread_queue_Operations H) (the_thread : ThreadId)
    (state : Nat) (queue_context : Thread_queue_Context H)
    (links : List Thread_queue_Link) (s2 : Kernel H)
    (hpath : _Thread_queue_Path_acquire b fuel
      (_Thread_Wait_claim s the_thread queue operations) the_thread queue
        = some (true, links, s2)) :
    ((s.thread_dispatch_disable_level + 1) % 2 ^ 32
        = queue_context.expected_thread_dispatch_disable_level →
      ∃ s1, _Thread_queue_Enqueue_critical b fuel s queue operations the_thread state
          queue_context = some (Outcome.returned s1) ∧
        timer_inserts s1.trace = timer_inserts s.trace ++
          (match queue_context.timeout_discipline with
           | Watchdog_Discipline.WATCHDOG_RELATIVE =>
             if queue_context.timeout ≠ 0 then
               [Event.timer_insert_relative the_thread (queue_context.timeout % 2 ^ 32)]
             else []
           | Watchdog_Discipline.WATCHDOG_ABSOLUTE =>
             [Event.timer_insert_absolute the_thread queue_context.timeout]
           | Watchdog_Discipline.WATCHDOG_NO_TIMEOUT => [])) ∧
    ((s.thread_dispatch_disable_level + 1) % 2 ^ 32
        ≠ queue_context.expected_thread_dispatch_disable_level →
      ∃ s8, _Thread_queue_Enqueue_critical b fuel s queue operations the_thread state
          queue_context = some (Outcome.terminated
            Internal_errors.INTERNAL_ERROR_THREAD_QUEUE_ENQUEUE_FROM_BAD_STATE s8) ∧
        timer_inserts s8.trace = timer_inserts s.trace) := by
  constructor
  · intro hlevel
    obtain ⟨s1, ev1, ev2, h1, h2, hrun, htrace, -⟩ :=
      Enqueue_critical_run b fuel s queue operations the_thread state queue_context links s2
        hpath hlevel
    refine ⟨s1, hrun, ?_⟩
    rw [htrace]
    simp only [timer_inserts_append, timer_inserts_path_events ev1 h1,
      timer_inserts_path_events ev2 h2, List.append_nil]
    cases queue_context.timeout_discipline with
    | WATCHDOG_RELATIVE =>
      by_cases h : queue_context.timeout = 0
      · simp [h, timer_inserts]
      · simp [h, timer_inserts]
    | WATCHDOG_ABSOLUTE => simp [timer_inserts]
    | WATCHDOG_NO_TIMEOUT => simp [timer_inserts]
  · intro hlevel
    obtain ⟨s8, ev1, ev2, h1, h2, hrun, htrace, -⟩ :=
      Enqueue_critical_bad_state_run b fuel s queue operations the_thread state queue_context
        links s2 hpath hlevel
    refine ⟨s8, hrun, ?_⟩
    rw [htrace]
    simp only [timer_inserts_append, timer_inserts_path_events ev1 h1,
      timer_inserts_path_events ev2 h2, List.append_nil]
    simp [timer_inserts]

/-- Witness of C6: thread 1 blocks on the free queue 1 with a relative timeout
of 10 ticks; with the expected dispatch disable level 1 the timer is inserted,
with the expected level 5 the system terminates and no timer is inserted. -/
theorem Enqueue_critical_timer_arming_witness :
    (∃ s1, _Thread_queue_Enqueue_critical { RTEMS_SMP := true } 1 idle_kernel 1 fifo_operations
        1 0 (level_context 1 Watchdog_Discipline.WATCHDOG_RELATIVE 10)
        = some (Outcome.returned s1) ∧
      timer_inserts s1.trace = [Event.timer_insert_relative 1 10]) ∧
    (∃ s8, _Thread_queue_Enqueue_critical { RTEMS_SMP := true } 1 idle_kernel 1 fifo_operations
        1 0 (level_context 5 Watchdog_Discipline.WATCHDOG_RELATIVE 10)
        = some (Outcome.terminated
          Internal_errors.INTERNAL_ERROR_THREAD_QUEUE_ENQUEUE_FROM_BAD_STATE s8) ∧
      timer_inserts s8.trace = []) :=
  ⟨(Enqueue_critical_timer_arming { RTEMS_SMP := true } 1 idle_kernel 1
      fifo_operations 1 0 (level_context 1 Watchdog_Discipline.WATCHDOG_RELATIVE 10) []
      (_Thread_Wait_claim idle_kernel 1 1 fifo_operations) rfl).1 rfl,
   (Enqueue_critical_timer_arming { RTEMS_SMP := true } 1 idle_kernel 1
      fifo_operations 1 0 (level_context 5 Watchdog_Discipline.WATCHDOG_RELATIVE 10) []
      (_Thread_Wait_claim idle_kernel 1 1 fifo_operations) rfl).2 (by decide)⟩

/-- C6, counterexample to the claim as stated.  With discipline relative and
`timeout = 2 ^ 32 + 1` the relative timer is inserted with interval 1, not with
interval `timeout`.  And with discipline relative, `timeout = 10` and an
expected dispatch disable level of 5 the run is not a deadlock, yet no timer is
inserted: the system terminates before. -/
theorem Enqueue_critical_timer_interval_truncated :
    (∃ s1, _Thread_queue_Enqueue_critical { RTEMS_SMP := false } 1 idle_kernel 1
        fifo_operations 1 0 (status_context Watchdog_Discipline.WATCHDOG_RELATIVE 4294967297)
        = some (Outcome.returned s1) ∧
      timer_inserts s1.trace = [Event.timer_insert_relative 1 1] ∧
      Event.timer_insert_relative 1 4294967297 ∉ s1.trace) ∧
    (∃ s8, _Thread_queue_Path_acquire { RTEMS_SMP := false } 1
        (_Thread_Wait_claim idle_kernel 1 1 fifo_operations) 1 1
        = some (true, [], _Thread_Wait_claim idle_kernel 1 1 fifo_operations) ∧
      _Thread_queue_Enqueue_critical { RTEMS_SMP := false } 1 idle_kernel 1
        fifo_operations 1 0 (level_context 5 Watchdog_Discipline.WATCHDOG_RELATIVE 10)
        = some (Outcome.terminated
          Internal_errors.INTERNAL_ERROR_THREAD_QUEUE_ENQUEUE_FROM_BAD_STATE s8) ∧
      timer_inserts s8.trace = []) :=
  ⟨⟨_, rfl, by decide, by decide⟩, ⟨_, rfl, rfl, by decide⟩⟩

/-- The tail of `_Thread_queue_Surrender`, source lines 621-627, on the
trace. -/
theorem Surrender_trace (s : Kernel H) (queue : QueueId)
    (operations : Thread_queue_Operations H) (heads : Option HeadsPtr)
    (previous_owner : ThreadId) (keep_priority : Bool) :
    (_Thread_queue_Surrender s queue operations heads previous_owner keep_priority).trace
      = (_Thread_queue_Surrender s queue operations heads previous_owner true).trace ++
        (if keep_priority then []
         else [Event.dispatch_disable, Event.restore_priority previous_owner,
               Event.dispatch_enable]) ∧
    (_Thread_queue_Surrender s queue operations heads previous_owner keep_priority).threads
      = (_Thread_queue_Surrender s queue operations heads previous_owner true).threads ∧
    (_Thread_queue_Surrender s queue operations heads previous_owner keep_priority).queues
      = (_Thread_queue_Surrender s queue operations heads previous_owner true).queues ∧
    (_Thread_queue_Surrender s queue operations heads previous_owner keep_priority).heads
      = (_Thread_queue_Surrender s queue operations heads previous_owner true).heads ∧
    (_Thread_queue_Surrender s queue operations heads previous_owner keep_priority).Links
      = (_Thread_queue_Surrender s queue operations heads previous_owner true).Links := by
  unfold _Thread_queue_Surrender
  cases keep_priority <;>
    simp [_Thread_Dispatch_disable, _Thread_Dispatch_disable_critical, _Thread_Restore_priority,
      _Thread_Dispatch_enable]

/-- The state after `_Thread_queue_Surrender` with non-empty heads and
`keep_priority`. -/
theorem Surrender_some_run (s : Kernel H) (queue : QueueId)
    (operations : Thread_queue_Operations H) (heads : HeadsPtr) (previous_owner : ThreadId) :
    (_Thread_queue_Surrender s queue operations (some heads) previous_owner true).queues
      = Function.update s.queues queue
          { s.queues queue with
            owner := some (operations.surrender s.heads queue heads previous_owner).1 } ∧
    (_Thread_queue_Surrender s queue operations (some heads) previous_owner true).threads
      = Function.update s.threads (operations.surrender s.heads queue heads previous_owner).1
          { Wait := { (s.threads (operations.surrender s.heads queue heads
                        previous_owner).1).Wait with
                      flags := THREAD_QUEUE_READY_AGAIN, queue := none,
                      operations := _Thread_queue_Operations_default },
            resource_count := ((s.threads (operations.surrender s.heads queue heads
              previous_owner).1).resource_count + 1) % 2 ^ 32 } ∧
    (_Thread_queue_Surrender s queue operations (some heads) previous_owner true).heads
      = (operations.surrender s.heads queue heads previous_owner).2 ∧
    (_Thread_queue_Surrender s queue operations (some heads) previous_owner true).Links
      = s.Links ∧
    (_Thread_queue_Surrender s queue operations (some heads) previous_owner true).trace
      = s.trace ++ [Event.ops_surrender queue previous_owner] ++
        (if (s.threads (operations.surrender s.heads queue heads previous_owner).1).Wait.flags
            = THREAD_QUEUE_INTEND_TO_BLOCK then
          [Event.flags_try_change_release
             (operations.surrender s.heads queue heads previous_owner).1
             THREAD_QUEUE_INTEND_TO_BLOCK THREAD_QUEUE_READY_AGAIN true,
           Event.queue_release queue]
         else
          [Event.flags_try_change_release
             (operations.surrender s.heads queue heads previous_owner).1
             THREAD_QUEUE_INTEND_TO_BLOCK THREAD_QUEUE_READY_AGAIN false,
           Event.flags_set (operations.surrender s.heads queue heads previous_owner).1
             THREAD_QUEUE_READY_AGAIN,
           Event.dispatch_disable, Event.queue_release queue,
           Event.remove_timer_and_unblock
             (operations.surrender s.heads queue heads previous_owner).1 queue,
           Event.dispatch_enable]) := by
  unfold _Thread_queue_Surrender
  simp only [Bool.not_true, Bool.false_eq_true, if_false]
  obtain ⟨m1, m2, m3, m4, m5, -, m7⟩ := Make_ready_again_run
    ((((s.emit (Event.ops_surrender queue previous_owner)).setHeads
        (operations.surrender s.heads queue heads previous_owner).2).updQueue queue
        (fun q => { q with
          owner := some (operations.surrender s.heads queue heads previous_owner).1 })).updThread
      (operations.surrender s.heads queue heads previous_owner).1
      (fun c => { c with resource_count := (c.resource_count + 1) % 2 ^ 32 }))
    (operations.surrender s.heads queue heads previous_owner).1
  obtain ⟨u1, u2, u3, u4, u5⟩ := Unblock_critical_run
    (_Thread_queue_Make_ready_again
      ((((s.emit (Event.ops_surrender queue previous_owner)).setHeads
        (operations.surrender s.heads queue heads previous_owner).2).updQueue queue
        (fun q => { q with
          owner := some (operations.surrender s.heads queue heads previous_owner).1 })).updThread
      (operations.surrender s.heads queue heads previous_owner).1
      (fun c => { c with resource_count := (c.resource_count + 1) % 2 ^ 32 }))
      (operations.surrender s.heads queue heads previous_owner).1).2
    (_Thread_queue_Make_ready_again
      ((((s.emit (Event.ops_surrender queue previous_owner)).setHeads
        (operations.surrender s.heads queue heads previous_owner).2).updQueue queue
        (fun q => { q with
          owner := some (operations.surrender s.heads queue heads previous_owner).1 })).updThread
      (operations.surrender s.heads queue heads previous_owner).1
      (fun c => { c with resource_count := (c.resource_count + 1) % 2 ^ 32 }))
      (operations.surrender s.heads queue heads previous_owner).1).1
    queue (operations.surrender s.heads queue heads previous_owner).1
  rw [u1, u2, u3, u4, u5, m1, m2, m3, m4, m5, m7]
  refine ⟨?_, ?_, ?_, ?_, ?_⟩
  · simp [Kernel.updQueue]
  · simp [Kernel.updThread]
  · simp
  · simp
  · by_cases h : (s.threads (operations.surrender s.heads queue heads previous_owner).1).Wait.flags
        = THREAD_QUEUE_INTEND_TO_BLOCK
    · simp [h]
    · simp [h]

theorem restore_calls_append (tr1 tr2 : List Event) (t : ThreadId) :
    restore_calls (tr1 ++ tr2) t = restore_calls tr1 t + restore_calls tr2 t := by
  simp [restore_calls]

/-- C7: `_Thread_queue_Surrender` with non-empty heads sets `queue.owner` to
the thread that `ops.surrender(queue, heads, previous_owner)` returns,
increases its resource count by one modulo `2 ^ 32`, runs the ready-again
handshake on it (flags READY_AGAIN, `Wait.queue` none, one call of
`_Thread_Remove_timer_and_unblock` if it was BLOCKED, none if it was
INTEND_TO_BLOCK), and restores the priority of `previous_owner` exactly when
`keep_priority` is false. -/
theorem Surrender_hands_off (s : Kernel H) (queue : QueueId)
    (operations : Thread_queue_Operations H) (heads : HeadsPtr) (previous_owner : ThreadId)
    (keep_priority : Bool) :
    ((_Thread_queue_Surrender s queue operations (some heads) previous_owner
        keep_priority).queues queue).owner
      = some (operations.surrender s.heads queue heads previous_owner).1 ∧
    ((_Thread_queue_Surrender s queue operations (some heads) previous_owner
        keep_priority).threads
        (operations.surrender s.heads queue heads previous_owner).1).resource_count
      = ((s.threads (operations.surrender s.heads queue heads previous_owner).1).resource_count
          + 1) % 2 ^ 32 ∧
    ((_Thread_queue_Surrender s queue operations (some heads) previous_owner
        keep_priority).threads
        (operations.surrender s.heads queue heads previous_owner).1).Wait.flags
      = THREAD_QUEUE_READY_AGAIN ∧
    ((_Thread_queue_Surrender s queue operations (some heads) previous_owner
        keep_priority).threads
        (operations.surrender s.heads queue heads previous_owner).1).Wait.queue = none ∧
    unblock_calls (_Thread_queue_Surrender s queue operations (some heads) previous_owner
        keep_priority).trace (operations.surrender s.heads queue heads previous_owner).1
      = unblock_calls s.trace (operations.surrender s.heads queue heads previous_owner).1 +
        (if (s.threads (operations.surrender s.heads queue heads previous_owner).1).Wait.flags
            = THREAD_QUEUE_INTEND_TO_BLOCK then 0 else 1) ∧
    ((s.threads (operations.surrender s.heads queue heads previous_owner).1).Wait.flags
        = THREAD_QUEUE_BLOCKED →
      unblock_calls (_Thread_queue_Surrender s queue operations (some heads) previous_owner
          keep_priority).trace (operations.surrender s.heads queue heads previous_owner).1
        = unblock_calls s.trace (operations.surrender s.heads queue heads previous_owner).1
          + 1) ∧
    restore_calls (_Thread_queue_Surrender s queue operations (some heads) previous_owner
        keep_priority).trace previous_owner
      = restore_calls s.trace previous_owner + (if keep_priority then 0 else 1) := by
  obtain ⟨t1, t2, t3, -, -⟩ :=
    Surrender_trace s queue operations (some heads) previous_owner keep_priority
  obtain ⟨r1, r2, -, -, r5⟩ := Surrender_some_run s queue operations heads previous_owner
  rw [t1, t2, t3, r1, r2, r5]
  have hne : ¬ THREAD_QUEUE_BLOCKED = THREAD_QUEUE_INTEND_TO_BLOCK :=
    fun e => INTEND_TO_BLOCK_ne_BLOCKED e.symm
  refine ⟨?_, ?_, ?_, ?_, ?_, ?_, ?_⟩
  · simp
  · simp
  · simp
  · simp
  · by_cases h : (s.threads (operations.surrender s.heads queue heads previous_owner).1).Wait.flags
        = THREAD_QUEUE_INTEND_TO_BLOCK
    · cases keep_priority <;> simp [h, unblock_calls_append, unblock_calls]
    · cases keep_priority <;> simp [h, unblock_calls_append, unblock_calls]
  · intro h
    cases keep_priority <;> simp [h, hne, unblock_calls_append, unblock_calls]
  · by_cases h : (s.threads (operations.surrender s.heads queue heads previous_owner).1).Wait.flags
        = THREAD_QUEUE_INTEND_TO_BLOCK
    · cases keep_priority <;> simp [h, restore_calls_append, restore_calls]
    · cases keep_priority <;> simp [h, restore_calls_append, restore_calls]

/-- C8 (as amended): `_Thread_queue_Surrender` with empty heads leaves every
queue owner as it was (it does not clear `queue.owner`), changes no thread, no
heads and no link, invokes neither `ops.surrender` nor
`_Thread_Remove_timer_and_unblock`, releases the queue lock, and restores the
priority of `previous_owner` exactly when `keep_priority` is false. -/
theorem Surrender_no_waiters (s : Kernel H) (queue : QueueId)
    (operations : Thread_queue_Operations H) (previous_owner : ThreadId)
    (keep_priority : Bool) :
    (_Thread_queue_Surrender s queue operations none previous_owner keep_priority).queues
      = s.queues ∧
    (_Thread_queue_Surrender s queue operations none previous_owner keep_priority).threads
      = s.threads ∧
    (_Thread_queue_Surrender s queue operations none previous_owner keep_priority).heads
      = s.heads ∧
    (_Thread_queue_Surrender s queue operations none previous_owner keep_priority).Links
      = s.Links ∧
    (_Thread_queue_Surrender s queue operations none previous_owner keep_priority).trace
      = s.trace ++ [Event.queue_release queue] ++
        (if keep_priority then []
         else [Event.dispatch_disable, Event.restore_priority previous_owner,
               Event.dispatch_enable]) ∧
    restore_calls (_Thread_queue_Surrender s queue operations none previous_owner
        keep_priority).trace previous_owner
      = restore_calls s.trace previous_owner + (if keep_priority then 0 else 1) := by
  unfold _Thread_queue_Surrender
  cases keep_priority <;>
    simp [_Thread_Dispatch_disable, _Thread_Dispatch_disable_critical, _Thread_Restore_priority,
      _Thread_Dispatch_enable, _Thread_queue_Queue_release, restore_calls]

/-- C8, counterexample to the claim as stated: queue 1 is owned by thread 1 and
has no waiters; after the surrender with empty heads its owner is still
thread 1, not none. -/
theorem Surrender_no_waiters_keeps_owner :
    ((_Thread_queue_Surrender owned_kernel 1 fifo_operations none 1 false).queues 1).owner
      = some 1 ∧
    ((_Thread_queue_Surrender owned_kernel 1 fifo_operations none 1 false).queues 1).owner
      ≠ none :=
  ⟨by decide, by decide⟩

/-- The state after `_Thread_queue_Do_dequeue`. -/
theorem Do_dequeue_run (s : Kernel H) (the_thread_queue : QueueId)
    (operations : Thread_queue_Operations H) :
    (_Thread_queue_Do_dequeue s the_thread_queue operations).1
      = operations.first s.heads the_thread_queue ∧
    (_Thread_queue_Do_dequeue s the_thread_queue operations).2
      = (match operations.first s.heads the_thread_queue with
         | some the_thread =>
           _Thread_queue_Extract_critical (s.emit (Event.queue_acquire the_thread_queue))
             the_thread_queue operations the_thread
         | none =>
           (s.emit (Event.queue_acquire the_thread_queue)).emit
             (Event.queue_release the_thread_queue)) := by
  unfold _Thread_queue_Do_dequeue _Thread_queue_First_locked
  simp only [emit_heads]
  cases operations.first s.heads the_thread_queue <;> exact ⟨rfl, rfl⟩

/-- C10: `_Thread_queue_Extract(thread)` for a thread with `Wait.queue = none`
changes no thread (flags, return code, `Wait.queue`, `Wait.operations`), no
queue owner, no heads, no link; it arms or cancels no timer and invokes neither
`ops.extract` nor `_Thread_Remove_timer_and_unblock`: all it calls is the
acquire and the release of the wait lock of the thread. -/
theorem Extract_not_waiting (s : Kernel H) (the_thread : ThreadId)
    (hqueue : (s.threads the_thread).Wait.queue = none) :
    (_Thread_queue_Extract s the_thread).threads = s.threads ∧
    (_Thread_queue_Extract s the_thread).queues = s.queues ∧
    (_Thread_queue_Extract s the_thread).heads = s.heads ∧
    (_Thread_queue_Extract s the_thread).Links = s.Links ∧
    (_Thread_queue_Extract s the_thread).thread_dispatch_disable_level
      = s.thread_dispatch_disable_level ∧
    (_Thread_queue_Extract s the_thread).trace
      = s.trace ++ [Event.wait_acquire the_thread, Event.wait_release the_thread] := by
  unfold _Thread_queue_Extract
  simp [hqueue]

/-- Witness of C10: thread 3 of the two hop cycle waits on nothing. -/
theorem Extract_not_waiting_witness :
    (two_hop_kernel.threads 3).Wait.queue = none ∧
    (_Thread_queue_Extract two_hop_kernel 3).threads = two_hop_kernel.threads ∧
    (_Thread_queue_Extract two_hop_kernel 3).trace
      = two_hop_kernel.trace ++ [Event.wait_acquire 3, Event.wait_release 3] :=
  ⟨rfl, (Extract_not_waiting two_hop_kernel 3 rfl).1,
   (Extract_not_waiting two_hop_kernel 3 rfl).2.2.2.2.2⟩

theorem flag_calls_append (tr1 tr2 : List Event) :
    flag_calls (tr1 ++ tr2) = flag_calls tr1 ++ flag_calls tr2 := by
  simp [flag_calls]

/-- The state after `_Thread_queue_Extract` for a thread that waits. -/
theorem Extract_waiting_run (s : Kernel H) (the_thread : ThreadId) (queue : QueueId)
    (hqueue : (s.threads the_thread).Wait.queue = some queue) :
    _Thread_queue_Extract s the_thread
      = _Thread_queue_Extract_critical
          ((s.emit (Event.wait_acquire the_thread)).emit (Event.remove_request the_thread))
          queue (s.threads the_thread).Wait.operations the_thread := by
  unfold _Thread_queue_Extract _Thread_queue_Extract_critical
  simp only [emit_threads, hqueue]

/-- C13 (as amended): for a thread whose wait flags are INTEND_TO_BLOCK, BLOCKED
or READY_AGAIN, the reconcile step of `_Thread_queue_Enqueue_critical` and
`_Thread_queue_Make_ready_again` leave the flags as they are or make one of
the three transitions INTEND_TO_BLOCK -> BLOCKED, INTEND_TO_BLOCK ->
READY_AGAIN, BLOCKED -> READY_AGAIN, and touch the flags of no other thread.
The reconcile step calls one compare-and-set (INTEND_TO_BLOCK -> BLOCKED).
`_Thread_queue_Make_ready_again` calls one compare-and-set (INTEND_TO_BLOCK ->
READY_AGAIN) and, when that fails, an unconditional store of READY_AGAIN: the
transition BLOCKED -> READY_AGAIN is made by a store, not by a
compare-and-set. -/
theorem wait_flag_transitions (s : Kernel H) (queue : QueueId) (the_thread : ThreadId)
    (path : Thread_queue_Path)
    (hflags : (s.threads the_thread).Wait.flags = THREAD_QUEUE_INTEND_TO_BLOCK ∨
      (s.threads the_thread).Wait.flags = THREAD_QUEUE_BLOCKED ∨
      (s.threads the_thread).Wait.flags = THREAD_QUEUE_READY_AGAIN) :
    ((((_Thread_queue_Enqueue_critical_reconcile s queue the_thread path).threads
          the_thread).Wait.flags = (s.threads the_thread).Wait.flags ∨
        Legal_transition (s.threads the_thread).Wait.flags
          ((_Thread_queue_Enqueue_critical_reconcile s queue the_thread path).threads
            the_thread).Wait.flags) ∧
      (∀ t, t ≠ the_thread →
        ((_Thread_queue_Enqueue_critical_reconcile s queue the_thread path).threads
          t).Wait.flags = (s.threads t).Wait.flags) ∧
      flag_calls (_Thread_queue_Enqueue_critical_reconcile s queue the_thread path).trace
        = flag_calls s.trace ++
          [Event.flags_try_change_acquire the_thread THREAD_QUEUE_INTEND_TO_BLOCK
            THREAD_QUEUE_BLOCKED
            (decide ((s.threads the_thread).Wait.flags = THREAD_QUEUE_INTEND_TO_BLOCK))]) ∧
    ((((_Thread_queue_Make_ready_again s the_thread).2.threads the_thread).Wait.flags
          = (s.threads the_thread).Wait.flags ∨
        Legal_transition (s.threads the_thread).Wait.flags
          ((_Thread_queue_Make_ready_again s the_thread).2.threads the_thread).Wait.flags) ∧
      (∀ t, t ≠ the_thread →
        ((_Thread_queue_Make_ready_again s the_thread).2.threads t).Wait.flags
          = (s.threads t).Wait.flags) ∧
      flag_calls (_Thread_queue_Make_ready_again s the_thread).2.trace
        = flag_calls s.trace ++
          (if (s.threads the_thread).Wait.flags = THREAD_QUEUE_INTEND_TO_BLOCK then
            [Event.flags_try_change_release the_thread THREAD_QUEUE_INTEND_TO_BLOCK
              THREAD_QUEUE_READY_AGAIN true]
           else
            [Event.flags_try_change_release the_thread THREAD_QUEUE_INTEND_TO_BLOCK
              THREAD_QUEUE_READY_AGAIN false,
             Event.flags_set the_thread THREAD_QUEUE_READY_AGAIN])) := by
  have hne : ¬ THREAD_QUEUE_BLOCKED = THREAD_QUEUE_INTEND_TO_BLOCK :=
    fun e => INTEND_TO_BLOCK_ne_BLOCKED e.symm
  have hne1 : ¬ THREAD_QUEUE_READY_AGAIN = THREAD_QUEUE_INTEND_TO_BLOCK :=
    fun e => INTEND_TO_BLOCK_ne_READY_AGAIN e.symm
  obtain ⟨r1, -, -, -, r5⟩ := Enqueue_critical_reconcile_run s queue the_thread path
  obtain ⟨-, m2, -, -, -, -, m7⟩ := Make_ready_again_run s the_thread
  rw [r1, r5, m2, m7]
  refine ⟨⟨?_, ?_, ?_⟩, ⟨?_, ?_, ?_⟩⟩
  · rcases hflags with h | h | h
    · simp [h, Legal_transition]
    · simp [h, hne]
    · simp [h, hne1]
  · intro t ht
    by_cases h : (s.threads the_thread).Wait.flags = THREAD_QUEUE_INTEND_TO_BLOCK
    · simp [h, Function.update, ht]
    · simp [h]
  · by_cases h : (s.threads the_thread).Wait.flags = THREAD_QUEUE_INTEND_TO_BLOCK
    · simp [h, flag_calls_append, flag_calls]
    · simp [h, flag_calls_append, flag_calls]
  · rcases hflags with h | h | h
    · simp [h, Legal_transition]
    · simp [h, Legal_transition]
    · simp [h]
  · intro t ht
    simp [Function.update, ht]
  · by_cases h : (s.threads the_thread).Wait.flags = THREAD_QUEUE_INTEND_TO_BLOCK
    · simp [h, flag_calls_append, flag_calls]
    · simp [h, flag_calls_append, flag_calls]

/-- Witness of C13: thread 1 has published INTEND_TO_BLOCK on queue 1; the
reconcile step makes the transition to BLOCKED. -/
theorem wait_flag_transitions_witness :
    ((intend_kernel.threads 1).Wait.flags = THREAD_QUEUE_INTEND_TO_BLOCK ∨
      (intend_kernel.threads 1).Wait.flags = THREAD_QUEUE_BLOCKED ∨
      (intend_kernel.threads 1).Wait.flags = THREAD_QUEUE_READY_AGAIN) ∧
    flag_calls (_Thread_queue_Enqueue_critical_reconcile intend_kernel 1 1
        { Links := [], update_priority := none }).trace
      = flag_calls intend_kernel.trace ++
        [Event.flags_try_change_acquire 1 THREAD_QUEUE_INTEND_TO_BLOCK THREAD_QUEUE_BLOCKED
          (decide ((intend_kernel.threads 1).Wait.flags = THREAD_QUEUE_INTEND_TO_BLOCK))] :=
  ⟨Or.inl rfl,
   (wait_flag_transitions intend_kernel 1 1 { Links := [], update_priority := none }
      (Or.inl rfl)).1.2.2⟩

/-- C13, counterexample to the claim as stated: thread 2 is BLOCKED on queue 2;
in `_Thread_queue_Make_ready_again` the compare-and-set fails and the change of
its flags from BLOCKED to READY_AGAIN is made by the unconditional store
`_Thread_Wait_flags_set`. -/
theorem Make_ready_again_stores_unconditionally :
    (two_hop_kernel.threads 2).Wait.flags = THREAD_QUEUE_BLOCKED ∧
    ((_Thread_queue_Make_ready_again two_hop_kernel 2).2.threads 2).Wait.flags
      = THREAD_QUEUE_READY_AGAIN ∧
    (_Thread_queue_Make_ready_again two_hop_kernel 2).2.trace
      = [Event.flags_try_change_release 2 THREAD_QUEUE_INTEND_TO_BLOCK
           THREAD_QUEUE_READY_AGAIN false,
         Event.flags_set 2 THREAD_QUEUE_READY_AGAIN] :=
  ⟨by decide, by decide, by decide⟩

/-- C15: with SMP, for a queue whose owner is not the requester and waits on
nothing, `_Thread_queue_Path_acquire` returns true with a path of one link, the
start link with `wait_queue = none`; all it calls is the acquire of the default
wait lock of the owner, so the registry is neither searched nor changed.
`_Thread_queue_Path_release` on that path calls the release of that lock and
nothing else, and leaves the registry as it is. -/
theorem Path_acquire_depth_one (fuel : Nat) (s : Kernel H) (the_thread owner : ThreadId)
    (queue : QueueId) (update_priority : Option ThreadId)
    (howner : (s.queues queue).owner = some owner) (hne : owner ≠ the_thread)
    (hwait : (s.threads owner).Wait.queue = none) :
    ∃ s1, _Thread_queue_Path_acquire { RTEMS_SMP := true } (fuel + 1) s the_thread queue
        = some (true, [{ id := LinkId.Start, source := 0, target := 0, owner := owner,
                         wait_queue := none }], s1) ∧
      s1.Links = s.Links ∧
      s1.threads = s.threads ∧
      s1.queues = s.queues ∧
      s1.trace = s.trace ++ [Event.wait_acquire_default owner] ∧
      (_Thread_queue_Path_release { RTEMS_SMP := true } s1
          { Links := [{ id := LinkId.Start, source := 0, target := 0, owner := owner,
                        wait_queue := none }],
            update_priority := update_priority }).Links = s.Links ∧
      (_Thread_queue_Path_release { RTEMS_SMP := true } s1
          { Links := [{ id := LinkId.Start, source := 0, target := 0, owner := owner,
                        wait_queue := none }],
            update_priority := update_priority }).trace
        = s.trace ++ [Event.wait_acquire_default owner, Event.wait_release_default owner] := by
  refine ⟨s.emit (Event.wait_acquire_default owner), ?_, rfl, rfl, rfl, rfl, ?_, ?_⟩
  · simp [_Thread_queue_Path_acquire, _Thread_queue_Path_acquire_SMP,
      _Thread_queue_Path_acquire_SMP_loop, howner, hne, hwait]
  · simp [_Thread_queue_Path_release, _Thread_queue_Path_release_SMP]
  · simp [_Thread_queue_Path_release, _Thread_queue_Path_release_SMP]

/-- Witness of C15: thread 1 asks for queue 1, owned by thread 2, who waits on
nothing. -/
theorem Path_acquire_depth_one_witness :
    (depth_one_kernel.queues 1).owner = some 2 ∧ (2 : ThreadId) ≠ 1 ∧
    (depth_one_kernel.threads 2).Wait.queue = none ∧
    ∃ s1, _Thread_queue_Path_acquire { RTEMS_SMP := true } 1 depth_one_kernel 1 1
        = some (true, [{ id := LinkId.Start, source := 0, target := 0, owner := 2,
                         wait_queue := none }], s1) ∧
      s1.Links = depth_one_kernel.Links ∧
      s1.trace = depth_one_kernel.trace ++ [Event.wait_acquire_default 2] := by
  obtain ⟨s1, h1, h2, -, -, h5, -⟩ :=
    Path_acquire_depth_one 0 depth_one_kernel 1 2 1 none rfl (by decide) rfl
  exact ⟨rfl, by decide, rfl, s1, h1, h2, h5⟩


/-- C17: on the path without deadlock, `_Thread_queue_Enqueue_critical`
terminates the system with `INTERNAL_ERROR_THREAD_QUEUE_ENQUEUE_FROM_BAD_STATE`
exactly when the dispatch disable level after the disabling of dispatching is
not the expected one (otherwise it returns); when it terminates, what it has
called is `ops.enqueue`, path events, the store of the wait flags, dispatch
disable and the release of the queue lock: no blocking state has been set and
no timer armed. -/
theorem Enqueue_critical_bad_state (b : Build) (fuel : Nat) (s : Kernel H)
    (queue : QueueId) (operations : Thread_queue_Operations H) (the_thread : ThreadId)
    (state : Nat) (queue_context : Thread_queue_Context H)
    (links : List Thread_queue_Link) (s2 : Kernel H)
    (hpath : _Thread_queue_Path_acquire b fuel
      (_Thread_Wait_claim s the_thread queue operations) the_thread queue
        = some (true, links, s2)) :
    ((∃ s8, _Thread_queue_Enqueue_critical b fuel s queue operations the_thread state
          queue_context = some (Outcome.terminated
            Internal_errors.INTERNAL_ERROR_THREAD_QUEUE_ENQUEUE_FROM_BAD_STATE s8)) ↔
      (s.thread_dispatch_disable_level + 1) % 2 ^ 32
        ≠ queue_context.expected_thread_dispatch_disable_level) ∧
    ((s.thread_dispatch_disable_level + 1) % 2 ^ 32
        = queue_context.expected_thread_dispatch_disable_level →
      ∃ s1, _Thread_queue_Enqueue_critical b fuel s queue operations the_thread state
        queue_context = some (Outcome.returned s1)) ∧
    (∀ error s8, _Thread_queue_Enqueue_critical b fuel s queue operations the_thread state
        queue_context = some (Outcome.terminated error s8) →
      error = Internal_errors.INTERNAL_ERROR_THREAD_QUEUE_ENQUEUE_FROM_BAD_STATE ∧
      ∃ events, s8.trace = s.trace ++ events ∧
        ∀ e ∈ events,
          (∀ t st, e ≠ Event.set_state t st) ∧
          (∀ t n, e ≠ Event.timer_insert_relative t n) ∧
          (∀ t n, e ≠ Event.timer_insert_absolute t n)) := by
  by_cases hlevel : (s.thread_dispatch_disable_level + 1) % 2 ^ 32
      = queue_context.expected_thread_dispatch_disable_level
  · obtain ⟨s1, -, -, -, -, hrun, -⟩ := Enqueue_critical_run b fuel s queue operations
      the_thread state queue_context links s2 hpath hlevel
    refine ⟨⟨?_, fun h => absurd hlevel h⟩, fun _ => ⟨s1, hrun⟩, ?_⟩
    · rintro ⟨s8, h8⟩
      rw [hrun] at h8
      cases h8
    · intro error s8 h8
      rw [hrun] at h8
      cases h8
  · obtain ⟨s8, ev1, ev2, h1, h2, hrun, htrace, -⟩ := Enqueue_critical_bad_state_run b fuel s
      queue operations the_thread state queue_context links s2 hpath hlevel
    refine ⟨⟨fun _ => hlevel, fun _ => ⟨s8, hrun⟩⟩, fun h => absurd h hlevel, ?_⟩
    intro error s9 h9
    rw [hrun] at h9
    cases h9
    refine ⟨rfl, [Event.wait_claim the_thread queue] ++ ev1 ++
      [Event.ops_enqueue queue the_thread] ++ ev2 ++
      [Event.return_code_store the_thread Status_Control.STATUS_SUCCESSFUL,
       Event.flags_set the_thread THREAD_QUEUE_INTEND_TO_BLOCK, Event.dispatch_disable,
       Event.queue_release queue], ?_, ?_⟩
    · rw [htrace]
      simp only [List.append_assoc]
    · intro e he
      simp only [List.mem_append, List.mem_cons, List.mem_singleton, List.not_mem_nil,
        or_false] at he
      rcases he with (((he | he) | he) | he) | he
      · subst he
        simp
      · have hp := h1 e he
        revert hp
        cases e <;> simp [Event.is_path_event]
      · subst he
        simp
      · have hp := h2 e he
        revert hp
        cases e <;> simp [Event.is_path_event]
      · rcases he with he | he | he | he <;> subst he <;> simp

/-- Witness of C17: thread 1 blocks on the free queue 1 at dispatch disable
level 0 while the caller expects level 5 after the disabling. -/
theorem Enqueue_critical_bad_state_witness :
    ∃ s8, _Thread_queue_Enqueue_critical { RTEMS_SMP := true } 1 idle_kernel 1 fifo_operations 1
        0 (level_context 5 Watchdog_Discipline.WATCHDOG_RELATIVE 10)
      = some (Outcome.terminated
          Internal_errors.INTERNAL_ERROR_THREAD_QUEUE_ENQUEUE_FROM_BAD_STATE s8) :=
  (Enqueue_critical_bad_state { RTEMS_SMP := true } 1 idle_kernel 1 fifo_operations 1 0
    (level_context 5 Watchdog_Discipline.WATCHDOG_RELATIVE 10) []
    (_Thread_Wait_claim idle_kernel 1 1 fifo_operations) rfl).1.mpr (by decide)

/-- C19 (as amended): the order of the steps of `_Thread_queue_Enqueue_critical`
on the path without deadlock, as the trace records them.  First the claim;
then the events of the acquire of the path (`events1`: what
`_Thread_queue_Path_acquire`, run after the claim, adds to the trace); then
`ops.enqueue`; then the events of the release of the path (`events2`: what
`_Thread_queue_Path_release`, run after `ops.enqueue`, adds to the trace); then
the store of the status, the store of INTEND_TO_BLOCK, dispatch disable, the
release of the queue lock, and only then the check of the dispatch disable
level: if it fails the system terminates at this point, the queue lock already
released.  Otherwise the blocking state is set, then the timer is armed, then
the flags are reconciled, the priority updated and dispatching enabled.  The
reconcile step, run in any state, calls the compare-and-set,
`_Thread_Remove_timer_and_unblock` if that failed, the priority update and
dispatch enable, in this order. -/
theorem Enqueue_critical_step_order (b : Build) (fuel : Nat) (s : Kernel H)
    (queue : QueueId) (operations : Thread_queue_Operations H) (the_thread : ThreadId)
    (state : Nat) (queue_context : Thread_queue_Context H)
    (links : List Thread_queue_Link) (s2 : Kernel H)
    (hpath : _Thread_queue_Path_acquire b fuel
      (_Thread_Wait_claim s the_thread queue operations) the_thread queue
        = some (true, links, s2)) :
    ((s.thread_dispatch_disable_level + 1) % 2 ^ 32
        = queue_context.expected_thread_dispatch_disable_level →
      ∃ s1 events1 events2,
        (_Thread_Wait_claim s the_thread queue operations).trace
          = s.trace ++ [Event.wait_claim the_thread queue] ∧
        s2.trace = (_Thread_Wait_claim s the_thread queue operations).trace ++ events1 ∧
        (_Thread_queue_Path_release b
          ((s2.emit (Event.ops_enqueue queue the_thread)).setHeads
            (operations.enqueue s2.heads queue the_thread).1)
          { Links := links,
            update_priority := (operations.enqueue s2.heads queue the_thread).2 }).trace
          = s2.trace ++ [Event.ops_enqueue queue the_thread] ++ events2 ∧
        (∀ e ∈ events1, Event.is_path_event e = true) ∧
        (∀ e ∈ events2, Event.is_path_event e = true) ∧
        _Thread_queue_Enqueue_critical b fuel s queue operations the_thread state
          queue_context = some (Outcome.returned s1) ∧
        s1.trace = s.trace ++ [Event.wait_claim the_thread queue] ++ events1 ++
          [Event.ops_enqueue queue the_thread] ++ events2 ++
          [Event.return_code_store the_thread Status_Control.STATUS_SUCCESSFUL,
           Event.flags_set the_thread THREAD_QUEUE_INTEND_TO_BLOCK, Event.dispatch_disable,
           Event.queue_release queue, Event.set_state the_thread state] ++
          (match queue_context.timeout_discipline with
           | Watchdog_Discipline.WATCHDOG_RELATIVE =>
             if queue_context.timeout ≠ 0 then
               [Event.timer_insert_relative the_thread (queue_context.timeout % 2 ^ 32)]
             else []
           | Watchdog_Discipline.WATCHDOG_ABSOLUTE =>
             [Event.timer_insert_absolute the_thread queue_context.timeout]
           | Watchdog_Discipline.WATCHDOG_NO_TIMEOUT => []) ++
          [Event.flags_try_change_acquire the_thread THREAD_QUEUE_INTEND_TO_BLOCK
             THREAD_QUEUE_BLOCKED true,
           Event.update_priority (operations.enqueue s.heads queue the_thread).2,
           Event.dispatch_enable]) ∧
    ((s.thread_dispatch_disable_level + 1) % 2 ^ 32
        ≠ queue_context.expected_thread_dispatch_disable_level →
      ∃ s8 events1 events2,
        s2.trace = (_Thread_Wait_claim s the_thread queue operations).trace ++ events1 ∧
        (_Thread_queue_Path_release b
          ((s2.emit (Event.ops_enqueue queue the_thread)).setHeads
            (operations.enqueue s2.heads queue the_thread).1)
          { Links := links,
            update_priority := (operations.enqueue s2.heads queue the_thread).2 }).trace
          = s2.trace ++ [Event.ops_enqueue queue the_thread] ++ events2 ∧
        (∀ e ∈ events1, Event.is_path_event e = true) ∧
        (∀ e ∈ events2, Event.is_path_event e = true) ∧
        _Thread_queue_Enqueue_critical b fuel s queue operations the_thread state
          queue_context = some (Outcome.terminated
            Internal_errors.INTERNAL_ERROR_THREAD_QUEUE_ENQUEUE_FROM_BAD_STATE s8) ∧
        s8.trace = s.trace ++ [Event.wait_claim the_thread queue] ++ events1 ++
          [Event.ops_enqueue queue the_thread] ++ events2 ++
          [Event.return_code_store the_thread Status_Control.STATUS_SUCCESSFUL,
           Event.flags_set the_thread THREAD_QUEUE_INTEND_TO_BLOCK, Event.dispatch_disable,
           Event.queue_release queue]) ∧
    (∀ (k : Kernel H) (path : Thread_queue_Path),
      (_Thread_queue_Enqueue_critical_reconcile k queue the_thread path).trace
        = k.trace ++
          (if (k.threads the_thread).Wait.flags = THREAD_QUEUE_INTEND_TO_BLOCK then
            [Event.flags_try_change_acquire the_thread THREAD_QUEUE_INTEND_TO_BLOCK
              THREAD_QUEUE_BLOCKED true]
           else
            [Event.flags_try_change_acquire the_thread THREAD_QUEUE_INTEND_TO_BLOCK
              THREAD_QUEUE_BLOCKED false,
             Event.remove_timer_and_unblock the_thread queue]) ++
          [Event.update_priority path.update_priority, Event.dispatch_enable]) := by
  refine ⟨fun hlevel => ?_, fun hlevel => ?_, fun k path => ?_⟩
  · obtain ⟨s1, ev1, ev2, h1, h2, hrun, htrace, -, -, -, hacq, hrel⟩ :=
      Enqueue_critical_run b fuel s queue operations the_thread state queue_context links s2
        hpath hlevel
    exact ⟨s1, ev1, ev2, rfl, hacq, hrel, h1, h2, hrun, htrace⟩
  · obtain ⟨s8, ev1, ev2, h1, h2, hrun, htrace, -, hacq, hrel⟩ :=
      Enqueue_critical_bad_state_run b fuel s queue operations the_thread state
        queue_context links s2 hpath hlevel
    exact ⟨s8, ev1, ev2, hacq, hrel, h1, h2, hrun, htrace⟩
  · exact (Enqueue_critical_reconcile_run k queue the_thread path).2.2.2.2

/-- Witness of C19, on an SMP build: thread 1 blocks with a relative timeout of
10 ticks on queue 1, owned by thread 2, who waits on nothing.  The acquire of
the path takes the default wait lock of thread 2 and the release of the path
gives it back, the one before and the other after `ops.enqueue`. -/
theorem Enqueue_critical_step_order_witness :
    (∃ s1 events1 events2 links s2,
      _Thread_queue_Path_acquire { RTEMS_SMP := true } 1
        (_Thread_Wait_claim depth_one_kernel 1 1 fifo_operations) 1 1
        = some (true, links, s2) ∧
      s2.trace = (_Thread_Wait_claim depth_one_kernel 1 1 fifo_operations).trace ++ events1 ∧
      (_Thread_queue_Path_release { RTEMS_SMP := true }
        ((s2.emit (Event.ops_enqueue 1 1)).setHeads (fifo_operations.enqueue s2.heads 1 1).1)
        { Links := links,
          update_priority := (fifo_operations.enqueue s2.heads 1 1).2 }).trace
        = s2.trace ++ [Event.ops_enqueue 1 1] ++ events2 ∧
      _Thread_queue_Enqueue_critical { RTEMS_SMP := true } 1 depth_one_kernel 1
        fifo_operations 1 0 (level_context 1 Watchdog_Discipline.WATCHDOG_RELATIVE 10)
        = some (Outcome.returned s1) ∧
      s1.trace = depth_one_kernel.trace ++ [Event.wait_claim 1 1] ++ events1 ++
        [Event.ops_enqueue 1 1] ++ events2 ++
        [Event.return_code_store 1 Status_Control.STATUS_SUCCESSFUL,
         Event.flags_set 1 THREAD_QUEUE_INTEND_TO_BLOCK, Event.dispatch_disable,
         Event.queue_release 1, Event.set_state 1 0] ++
        [Event.timer_insert_relative 1 (10 % 2 ^ 32)] ++
        [Event.flags_try_change_acquire 1 THREAD_QUEUE_INTEND_TO_BLOCK THREAD_QUEUE_BLOCKED
           true,
         Event.update_priority (fifo_operations.enqueue depth_one_kernel.heads 1 1).2,
         Event.dispatch_enable]) ∧
    (∃ s1, _Thread_queue_Enqueue_critical { RTEMS_SMP := true } 1 depth_one_kernel 1
        fifo_operations 1 0 (level_context 1 Watchdog_Discipline.WATCHDOG_RELATIVE 10)
        = some (Outcome.returned s1) ∧
      s1.trace = [Event.wait_claim 1 1, Event.wait_acquire_default 2, Event.ops_enqueue 1 1,
        Event.wait_release_default 2,
        Event.return_code_store 1 Status_Control.STATUS_SUCCESSFUL,
        Event.flags_set 1 THREAD_QUEUE_INTEND_TO_BLOCK, Event.dispatch_disable,
        Event.queue_release 1, Event.set_state 1 0, Event.timer_insert_relative 1 10,
        Event.flags_try_change_acquire 1 THREAD_QUEUE_INTEND_TO_BLOCK THREAD_QUEUE_BLOCKED true,
        Event.update_priority none, Event.dispatch_enable]) := by
  obtain ⟨s1, ev1, ev2, -, hacq, hrel, -, -, hrun, htrace⟩ :=
    (Enqueue_critical_step_order { RTEMS_SMP := true } 1 depth_one_kernel 1 fifo_operations 1 0
      (level_context 1 Watchdog_Discipline.WATCHDOG_RELATIVE 10) _ _ rfl).1 rfl
  exact ⟨⟨s1, ev1, ev2, _, _, rfl, hacq, hrel, hrun, htrace⟩, _, rfl, rfl⟩

/-- C19, counterexample to the claim as stated.  Thread 1 blocks on the free
queue 1 with a relative timeout of 10 ticks: the blocking state is set before
the timer is armed, not after.  With an expected dispatch disable level of 5
the level check fails and terminates the system when the queue lock has
already been released, so the check does not precede the release. -/
theorem Enqueue_critical_order_differs :
    (∃ s1, _Thread_queue_Enqueue_critical { RTEMS_SMP := false } 1 idle_kernel 1
        fifo_operations 1 0 (level_context 1 Watchdog_Discipline.WATCHDOG_RELATIVE 10)
        = some (Outcome.returned s1) ∧
      s1.trace = [Event.wait_claim 1 1, Event.ops_enqueue 1 1,
        Event.return_code_store 1 Status_Control.STATUS_SUCCESSFUL,
        Event.flags_set 1 THREAD_QUEUE_INTEND_TO_BLOCK,
        Event.dispatch_disable, Event.queue_release 1, Event.set_state 1 0,
        Event.timer_insert_relative 1 10,
        Event.flags_try_change_acquire 1 THREAD_QUEUE_INTEND_TO_BLOCK THREAD_QUEUE_BLOCKED true,
        Event.update_priority none, Event.dispatch_enable]) ∧
    (∃ s8, _Thread_queue_Enqueue_critical { RTEMS_SMP := false } 1 idle_kernel 1
        fifo_operations 1 0 (level_context 5 Watchdog_Discipline.WATCHDOG_RELATIVE 10)
        = some (Outcome.terminated
            Internal_errors.INTERNAL_ERROR_THREAD_QUEUE_ENQUEUE_FROM_BAD_STATE s8) ∧
      s8.trace = [Event.wait_claim 1 1, Event.ops_enqueue 1 1,
        Event.return_code_store 1 Status_Control.STATUS_SUCCESSFUL,
        Event.flags_set 1 THREAD_QUEUE_INTEND_TO_BLOCK,
        Event.dispatch_disable, Event.queue_release 1]) :=
  ⟨⟨_, rfl, rfl⟩, ⟨_, rfl, rfl⟩⟩

theorem flag_calls_path_events (events : List Event)
    (h : ∀ e ∈ events, Event.is_path_event e = true) : flag_calls events = [] := by
  unfold flag_calls
  rw [List.filter_eq_nil_iff]
  intro e he
  have hp := h e he
  revert hp
  cases e <;> simp [Event.is_path_event]

theorem Path_frame.flag_calls {s s1 : Kernel H} (h : Path_frame s s1) :
    flag_calls s1.trace = flag_calls s.trace := by
  obtain ⟨-, -, -, -, events, h5, h6⟩ := h
  rw [h5, flag_calls_append, flag_calls_path_events events h6, List.append_nil]

/-- An update of one control block that keeps its return code keeps the return
code of every thread. -/
theorem return_code_of_update {threads threads1 : ThreadId → Thread_Control H}
    {t : ThreadId} {c : Thread_Control H}
    (h : threads1 = Function.update threads t c)
    (hc : c.Wait.return_code = (threads t).Wait.return_code) (t1 : ThreadId) :
    (threads1 t1).Wait.return_code = (threads t1).Wait.return_code := by
  subst h
  by_cases ht : t1 = t
  · subst ht
    simp [hc]
  · simp [Function.update, ht]

/-- C16: on the path without deadlock, the trace of
`_Thread_queue_Enqueue_critical` holds the store of
`Wait.return_code = STATUS_SUCCESSFUL` directly before the store of
INTEND_TO_BLOCK into the wait flags; before them come the claim, path events
and `ops.enqueue` only, so no call of a wait flag mutator precedes the store of
the status; and the run ends (returned, or terminated for a bad dispatch
level) with the return code `STATUS_SUCCESSFUL`.  None of
`_Thread_queue_Make_ready_again`, `_Thread_queue_Do_extract_locked`,
`_Thread_queue_Extract_critical`, `_Thread_queue_Extract`,
`_Thread_queue_Surrender`, `_Thread_queue_Do_dequeue` changes the return code of
any thread, from any state. -/
theorem Enqueue_critical_return_code (b : Build) (fuel : Nat) (s : Kernel H)
    (queue : QueueId) (operations : Thread_queue_Operations H) (the_thread : ThreadId)
    (state : Nat) (queue_context : Thread_queue_Context H)
    (links : List Thread_queue_Link) (s2 : Kernel H)
    (hpath : _Thread_queue_Path_acquire b fuel
      (_Thread_Wait_claim s the_thread queue operations) the_thread queue
        = some (true, links, s2)) :
    (∃ s6 events1 events2 rest,
      (_Thread_queue_Enqueue_critical b fuel s queue operations the_thread state queue_context
          = some (Outcome.returned s6) ∨
        _Thread_queue_Enqueue_critical b fuel s queue operations the_thread state queue_context
          = some (Outcome.terminated
              Internal_errors.INTERNAL_ERROR_THREAD_QUEUE_ENQUEUE_FROM_BAD_STATE s6)) ∧
      (∀ e ∈ events1, Event.is_path_event e = true) ∧
      (∀ e ∈ events2, Event.is_path_event e = true) ∧
      s6.trace = s.trace ++ [Event.wait_claim the_thread queue] ++ events1 ++
        [Event.ops_enqueue queue the_thread] ++ events2 ++
        [Event.return_code_store the_thread Status_Control.STATUS_SUCCESSFUL,
         Event.flags_set the_thread THREAD_QUEUE_INTEND_TO_BLOCK] ++ rest ∧
      flag_calls (s.trace ++ [Event.wait_claim the_thread queue] ++ events1 ++
        [Event.ops_enqueue queue the_thread] ++ events2 ++
        [Event.return_code_store the_thread Status_Control.STATUS_SUCCESSFUL])
        = flag_calls s.trace ∧
      (s6.threads the_thread).Wait.return_code = Status_Control.STATUS_SUCCESSFUL) ∧
    (∀ (k : Kernel H) (q : QueueId) (ops : Thread_queue_Operations H) (t : ThreadId)
        (heads : Option HeadsPtr) (previous_owner : ThreadId) (keep_priority : Bool)
        (t1 : ThreadId),
      ((_Thread_queue_Make_ready_again k t).2.threads t1).Wait.return_code
        = (k.threads t1).Wait.return_code ∧
      ((_Thread_queue_Do_extract_locked k q ops t).2.threads t1).Wait.return_code
        = (k.threads t1).Wait.return_code ∧
      ((_Thread_queue_Extract_critical k q ops t).threads t1).Wait.return_code
        = (k.threads t1).Wait.return_code ∧
      ((_Thread_queue_Extract k t).threads t1).Wait.return_code
        = (k.threads t1).Wait.return_code ∧
      ((_Thread_queue_Surrender k q ops heads previous_owner keep_priority).threads
          t1).Wait.return_code
        = (k.threads t1).Wait.return_code ∧
      ((_Thread_queue_Do_dequeue k q ops).2.threads t1).Wait.return_code
        = (k.threads t1).Wait.return_code) := by
  constructor
  · have hflag : ∀ ev1 ev2 : List Event, (∀ e ∈ ev1, Event.is_path_event e = true) →
        (∀ e ∈ ev2, Event.is_path_event e = true) →
        flag_calls (s.trace ++ [Event.wait_claim the_thread queue] ++ ev1 ++
          [Event.ops_enqueue queue the_thread] ++ ev2 ++
          [Event.return_code_store the_thread Status_Control.STATUS_SUCCESSFUL])
          = flag_calls s.trace := by
      intro ev1 ev2 h1 h2
      simp only [flag_calls_append, flag_calls_path_events ev1 h1,
        flag_calls_path_events ev2 h2, List.append_nil]
      simp [flag_calls]
    by_cases hlevel : (s.thread_dispatch_disable_level + 1) % 2 ^ 32
        = queue_context.expected_thread_dispatch_disable_level
    · obtain ⟨s1, ev1, ev2, h1, h2, hrun, htrace, hthreads, -⟩ := Enqueue_critical_run b fuel s
        queue operations the_thread state queue_context links s2 hpath hlevel
      refine ⟨s1, ev1, ev2,
        [Event.dispatch_disable, Event.queue_release queue,
         Event.set_state the_thread state] ++
        (match queue_context.timeout_discipline with
         | Watchdog_Discipline.WATCHDOG_RELATIVE =>
           if queue_context.timeout ≠ 0 then
             [Event.timer_insert_relative the_thread (queue_context.timeout % 2 ^ 32)]
           else []
         | Watchdog_Discipline.WATCHDOG_ABSOLUTE =>
           [Event.timer_insert_absolute the_thread queue_context.timeout]
         | Watchdog_Discipline.WATCHDOG_NO_TIMEOUT => []) ++
        [Event.flags_try_change_acquire the_thread THREAD_QUEUE_INTEND_TO_BLOCK
           THREAD_QUEUE_BLOCKED true,
         Event.update_priority (operations.enqueue s.heads queue the_thread).2,
         Event.dispatch_enable],
        Or.inl hrun, h1, h2, ?_, hflag ev1 ev2 h1 h2, ?_⟩
      · rw [htrace]
        simp only [List.append_assoc, List.cons_append, List.nil_append]
      · rw [hthreads]
        simp
    · obtain ⟨s8, ev1, ev2, h1, h2, hrun, htrace, hthreads, -⟩ :=
        Enqueue_critical_bad_state_run b fuel s queue operations the_thread state
          queue_context links s2 hpath hlevel
      refine ⟨s8, ev1, ev2, [Event.dispatch_disable, Event.queue_release queue],
        Or.inr hrun, h1, h2, ?_, hflag ev1 ev2 h1 h2, ?_⟩
      · rw [htrace]
        simp only [List.append_assoc, List.cons_append, List.nil_append]
      · rw [hthreads]
        simp
  · intro k q ops t heads previous_owner keep_priority t1
    refine ⟨?_, ?_, ?_, ?_, ?_, ?_⟩
    · exact return_code_of_update (Make_ready_again_run k t).2.1 rfl t1
    · exact return_code_of_update (Extract_locked_run k q ops t).2.1 rfl t1
    · exact return_code_of_update (Extract_critical_run k q ops t).1 rfl t1
    · cases hq : (k.threads t).Wait.queue with
      | none =>
        unfold _Thread_queue_Extract
        simp only [emit_threads, hq]
      | some queue1 =>
        rw [Extract_waiting_run k t queue1 hq]
        exact return_code_of_update (Extract_critical_run _ queue1 _ t).1 rfl t1
    · rw [(Surrender_trace k q ops heads previous_owner keep_priority).2.1]
      cases heads with
      | none => simp [_Thread_queue_Surrender, _Thread_queue_Queue_release]
      | some h => exact return_code_of_update (Surrender_some_run k q ops h previous_owner).2.1 rfl t1
    · rw [(Do_dequeue_run k q ops).2]
      cases ops.first k.heads q with
      | none => simp
      | some t2 => exact return_code_of_update (Extract_critical_run _ q ops t2).1 rfl t1

/-- Witness of C16, on an SMP build: thread 1 blocks on queue 1, owned by
thread 2, who waits on nothing. -/
theorem Enqueue_critical_return_code_witness :
    (∃ s6 events1 events2 rest,
      (_Thread_queue_Enqueue_critical { RTEMS_SMP := true } 1 depth_one_kernel 1
          fifo_operations 1 0 (level_context 1 Watchdog_Discipline.WATCHDOG_NO_TIMEOUT 0)
          = some (Outcome.returned s6) ∨
        _Thread_queue_Enqueue_critical { RTEMS_SMP := true } 1 depth_one_kernel 1
          fifo_operations 1 0 (level_context 1 Watchdog_Discipline.WATCHDOG_NO_TIMEOUT 0)
          = some (Outcome.terminated
              Internal_errors.INTERNAL_ERROR_THREAD_QUEUE_ENQUEUE_FROM_BAD_STATE s6)) ∧
      (∀ e ∈ events1, Event.is_path_event e = true) ∧
      (∀ e ∈ events2, Event.is_path_event e = true) ∧
      s6.trace = depth_one_kernel.trace ++ [Event.wait_claim 1 1] ++ events1 ++
        [Event.ops_enqueue 1 1] ++ events2 ++
        [Event.return_code_store 1 Status_Control.STATUS_SUCCESSFUL,
         Event.flags_set 1 THREAD_QUEUE_INTEND_TO_BLOCK] ++ rest ∧
      flag_calls (depth_one_kernel.trace ++ [Event.wait_claim 1 1] ++ events1 ++
        [Event.ops_enqueue 1 1] ++ events2 ++
        [Event.return_code_store 1 Status_Control.STATUS_SUCCESSFUL])
        = flag_calls depth_one_kernel.trace ∧
      (s6.threads 1).Wait.return_code = Status_Control.STATUS_SUCCESSFUL) ∧
    (∃ s6, _Thread_queue_Enqueue_critical { RTEMS_SMP := true } 1 depth_one_kernel 1
        fifo_operations 1 0 (level_context 1 Watchdog_Discipline.WATCHDOG_NO_TIMEOUT 0)
        = some (Outcome.returned s6) ∧
      s6.trace = [Event.wait_claim 1 1, Event.wait_acquire_default 2, Event.ops_enqueue 1 1,
        Event.wait_release_default 2,
        Event.return_code_store 1 Status_Control.STATUS_SUCCESSFUL,
        Event.flags_set 1 THREAD_QUEUE_INTEND_TO_BLOCK, Event.dispatch_disable,
        Event.queue_release 1, Event.set_state 1 0,
        Event.flags_try_change_acquire 1 THREAD_QUEUE_INTEND_TO_BLOCK THREAD_QUEUE_BLOCKED true,
        Event.update_priority none, Event.dispatch_enable]) :=
  ⟨(Enqueue_critical_return_code { RTEMS_SMP := true } 1 depth_one_kernel 1 fifo_operations 1 0
      (level_context 1 Watchdog_Discipline.WATCHDOG_NO_TIMEOUT 0) _ _ rfl).1,
   _, rfl, rfl⟩

theorem Owner_walk.deterministic {s : Kernel H} {the_thread : ThreadId} {queue : QueueId}
    {owners : List ThreadId} {n : Nat} {r : Bool}
    (h : Owner_walk s the_thread queue owners n r) :
    ∀ {owners1 : List ThreadId} {n1 : Nat} {r1 : Bool},
      Owner_walk s the_thread queue owners1 n1 r1 → owners1 = owners ∧ n1 = n ∧ r1 = r := by
  induction h with
  | no_owner h =>
    intro owners1 n1 r1 h1
    cases h1 with
    | no_owner _ => exact ⟨rfl, rfl, rfl⟩
    | at_thread g => rw [h] at g; cases g
    | not_waiting g _ _ => rw [h] at g; cases g
    | step g _ _ _ => rw [h] at g; cases g
  | at_thread h =>
    intro owners1 n1 r1 h1
    cases h1 with
    | no_owner g => rw [h] at g; cases g
    | at_thread _ => exact ⟨rfl, rfl, rfl⟩
    | not_waiting g gne _ => rw [h] at g; exact absurd (Option.some.inj g).symm gne
    | step g gne _ _ => rw [h] at g; exact absurd (Option.some.inj g).symm gne
  | not_waiting h hne hw =>
    intro owners1 n1 r1 h1
    cases h1 with
    | no_owner g => rw [h] at g; cases g
    | at_thread g => rw [h] at g; exact absurd (Option.some.inj g) hne
    | not_waiting g _ _ =>
      rw [h] at g
      cases Option.some.inj g
      exact ⟨rfl, rfl, rfl⟩
    | step g _ gw _ =>
      rw [h] at g
      cases Option.some.inj g
      rw [hw] at gw
      cases gw
  | step h hne hw _ ih =>
    intro owners1 n1 r1 h1
    cases h1 with
    | no_owner g => rw [h] at g; cases g
    | at_thread g => rw [h] at g; exact absurd (Option.some.inj g) hne
    | not_waiting g _ gw =>
      rw [h] at g
      cases Option.some.inj g
      rw [hw] at gw
      cases gw
    | step g _ gw grest =>
      rw [h] at g
      cases Option.some.inj g
      rw [hw] at gw
      cases Option.some.inj gw
      obtain ⟨e1, e2, e3⟩ := ih grest
      subst e1 e2 e3
      exact ⟨rfl, rfl, rfl⟩

theorem Owner_walk.length_le {s : Kernel H} {the_thread : ThreadId} {queue : QueueId}
    {owners : List ThreadId} {n : Nat} {r : Bool}
    (h : Owner_walk s the_thread queue owners n r) :
    owners.length ≤ n ∧ n ≤ owners.length + 1 ∧ 1 ≤ n := by
  induction h with
  | no_owner _ => simp
  | at_thread _ => simp
  | not_waiting _ _ _ => simp
  | step _ _ _ _ ih =>
    simp only [List.length_cons]
    omega

/-- An owner met by the walk is the thread itself, or does not wait, or waits
on a queue from which the rest of the walk is shorter. -/
theorem Owner_walk.mem {s : Kernel H} {the_thread : ThreadId} {queue : QueueId}
    {owners : List ThreadId} {n : Nat} {r : Bool}
    (h : Owner_walk s the_thread queue owners n r) :
    ∀ o ∈ owners, o = the_thread ∨ (s.threads o).Wait.queue = none ∨
      ∃ queue1 owners1 n1, (s.threads o).Wait.queue = some queue1 ∧
        Owner_walk s the_thread queue1 owners1 n1 r ∧ n1 < n := by
  induction h with
  | no_owner _ =>
    intro o ho
    cases ho
  | at_thread _ =>
    intro o ho
    simp only [List.mem_singleton] at ho
    exact Or.inl ho
  | not_waiting _ _ hw =>
    intro o ho
    simp only [List.mem_singleton] at ho
    subst ho
    exact Or.inr (Or.inl hw)
  | @step queue queue1 owner owners n r _ _ hw hrest ih =>
    intro o ho
    rcases List.mem_cons.mp ho with ho | ho
    · subst ho
      exact Or.inr (Or.inr ⟨queue1, owners, n, hw, hrest, Nat.lt_succ_self n⟩)
    · rcases ih o ho with h1 | h1 | ⟨q2, os2, n2, h2, h3, h4⟩
      · exact Or.inl h1
      · exact Or.inr (Or.inl h1)
      · exact Or.inr (Or.inr ⟨q2, os2, n2, h2, h3, Nat.lt_succ_of_lt h4⟩)

theorem Owner_walk.nodup {s : Kernel H} {the_thread : ThreadId} {queue : QueueId}
    {owners : List ThreadId} {n : Nat} {r : Bool}
    (h : Owner_walk s the_thread queue owners n r) : owners.Nodup := by
  induction h with
  | no_owner _ => exact List.nodup_nil
  | at_thread _ => exact List.nodup_singleton _
  | not_waiting _ _ _ => exact List.nodup_singleton _
  | @step queue queue1 owner owners n r _ hne hw hrest ih =>
    rw [List.nodup_cons]
    refine ⟨fun hmem => ?_, ih⟩
    rcases hrest.mem owner hmem with h1 | h1 | ⟨q2, os2, n2, h2, h3, h4⟩
    · exact hne h1
    · rw [hw] at h1
      cases h1
    · rw [hw] at h2
      cases Option.some.inj h2
      have := (hrest.deterministic h3).2.1
      omega

theorem Owner_walk.run {s : Kernel H} {the_thread : ThreadId} {queue : QueueId}
    {owners : List ThreadId} {n : Nat} {r : Bool}
    (h : Owner_walk s the_thread queue owners n r) :
    (∀ fuel, n ≤ fuel → _Thread_queue_Path_acquire_UP s the_thread fuel queue = some r) ∧
    (∀ fuel, fuel < n → _Thread_queue_Path_acquire_UP s the_thread fuel queue = none) := by
  induction h with
  | no_owner h =>
    constructor
    · intro fuel hf
      obtain ⟨k, rfl⟩ := Nat.exists_eq_add_of_le hf
      rw [Nat.add_comm]
      simp [_Thread_queue_Path_acquire_UP, h]
    · intro fuel hf
      have : fuel = 0 := by omega
      subst this
      rfl
  | at_thread h =>
    constructor
    · intro fuel hf
      obtain ⟨k, rfl⟩ := Nat.exists_eq_add_of_le hf
      rw [Nat.add_comm]
      simp [_Thread_queue_Path_acquire_UP, h]
    · intro fuel hf
      have : fuel = 0 := by omega
      subst this
      rfl
  | not_waiting h hne hw =>
    constructor
    · intro fuel hf
      obtain ⟨k, rfl⟩ := Nat.exists_eq_add_of_le hf
      rw [Nat.add_comm]
      simp [_Thread_queue_Path_acquire_UP, h, hne, hw]
    · intro fuel hf
      have : fuel = 0 := by omega
      subst this
      rfl
  | @step queue queue1 owner owners n r h hne hw _ ih =>
    constructor
    · intro fuel hf
      obtain ⟨k, rfl⟩ := Nat.exists_eq_add_of_le hf
      have hk : n + 1 + k = (n + k) + 1 := by omega
      rw [hk]
      simp only [_Thread_queue_Path_acquire_UP, h, hne, hw, if_false]
      exact ih.1 (n + k) (Nat.le_add_right n k)
    · intro fuel hf
      cases fuel with
      | zero => rfl
      | succ m =>
        simp only [_Thread_queue_Path_acquire_UP, h, hne, hw, if_false]
        exact ih.2 m (by omega)

theorem Owner_walk.of_walk_finite {s : Kernel H} {the_thread : ThreadId} {queue : QueueId}
    (h : Walk_finite s the_thread queue) :
    ∃ owners n r, Owner_walk s the_thread queue owners n r := by
  induction h with
  | no_owner h => exact ⟨_, _, _, Owner_walk.no_owner h⟩
  | at_thread h => exact ⟨_, _, _, Owner_walk.at_thread h⟩
  | @not_waiting queue owner h1 h2 =>
    by_cases hot : owner = the_thread
    · subst hot
      exact ⟨_, _, _, Owner_walk.at_thread h1⟩
    · exact ⟨_, _, _, Owner_walk.not_waiting h1 hot h2⟩
  | @step queue queue1 owner h1 h2 _ ih =>
    by_cases hot : owner = the_thread
    · subst hot
      exact ⟨_, _, _, Owner_walk.at_thread h1⟩
    · obtain ⟨owners, n, r, hw⟩ := ih
      exact ⟨_, _, _, Owner_walk.step h1 hot h2 hw⟩

theorem Owner_walk.ends_finitely {s : Kernel H} {the_thread : ThreadId} {queue : QueueId}
    {owners : List ThreadId} {n : Nat} {r : Bool}
    (h : Owner_walk s the_thread queue owners n r) : Walk_finite s the_thread queue := by
  induction h with
  | no_owner h => exact Walk_finite.no_owner h
  | at_thread h => exact Walk_finite.at_thread h
  | not_waiting h _ hw => exact Walk_finite.not_waiting h hw
  | step h _ hw _ ih => exact Walk_finite.step h hw ih

theorem Path_acquire_UP_walk_finite {s : Kernel H} {the_thread : ThreadId} :
    ∀ (fuel : Nat) (queue : QueueId) (r : Bool),
      _Thread_queue_Path_acquire_UP s the_thread fuel queue = some r →
      Walk_finite s the_thread queue := by
  intro fuel
  induction fuel with
  | zero =>
    intro queue r h
    simp [_Thread_queue_Path_acquire_UP] at h
  | succ m ih =>
    intro queue r h
    unfold _Thread_queue_Path_acquire_UP at h
    cases ho : (s.queues queue).owner with
    | none => exact Walk_finite.no_owner ho
    | some owner =>
      simp only [ho] at h
      by_cases hot : owner = the_thread
      · subst hot
        exact Walk_finite.at_thread ho
      · simp only [hot, if_false] at h
        cases hw : (s.threads owner).Wait.queue with
        | none => exact Walk_finite.not_waiting ho hw
        | some queue1 =>
          simp only [hw] at h
          exact Walk_finite.step ho hw (ih _ _ h)

/-- C18 (as amended): the loop of `_Thread_queue_Path_acquire` without
`RTEMS_SMP` terminates exactly when the walk along `queue.owner` and
`owner.Wait.queue` from `queue` is finite (it comes to a queue without owner,
to an owner equal to the thread, or to an owner that does not wait).  Then
the owners the walk meets are pairwise distinct, and the loop makes exactly `n`
iterations, where `n` is the number of these owners, or one more (when the walk
ends at a queue without owner): with `n` iterations or more allowed it returns,
with less it does not. -/
theorem Path_acquire_UP_terminates (s : Kernel H) (the_thread : ThreadId) (queue : QueueId) :
    ((∃ fuel r, _Thread_queue_Path_acquire_UP s the_thread fuel queue = some r)
      ↔ Walk_finite s the_thread queue) ∧
    (Walk_finite s the_thread queue ↔
      ∃ owners n r, Owner_walk s the_thread queue owners n r) ∧
    (∀ owners n r, Owner_walk s the_thread queue owners n r →
      owners.Nodup ∧ owners.length ≤ n ∧ n ≤ owners.length + 1 ∧
      (∀ fuel, n ≤ fuel → _Thread_queue_Path_acquire_UP s the_thread fuel queue = some r) ∧
      (∀ fuel, fuel < n → _Thread_queue_Path_acquire_UP s the_thread fuel queue = none)) := by
  refine ⟨⟨fun ⟨fuel, r, h⟩ => Path_acquire_UP_walk_finite fuel queue r h, fun h => ?_⟩,
    ⟨Owner_walk.of_walk_finite, fun ⟨_, _, _, h⟩ => h.ends_finitely⟩, ?_⟩
  · obtain ⟨owners, n, r, hw⟩ := Owner_walk.of_walk_finite h
    exact ⟨n, r, hw.run.1 n (Nat.le_refl n)⟩
  · intro owners n r hw
    exact ⟨hw.nodup, hw.length_le.1, hw.length_le.2.1, hw.run.1, hw.run.2⟩

theorem Path_acquire_UP_cycle (fuel : Nat) :
    _Thread_queue_Path_acquire_UP cycle_kernel 1 fuel 1 = none ∧
    _Thread_queue_Path_acquire_UP cycle_kernel 1 fuel 2 = none := by
  induction fuel with
  | zero => exact ⟨rfl, rfl⟩
  | succ m ih =>
    constructor
    · have h : _Thread_queue_Path_acquire_UP cycle_kernel 1 (m + 1) 1
          = _Thread_queue_Path_acquire_UP cycle_kernel 1 m 2 := rfl
      rw [h]
      exact ih.2
    · have h : _Thread_queue_Path_acquire_UP cycle_kernel 1 (m + 1) 2
          = _Thread_queue_Path_acquire_UP cycle_kernel 1 m 1 := rfl
      rw [h]
      exact ih.1

/-- C18, counterexample to the claim as stated.  In the finite configuration
`cycle_kernel` (queue 1 owned by thread 2, who waits on queue 2, owned by
thread 3, who waits on queue 1) the loop run for thread 1 from queue 1 never
returns, whatever the number of iterations allowed: the owners on the chain
are not distinct.  And on a queue without owner the loop makes one iteration
while there is no owner on the chain. -/
theorem Path_acquire_UP_cycle_diverges :
    (∀ fuel, _Thread_queue_Path_acquire_UP cycle_kernel 1 fuel 1 = none) ∧
    ¬ Walk_finite cycle_kernel 1 1 ∧
    (Owner_walk idle_kernel 1 1 [] 1 true ∧
      _Thread_queue_Path_acquire_UP idle_kernel 1 0 1 = none ∧
      _Thread_queue_Path_acquire_UP idle_kernel 1 1 1 = some true) := by
  refine ⟨fun fuel => (Path_acquire_UP_cycle fuel).1, fun h => ?_,
    Owner_walk.no_owner rfl, rfl, rfl⟩
  obtain ⟨owners, n, r, hw⟩ := Owner_walk.of_walk_finite h
  have h1 := hw.run.1 n (Nat.le_refl n)
  rw [(Path_acquire_UP_cycle n).1] at h1
  cases h1

theorem Registry_reaches.mono {links links1 : List Thread_queue_Link} {source q : QueueId}
    (hsub : ∀ l ∈ links, l ∈ links1) (h : Registry_reaches links source q) :
    Registry_reaches links1 source q := by
  induction h with
  | last hm hs ht => exact Registry_reaches.last (hsub _ hm) hs ht
  | step hm hs _ ih => exact Registry_reaches.step (hsub _ hm) hs ih

theorem Registry_reaches.extend {links : List Thread_queue_Link} {a b q : QueueId}
    {l : Thread_queue_Link} (hl : l ∈ links) (hs : l.source = a) (ht : l.target = b)
    (h : Registry_reaches links a q) : Registry_reaches links b q := by
  induction h with
  | @last q1 l0 hm0 hs0 ht0 =>
    refine Registry_reaches.step hm0 hs0 ?_
    rw [ht0]
    exact Registry_reaches.last hl hs ht
  | step hm0 hs0 _ ih => exact Registry_reaches.step hm0 hs0 ih

theorem One_link_per_source.insert {links : List Thread_queue_Link}
    (huniq : One_link_per_source links) (node : Thread_queue_Link)
    (hnew : ∀ l ∈ links, node.source ≠ l.source) (key : QueueId)
    (less : QueueId → Thread_queue_Link → Bool) :
    One_link_per_source (_RBTree_Insert_inline links node key less) := by
  unfold One_link_per_source at *
  have hp := RBTree_Insert_inline_perm links node key less
  refine (List.Perm.pairwise_iff ?_ hp).mpr (List.pairwise_cons.mpr ⟨hnew, huniq⟩)
  intro a b hab
  exact fun h => hab h.symm

/-- The loop of `_Thread_queue_Path_acquire` with `RTEMS_SMP`, entered at a
queue from which the walk of the uniprocessor loop returns `r`, returns `r`
too, when the registry holds the links of the walk so far and nothing else. -/
theorem Path_acquire_SMP_loop_walk {s : Kernel H} {the_thread : ThreadId} {queue0 : QueueId}
    (hclaim : (s.threads the_thread).Wait.queue = some queue0)
    {queue : QueueId} {owners : List ThreadId} {n : Nat} {r : Bool}
    (hw : Owner_walk s the_thread queue owners n r) :
    ∀ (s1 : Kernel H) (links : List Thread_queue_Link) (link_id : LinkId) (owner : ThreadId),
      s1.threads = s.threads → s1.queues = s.queues →
      (s.queues queue).owner = some owner →
      One_link_per_source s1.Links →
      (∀ l ∈ s1.Links, ∃ owners1 n1 r1,
        Owner_walk s the_thread l.source owners1 n1 r1 ∧ n < n1) →
      ((queue = queue0 ∧ s1.Links = [] ∧ owner ≠ the_thread) ∨
        Registry_reaches s1.Links queue queue0) →
      ∃ N, ∀ fuel, N ≤ fuel → ∃ links1 s2,
        _Thread_queue_Path_acquire_SMP_loop fuel s1 links link_id queue owner
          = some (r, links1, s2) := by
  induction hw with
  | no_owner h =>
    intro s1 links link_id owner _ _ ho
    rw [h] at ho
    cases ho
  | @at_thread queue h =>
    intro s1 links link_id owner ht _ ho huniq _ hreg
    rw [h] at ho
    cases Option.some.inj ho
    rcases hreg with ⟨_, _, hne⟩ | hreach
    · exact absurd rfl hne
    · obtain ⟨n0, hn0⟩ := Link_add_walk_of_reaches huniq hreach
      refine ⟨n0 + 1, fun fuel hf => ?_⟩
      obtain ⟨k, rfl⟩ := Nat.exists_eq_add_of_le hf
      have hk : n0 + 1 + k = (n0 + k) + 1 := by omega
      rw [hk]
      have hwalk := hn0 (n0 + k + 1) (by omega)
      unfold _Thread_queue_Path_acquire_SMP_loop
      simp only [emit_threads, ht, hclaim]
      unfold _Thread_queue_Link_add
      simp only [emit_Links, hwalk]
      exact ⟨_, _, rfl⟩
  | @not_waiting queue owner0 h hne hwq =>
    intro s1 links link_id owner ht _ ho _ _ _
    rw [h] at ho
    cases Option.some.inj ho
    refine ⟨1, fun fuel hf => ?_⟩
    obtain ⟨k, rfl⟩ := Nat.exists_eq_add_of_le hf
    rw [Nat.add_comm]
    unfold _Thread_queue_Path_acquire_SMP_loop
    simp only [emit_threads, ht, hwq]
    exact ⟨_, _, rfl⟩
  | @step queue queue1 owner0 owners n r h hne hwq hrest ih =>
    intro s1 links link_id owner ht hqs ho huniq hsrc hreg
    rw [h] at ho
    cases Option.some.inj ho
    have hhere : Owner_walk s the_thread queue (owner0 :: owners) (n + 1) r :=
      Owner_walk.step h hne hwq hrest
    have hfind : _Thread_queue_Link_find s1.Links queue1 = none := by
      cases hf : _Thread_queue_Link_find s1.Links queue1 with
      | none => rfl
      | some l =>
        obtain ⟨hm, hs⟩ := Link_find_some hf
        obtain ⟨os1, n1, r1, hw1, hlt⟩ := hsrc l hm
        rw [hs] at hw1
        have := (hrest.deterministic hw1).2.1
        omega
    have hnew : ∀ l ∈ s1.Links, queue ≠ l.source := by
      intro l hm hs
      obtain ⟨os1, n1, r1, hw1, hlt⟩ := hsrc l hm
      rw [← hs] at hw1
      have := (hhere.deterministic hw1).2.1
      omega
    cases ho1 : (s.queues queue1).owner with
    | none =>
      have hr : r = true := ((Owner_walk.no_owner ho1).deterministic hrest).2.2
      refine ⟨1, fun fuel hf => ?_⟩
      obtain ⟨k, rfl⟩ := Nat.exists_eq_add_of_le hf
      rw [Nat.add_comm]
      unfold _Thread_queue_Path_acquire_SMP_loop
      simp only [emit_threads, ht, hwq]
      unfold _Thread_queue_Link_add
      simp only [emit_Links, _Thread_queue_Link_add_walk, hfind, emit_queues, setLinks_queues,
        hqs, ho1, hr]
      exact ⟨_, _, rfl⟩
    | some owner1 =>
      obtain ⟨N, hN⟩ := ih
        (((((((s1.emit (Event.wait_acquire_default owner0)).emit Event.registry_acquire).setLinks
          (_RBTree_Insert_inline s1.Links
            { id := link_id, source := queue, target := queue1, owner := owner0,
              wait_queue := some queue1 } queue _Thread_queue_Link_less)).emit
          Event.registry_release).emit (Event.gate_add owner0 link_id)).emit
          (Event.wait_release_default owner0)).emit (Event.wait_acquire_queue queue1))
        (links ++ [
          { id := link_id, source := queue, target := queue1, owner := owner0,
            wait_queue := some queue1 }])
        (LinkId.Wait_Link owner0) owner1 ht hqs ho1
        (One_link_per_source.insert huniq _ hnew _ _)
        (by
          intro l hm
          simp only [emit_Links, setLinks_Links] at hm
          rcases List.mem_cons.mp ((RBTree_Insert_inline_perm _ _ _ _).mem_iff.mp hm) with hl | hl
          · subst hl
            exact ⟨_, _, _, hhere, Nat.lt_succ_self n⟩
          · obtain ⟨os1, n1, r1, hw1, hlt⟩ := hsrc l hl
            exact ⟨os1, n1, r1, hw1, by omega⟩)
        (by
          right
          simp only [emit_Links, setLinks_Links]
          have hmem : (
              { id := link_id, source := queue, target := queue1, owner := owner0,
                wait_queue := some queue1 } : Thread_queue_Link) ∈
              _RBTree_Insert_inline s1.Links
                { id := link_id, source := queue, target := queue1, owner := owner0,
                  wait_queue := some queue1 } queue _Thread_queue_Link_less :=
            (RBTree_Insert_inline_perm _ _ _ _).mem_iff.mpr (List.mem_cons_self _ _)
          rcases hreg with ⟨hq0, _, _⟩ | hreach
          · exact Registry_reaches.last hmem hq0 rfl
          · refine Registry_reaches.extend hmem rfl rfl (hreach.mono ?_)
            intro l hl
            exact (RBTree_Insert_inline_perm _ _ _ _).mem_iff.mpr (List.mem_cons_of_mem _ hl))
      refine ⟨N + 1, fun fuel hf => ?_⟩
      obtain ⟨k, rfl⟩ := Nat.exists_eq_add_of_le hf
      have hk : N + 1 + k = (N + k) + 1 := by omega
      rw [hk]
      obtain ⟨links1, s2, hrun⟩ := hN (N + k) (Nat.le_add_right N k)
      refine ⟨links1, s2, ?_⟩
      unfold _Thread_queue_Path_acquire_SMP_loop
      simp only [emit_threads, ht, hwq]
      unfold _Thread_queue_Link_add
      simp only [emit_Links, _Thread_queue_Link_add_walk, hfind, emit_queues, setLinks_queues,
        hqs, ho1]
      exact hrun

/-- C20: from an empty registry, with `queue` claimed by the thread
(`thread.Wait.queue = queue`) and a finite walk of the owner chain, the variant
of `_Thread_queue_Path_acquire` with `RTEMS_SMP` and the one without both
return, given enough fuel for their loops, and they return the same boolean. -/
theorem Path_acquire_SMP_agrees_UP (s : Kernel H) (the_thread : ThreadId) (queue : QueueId)
    (hreg : s.Links = []) (hclaim : (s.threads the_thread).Wait.queue = some queue)
    (hfin : Walk_finite s the_thread queue) :
    ∃ N r, ∀ fuel, N ≤ fuel →
      (_Thread_queue_Path_acquire { RTEMS_SMP := false } fuel s the_thread queue).map
          (fun x => x.1) = some r ∧
      (_Thread_queue_Path_acquire { RTEMS_SMP := true } fuel s the_thread queue).map
          (fun x => x.1) = some r := by
  obtain ⟨owners, n, r, hw⟩ := Owner_walk.of_walk_finite hfin
  have hup : ∀ fuel, n ≤ fuel →
      (_Thread_queue_Path_acquire { RTEMS_SMP := false } fuel s the_thread queue).map
        (fun x => x.1) = some r := by
    intro fuel hf
    unfold _Thread_queue_Path_acquire
    simp [hw.run.1 fuel hf]
  cases ho : (s.queues queue).owner with
  | none =>
    have hr : r = true := ((Owner_walk.no_owner ho).deterministic hw).2.2
    refine ⟨n, r, fun fuel hf => ⟨hup fuel hf, ?_⟩⟩
    unfold _Thread_queue_Path_acquire _Thread_queue_Path_acquire_SMP
    simp [ho, hr]
  | some owner =>
    by_cases hot : owner = the_thread
    · subst hot
      have hr : r = false := ((Owner_walk.at_thread ho).deterministic hw).2.2
      refine ⟨n, r, fun fuel hf => ⟨hup fuel hf, ?_⟩⟩
      unfold _Thread_queue_Path_acquire _Thread_queue_Path_acquire_SMP
      simp [ho, hr]
    · obtain ⟨N, hN⟩ := Path_acquire_SMP_loop_walk hclaim hw s [] LinkId.Start owner rfl rfl ho
        (by rw [hreg]; exact List.Pairwise.nil)
        (by rw [hreg]; intro l hl; cases hl)
        (Or.inl ⟨rfl, hreg, hot⟩)
      refine ⟨max n N, r, fun fuel hf => ⟨hup fuel (le_trans (le_max_left n N) hf), ?_⟩⟩
      obtain ⟨links1, s2, hrun⟩ := hN fuel (le_trans (le_max_right n N) hf)
      unfold _Thread_queue_Path_acquire _Thread_queue_Path_acquire_SMP
      simp [ho, hot, hrun]

/-- Witness of C20 on the two hop cycle, thread 1 having claimed queue 1: both
variants report the deadlock. -/
theorem Path_acquire_SMP_agrees_UP_witness :
    (∃ N r, ∀ fuel, N ≤ fuel →
      (_Thread_queue_Path_acquire { RTEMS_SMP := false } fuel claimed_two_hop_kernel 1 1).map
          (fun x => x.1) = some r ∧
      (_Thread_queue_Path_acquire { RTEMS_SMP := true } fuel claimed_two_hop_kernel 1 1).map
          (fun x => x.1) = some r) ∧
    (_Thread_queue_Path_acquire { RTEMS_SMP := false } 3 claimed_two_hop_kernel 1 1).map
        (fun x => x.1) = some false ∧
    (_Thread_queue_Path_acquire { RTEMS_SMP := true } 3 claimed_two_hop_kernel 1 1).map
        (fun x => x.1) = some false :=
  ⟨Path_acquire_SMP_agrees_UP claimed_two_hop_kernel 1 1 rfl rfl
    (@Walk_finite.step _ claimed_two_hop_kernel 1 1 2 2 rfl rfl (Walk_finite.at_thread rfl)),
   rfl, rfl⟩

theorem locks_held_append (tr1 tr2 : List Event) (lock : Lock) :
    locks_held (tr1 ++ tr2) lock = locks_held tr1 lock + locks_held tr2 lock := by
  simp [locks_held]

theorem locks_held_emit (s : Kernel H) (e : Event) (lock : Lock) :
    locks_held (s.emit e).trace lock = locks_held s.trace lock + Event.lock_delta lock e := by
  simp [Kernel.emit, locks_held]

theorem Path_locks_append (l1 l2 : List Thread_queue_Link) (lock : Lock) :
    Path_locks (l1 ++ l2) lock = Path_locks l1 lock + Path_locks l2 lock := by
  simp [Path_locks]

theorem Path_locks_reverse (links : List Thread_queue_Link) (lock : Lock) :
    Path_locks links.reverse lock = Path_locks links lock := by
  induction links with
  | nil => rfl
  | cons a rest ih =>
    rw [List.reverse_cons, Path_locks_append, ih]
    simp [Path_locks]
    omega

theorem Path_registered_all {links : List Thread_queue_Link}
    (h : ∀ l ∈ links, l.wait_queue ≠ none) : Path_registered links = links := by
  unfold Path_registered
  rw [List.filter_eq_self]
  intro l hl
  cases hq : l.wait_queue with
  | none => exact absurd hq (h l hl)
  | some q => rfl

theorem Link_add_run {fuel : Nat} {s : Kernel H} {link : Thread_queue_Link}
    {source target : QueueId} {b : Bool} {link1 : Thread_queue_Link} {s2 : Kernel H}
    (h : _Thread_queue_Link_add fuel s link source target = some (b, link1, s2)) :
    s2.trace = s.trace ++ [Event.registry_acquire, Event.registry_release] ∧
    link1.owner = link.owner ∧ link1.wait_queue = link.wait_queue ∧
    (b = false → s2.Links = s.Links) ∧ (b = true → s2.Links.Perm (link1 :: s.Links)) := by
  unfold _Thread_queue_Link_add at h
  simp only [emit_Links] at h
  cases hw : _Thread_queue_Link_add_walk s.Links source fuel target with
  | none => simp [hw] at h
  | some b1 =>
    cases b1 with
    | false =>
      simp only [hw, Option.some.injEq, Prod.mk.injEq] at h
      obtain ⟨hb, hl, hs⟩ := h
      subst hb hl hs
      refine ⟨by simp [Kernel.emit], rfl, rfl, fun _ => rfl, fun hb => (by cases hb)⟩
    | true =>
      simp only [hw, Option.some.injEq, Prod.mk.injEq] at h
      obtain ⟨hb, hl, hs⟩ := h
      subst hb hl hs
      refine ⟨by simp [Kernel.emit, Kernel.setLinks], rfl, rfl, fun hb => (by cases hb),
        fun _ => ?_⟩
      simp only [emit_Links, setLinks_Links]
      exact RBTree_Insert_inline_perm _ _ _ _

theorem Path_release_link_run (s : Kernel H) (link : Thread_queue_Link) :
    (_Thread_queue_Path_release_link s link).Links = s.Links.erase link ∧
    ∀ lock, locks_held (_Thread_queue_Path_release_link s link).trace lock
      = locks_held s.trace lock
        - (match link.wait_queue with
           | some q => if lock = Lock.queue q then 1 else 0
           | none => 0) := by
  unfold _Thread_queue_Path_release_link _Thread_queue_Link_remove _RBTree_Extract
  refine ⟨by simp, fun lock => ?_⟩
  simp only [locks_held_emit, setLinks_trace]
  cases link.wait_queue with
  | none =>
    simp only [Event.lock_delta]
    split_ifs <;> omega
  | some q =>
    simp only [Event.lock_delta]
    split_ifs <;> omega

theorem Path_release_foldl_Links (links : List Thread_queue_Link) :
    ∀ (s : Kernel H) (L0 : List Thread_queue_Link), s.Links.Perm (links ++ L0) →
      (links.foldl _Thread_queue_Path_release_link s).Links.Perm L0 := by
  induction links with
  | nil => exact fun s L0 h => h
  | cons a rest ih =>
    intro s L0 h
    rw [List.foldl_cons]
    refine ih _ L0 ?_
    rw [(Path_release_link_run s a).1]
    have := h.erase a
    simpa using this

theorem Path_release_foldl_locks (links : List Thread_queue_Link) :
    ∀ (s : Kernel H), (∀ l ∈ links, l.wait_queue ≠ none) → ∀ lock,
      locks_held (links.foldl _Thread_queue_Path_release_link s).trace lock
        = locks_held s.trace lock - Path_locks links lock := by
  induction links with
  | nil =>
    intro s _ lock
    simp [Path_locks]
  | cons a rest ih =>
    intro s hall lock
    rw [List.foldl_cons, ih _ (fun l hl => hall l (List.mem_cons_of_mem _ hl)) lock,
      (Path_release_link_run s a).2 lock]
    have ha := hall a (List.mem_cons_self _ _)
    cases hq : a.wait_queue with
    | none => exact absurd hq ha
    | some q =>
      simp only [Path_locks, List.map_cons, List.sum_cons, Thread_queue_Link.lock_held, hq]
      omega

/-- The release of a path whose links, the last apart, stand for a queue lock:
the links the path has in the registry leave it, and the locks the links stand
for are released. -/
theorem Path_release_SMP_run (s2 : Kernel H) (path : Thread_queue_Path)
    (L0 : List Thread_queue_Link)
    (hshape : ∀ l ∈ path.Links.dropLast, l.wait_queue ≠ none)
    (hreg : s2.Links.Perm (Path_registered path.Links ++ L0)) :
    (_Thread_queue_Path_release_SMP s2 path).Links.Perm L0 ∧
    ∀ lock, locks_held (_Thread_queue_Path_release_SMP s2 path).trace lock
      = locks_held s2.trace lock - Path_locks path.Links lock := by
  unfold _Thread_queue_Path_release_SMP
  rcases List.eq_nil_or_concat path.Links with hl | ⟨init, last, hl⟩
  · rw [hl] at hreg
    simp only [hl, List.reverse_nil]
    refine ⟨by simpa [Path_registered] using hreg, fun lock => by simp [Path_locks]⟩
  · rw [List.concat_eq_append] at hl
    rw [hl] at hreg hshape
    rw [List.dropLast_concat] at hshape
    simp only [hl, List.reverse_append, List.reverse_singleton, List.singleton_append]
    have hinit : Path_registered init = init := Path_registered_all hshape
    have hrev : ∀ l ∈ init.reverse, l.wait_queue ≠ none :=
      fun l hm => hshape l (List.mem_reverse.mp hm)
    cases hq : last.wait_queue with
    | none =>
      simp only [if_true]
      have hreg1 : s2.Links.Perm (init ++ L0) := by
        have : Path_registered (init ++ [last]) = init := by
          unfold Path_registered at hinit ⊢
          rw [List.filter_append, hinit]
          simp [hq]
        rwa [this] at hreg
      constructor
      · refine Path_release_foldl_Links _ _ L0 ?_
        simp only [emit_Links]
        exact hreg1.trans ((List.reverse_perm init).symm.append_right L0)
      · intro lock
        rw [Path_release_foldl_locks _ _ hrev lock, locks_held_emit, Path_locks_reverse,
          Path_locks_append]
        simp only [Path_locks, List.map_cons, List.map_nil, List.sum_cons, List.sum_nil,
          Thread_queue_Link.lock_held, hq, Event.lock_delta]
        split <;> omega
    | some q =>
      have hne : ¬ (some q : Option QueueId) = none := by simp
      simp only [hne, if_false]
      have hall : ∀ l ∈ init ++ [last], l.wait_queue ≠ none := by
        intro l hm
        rcases List.mem_append.mp hm with h | h
        · exact hshape l h
        · simp only [List.mem_singleton] at h
          subst h
          rw [hq]
          simp
      rw [Path_registered_all hall] at hreg
      have hrl : last :: init.reverse = (init ++ [last]).reverse := by simp
      rw [hrl]
      constructor
      · exact Path_release_foldl_Links _ _ L0
          (hreg.trans ((List.reverse_perm (init ++ [last])).symm.append_right L0))
      · intro lock
        rw [Path_release_foldl_locks _ _
          (fun l hm => hall l (List.mem_reverse.mp hm)) lock, Path_locks_reverse]

/-- The loop of `_Thread_queue_Path_acquire` with `RTEMS_SMP` on the registry
and the locks.  `L0` is the registry without the links of the path, `h0` the
locks held without those of the path. -/
theorem Path_acquire_SMP_loop_restores (L0 : List Thread_queue_Link) (h0 : Lock → Int) :
    ∀ (fuel : Nat) (s : Kernel H) (links : List Thread_queue_Link) (link_id : LinkId)
      (queue : QueueId) (owner : ThreadId) (r : Bool) (links1 : List Thread_queue_Link)
      (s1 : Kernel H),
      _Thread_queue_Path_acquire_SMP_loop fuel s links link_id queue owner
        = some (r, links1, s1) →
      (∀ l ∈ links, l.wait_queue ≠ none) →
      s.Links.Perm (links ++ L0) →
      (∀ lock, locks_held s.trace lock = h0 lock + Path_locks links lock) →
      (r = false → s1.Links.Perm L0 ∧ ∀ lock, locks_held s1.trace lock = h0 lock) ∧
      (r = true → (∀ l ∈ links1.dropLast, l.wait_queue ≠ none) ∧
        s1.Links.Perm (Path_registered links1 ++ L0) ∧
        ∀ lock, locks_held s1.trace lock = h0 lock + Path_locks links1 lock) := by
  intro fuel
  induction fuel with
  | zero =>
    intro s links link_id queue owner r links1 s1 h
    simp [_Thread_queue_Path_acquire_SMP_loop] at h
  | succ n ih =>
    intro s links link_id queue owner r links1 s1 h hall hreg hheld
    unfold _Thread_queue_Path_acquire_SMP_loop at h
    simp only [emit_threads] at h
    cases hq : (s.threads owner).Wait.queue with
    | none =>
      simp only [hq, Option.some.injEq, Prod.mk.injEq] at h
      obtain ⟨hr, hl, hs⟩ := h
      subst hr hl hs
      refine ⟨fun hb => (by cases hb), fun _ => ⟨?_, ?_, ?_⟩⟩
      · rw [List.dropLast_concat]
        exact hall
      · unfold Path_registered
        rw [List.filter_append]
        have := Path_registered_all hall
        unfold Path_registered at this
        rw [this]
        simpa using hreg
      · intro lock
        rw [locks_held_emit, hheld lock, Path_locks_append]
        simp [Path_locks, Thread_queue_Link.lock_held, Event.lock_delta]
        omega
    | some target =>
      simp only [hq] at h
      cases ha : _Thread_queue_Link_add (n + 1) (s.emit (Event.wait_acquire_default owner))
          { id := link_id, source := 0, target := 0, owner := owner, wait_queue := some target }
          queue target with
      | none => simp [ha] at h
      | some ra =>
        obtain ⟨rb, link1, s2⟩ := ra
        obtain ⟨atrace, aowner, await, afalse, atrue⟩ := Link_add_run ha
        simp only [ha] at h
        simp only [emit_trace, emit_Links] at atrace afalse atrue
        have hheld2 : ∀ lock, locks_held s2.trace lock
            = h0 lock + Path_locks links lock
              + (if lock = Lock.thread_default owner then 1 else 0) := by
          intro lock
          rw [atrace, locks_held_append, locks_held_append, hheld lock]
          simp only [locks_held, List.map_cons, List.map_nil, List.sum_cons, List.sum_nil,
            Event.lock_delta]
          split_ifs <;> omega
        cases rb with
        | false =>
          simp only [Option.some.injEq, Prod.mk.injEq] at h
          obtain ⟨hr, hl, hs⟩ := h
          subst hr hl hs
          refine ⟨fun _ => ?_, fun hb => (by cases hb)⟩
          have hrel := Path_release_SMP_run s2
            { Links := links ++ [{ link1 with wait_queue := none }], update_priority := none } L0
            (by
              simp only [List.dropLast_concat]
              exact hall)
            (by
              simp only []
              unfold Path_registered
              rw [List.filter_append]
              have := Path_registered_all hall
              unfold Path_registered at this
              rw [this, afalse rfl]
              simpa using hreg)
          refine ⟨hrel.1, fun lock => ?_⟩
          rw [hrel.2 lock, hheld2 lock, Path_locks_append]
          simp only [Path_locks, List.map_cons, List.map_nil, List.sum_cons, List.sum_nil,
            Thread_queue_Link.lock_held, aowner]
          omega
        | true =>
          have hne : ¬ link1.wait_queue = none := by
            rw [await]
            simp
          simp only [hne, if_false, emit_queues] at h
          have hall1 : ∀ l ∈ links ++ [link1], l.wait_queue ≠ none := by
            intro l hm
            rcases List.mem_append.mp hm with hm | hm
            · exact hall l hm
            · simp only [List.mem_singleton] at hm
              subst hm
              exact hne
          have hreg5 : s2.Links.Perm ((links ++ [link1]) ++ L0) := by
            refine (atrue rfl).trans ?_
            refine (List.Perm.cons link1 hreg).trans ?_
            rw [List.append_assoc]
            exact (List.perm_middle.symm : (link1 :: (links ++ L0)).Perm
              (links ++ link1 :: L0))
          have hheld5 : ∀ lock, locks_held
              (((s2.emit (Event.gate_add owner link1.id)).emit
                (Event.wait_release_default owner)).emit
                (Event.wait_acquire_queue target)).trace lock
              = h0 lock + Path_locks (links ++ [link1]) lock := by
            intro lock
            rw [locks_held_emit, locks_held_emit, locks_held_emit, hheld2 lock,
              Path_locks_append]
            simp only [Path_locks, List.map_cons, List.map_nil, List.sum_cons, List.sum_nil,
              Thread_queue_Link.lock_held, await, Event.lock_delta]
            split_ifs <;> omega
          cases ho : (s2.queues target).owner with
          | none =>
            simp only [ho, Option.some.injEq, Prod.mk.injEq] at h
            obtain ⟨hr, hl, hs⟩ := h
            subst hr hl hs
            refine ⟨fun hb => (by cases hb), fun _ => ⟨?_, ?_, hheld5⟩⟩
            · rw [List.dropLast_concat]
              exact hall
            · rw [Path_registered_all hall1]
              simpa using hreg5
          | some owner1 =>
            simp only [ho] at h
            exact ih _ _ _ _ _ _ _ _ h hall1 (by simpa using hreg5) hheld5

theorem Registry_ordered.insert_inline {links : List Thread_queue_Link}
    (h : Registry_ordered links) (node : Thread_queue_Link) :
    Registry_ordered (_RBTree_Insert_inline links node node.source _Thread_queue_Link_less) := by
  unfold Registry_ordered at *
  induction links with
  | nil => simp [_RBTree_Insert_inline]
  | cons n rest ih =>
    rw [List.pairwise_cons] at h
    unfold _RBTree_Insert_inline
    by_cases hl : _Thread_queue_Link_less node.source n = true
    · simp only [hl, if_true]
      have hlt : node.source < n.source := by
        simpa [_Thread_queue_Link_less] using hl
      refine List.pairwise_cons.mpr ⟨?_, List.pairwise_cons.mpr h⟩
      intro b hb
      rcases List.mem_cons.mp hb with hb | hb
      · subst hb
        exact Nat.le_of_lt hlt
      · exact Nat.le_trans (Nat.le_of_lt hlt) (h.1 b hb)
    · simp only [hl]
      have hge : n.source ≤ node.source := by
        simpa [_Thread_queue_Link_less] using hl
      refine List.pairwise_cons.mpr ⟨?_, ih h.2⟩
      intro b hb
      rcases List.mem_cons.mp ((RBTree_Insert_inline_perm rest node node.source
        _Thread_queue_Link_less).mem_iff.mp hb) with hb | hb
      · subst hb
        exact hge
      · exact h.1 b hb

theorem Registry_ordered.extract {links : List Thread_queue_Link}
    (h : Registry_ordered links) (node : Thread_queue_Link) :
    Registry_ordered (links.erase node) :=
  List.Pairwise.sublist (List.erase_sublist node links) h

theorem Link_add_ordered {fuel : Nat} {s : Kernel H} {link : Thread_queue_Link}
    {source target : QueueId} {r : Bool × Thread_queue_Link × Kernel H}
    (h : _Thread_queue_Link_add fuel s link source target = some r)
    (hord : Registry_ordered s.Links) : Registry_ordered r.2.2.Links := by
  unfold _Thread_queue_Link_add at h
  simp only [emit_Links] at h
  cases hw : _Thread_queue_Link_add_walk s.Links source fuel target with
  | none => simp [hw] at h
  | some b =>
    cases b with
    | false =>
      simp only [hw, Option.some.injEq] at h
      subst h
      exact hord
    | true =>
      simp only [hw, Option.some.injEq] at h
      subst h
      simp only [emit_Links, setLinks_Links]
      exact hord.insert_inline { link with source := source, target := target }

theorem Path_release_link_ordered (s : Kernel H) (link : Thread_queue_Link)
    (hord : Registry_ordered s.Links) :
    Registry_ordered (_Thread_queue_Path_release_link s link).Links := by
  rw [(Path_release_link_run s link).1]
  exact hord.extract link

theorem Path_release_foldl_ordered (links : List Thread_queue_Link) :
    ∀ s : Kernel H, Registry_ordered s.Links →
      Registry_ordered (links.foldl _Thread_queue_Path_release_link s).Links := by
  induction links with
  | nil => exact fun s h => h
  | cons l rest ih =>
    intro s h
    rw [List.foldl_cons]
    exact ih _ (Path_release_link_ordered s l h)

theorem Path_release_SMP_ordered (s : Kernel H) (path : Thread_queue_Path)
    (hord : Registry_ordered s.Links) :
    Registry_ordered (_Thread_queue_Path_release_SMP s path).Links := by
  unfold _Thread_queue_Path_release_SMP
  cases path.Links.reverse with
  | nil => exact hord
  | cons link previous =>
    by_cases h : link.wait_queue = none
    · simp only [h, if_true]
      exact Path_release_foldl_ordered _ _ hord
    · simp only [h, if_false]
      exact Path_release_foldl_ordered _ _ hord

theorem Path_acquire_SMP_loop_ordered :
    ∀ (fuel : Nat) (s : Kernel H) (links : List Thread_queue_Link) (link_id : LinkId)
      (queue : QueueId) (owner : ThreadId) (r : Bool × List Thread_queue_Link × Kernel H),
      _Thread_queue_Path_acquire_SMP_loop fuel s links link_id queue owner = some r →
      Registry_ordered s.Links → Registry_ordered r.2.2.Links := by
  intro fuel
  induction fuel with
  | zero =>
    intro s links link_id queue owner r h
    simp [_Thread_queue_Path_acquire_SMP_loop] at h
  | succ n ih =>
    intro s links link_id queue owner r h hord
    unfold _Thread_queue_Path_acquire_SMP_loop at h
    simp only [emit_threads] at h
    cases hq : (s.threads owner).Wait.queue with
    | none =>
      simp only [hq, Option.some.injEq] at h
      subst h
      exact hord
    | some target =>
      simp only [hq] at h
      cases ha : _Thread_queue_Link_add (n + 1) (s.emit (Event.wait_acquire_default owner))
          { id := link_id, source := 0, target := 0, owner := owner, wait_queue := some target }
          queue target with
      | none => simp [ha] at h
      | some ra =>
        have hf := Link_add_ordered ha hord
        have hl := (Link_add_link ha).2.2
        obtain ⟨rb, link1, s2⟩ := ra
        simp only [ha] at h
        simp only at hf hl
        cases rb with
        | false =>
          simp only [Option.some.injEq] at h
          subst h
          exact Path_release_SMP_ordered _ _ hf
        | true =>
          have hne : ¬ link1.wait_queue = none := by
            rw [hl]
            simp
          simp only [hne, if_false, emit_queues] at h
          cases ho : (s2.queues target).owner with
          | none =>
            simp only [ho, Option.some.injEq] at h
            subst h
            exact hf
          | some owner1 =>
            simp only [ho] at h
            exact ih _ _ _ _ _ _ h hf

theorem Path_acquire_SMP_ordered {fuel : Nat} {s : Kernel H} {the_thread : ThreadId}
    {queue : QueueId} {r : Bool × List Thread_queue_Link × Kernel H}
    (h : _Thread_queue_Path_acquire { RTEMS_SMP := true } fuel s the_thread queue = some r)
    (hord : Registry_ordered s.Links) : Registry_ordered r.2.2.Links := by
  unfold _Thread_queue_Path_acquire _Thread_queue_Path_acquire_SMP at h
  simp only [if_true] at h
  cases ho : (s.queues queue).owner with
  | none =>
    simp only [ho, Option.some.injEq] at h
    subst h
    exact hord
  | some owner =>
    simp only [ho] at h
    by_cases hot : owner = the_thread
    · simp only [hot, if_true, Option.some.injEq] at h
      subst h
      exact hord
    · simp only [hot, if_false] at h
      exact Path_acquire_SMP_loop_ordered _ _ _ _ _ _ _ h hord

/-- A registry that holds the links of a strictly ordered one and is ordered
is that registry. -/
theorem Registry_eq_of_perm {links links1 : List Thread_queue_Link}
    (hperm : links1.Perm links) (hord : Registry_ordered links1)
    (hstrict : links.Pairwise (fun a b => a.source < b.source)) : links1 = links := by
  have hne : links.Pairwise (fun a b => a.source ≠ b.source) :=
    hstrict.imp (fun h => Nat.ne_of_lt h)
  have hne1 : links1.Pairwise (fun a b => a.source ≠ b.source) :=
    (List.Perm.pairwise_iff (fun {a b} h => fun e => h e.symm) hperm).mpr hne
  have hstrict1 : links1.Pairwise (fun a b => a.source < b.source) :=
    (hord.and hne1).imp (fun h => Nat.lt_of_le_of_ne h.1 h.2)
  haveI : IsAntisymm Thread_queue_Link (fun a b => a.source < b.source) :=
    ⟨fun a b h1 h2 => absurd h1 (Nat.lt_asymm h2)⟩
  exact List.eq_of_perm_of_sorted hperm hstrict1 hstrict

/-- C14: a sequential run of `_Thread_queue_Path_acquire` with `RTEMS_SMP`
leaves the threads and the queues (owners, `Wait.queue`) as they were.  When it
reports deadlock, the registry afterwards holds the links it held before the
call (the same links, each as often), it is the registry of before the call
when that was in the order of the map with one link per source queue (so also
when it was empty), and for every lock the number of releases of the walk
equals the number of its acquires.  When it succeeds, the same holds once
`_Thread_queue_Path_release` has run on the path, from any later state in which
the registry is the one the acquire left and whatever else happened in
between. -/
theorem Path_acquire_SMP_restores (fuel : Nat) (s : Kernel H) (the_thread : ThreadId)
    (queue : QueueId) (r : Bool) (links : List Thread_queue_Link) (s1 : Kernel H)
    (hrun : _Thread_queue_Path_acquire { RTEMS_SMP := true } fuel s the_thread queue
      = some (r, links, s1)) :
    s1.threads = s.threads ∧ s1.queues = s.queues ∧
    (r = false →
      s1.Links.Perm s.Links ∧
      (s.Links.Pairwise (fun a b => a.source < b.source) → s1.Links = s.Links) ∧
      ∀ lock, locks_held s1.trace lock = locks_held s.trace lock) ∧
    (r = true → ∀ (s2 : Kernel H) (update_priority : Option ThreadId),
      s2.Links = s1.Links →
      (_Thread_queue_Path_release { RTEMS_SMP := true } s2
        { Links := links, update_priority := update_priority }).Links.Perm s.Links ∧
      (s.Links.Pairwise (fun a b => a.source < b.source) →
        (_Thread_queue_Path_release { RTEMS_SMP := true } s2
          { Links := links, update_priority := update_priority }).Links = s.Links) ∧
      (∀ lock, locks_held (_Thread_queue_Path_release { RTEMS_SMP := true } s2
          { Links := links, update_priority := update_priority }).trace lock
        = locks_held s2.trace lock - (locks_held s1.trace lock - locks_held s.trace lock)) ∧
      (_Thread_queue_Path_release { RTEMS_SMP := true } s2
        { Links := links, update_priority := update_priority }).threads = s2.threads ∧
      (_Thread_queue_Path_release { RTEMS_SMP := true } s2
        { Links := links, update_priority := update_priority }).queues = s2.queues) := by
  obtain ⟨f1, f2, -⟩ := Path_acquire_frame hrun
  simp only at f1 f2
  have hord1 : s.Links.Pairwise (fun a b => a.source < b.source) →
      Registry_ordered s1.Links := fun hstrict =>
    Path_acquire_SMP_ordered hrun (hstrict.imp (fun h => Nat.le_of_lt h))
  have key : (r = false → s1.Links.Perm s.Links ∧
        ∀ lock, locks_held s1.trace lock = locks_held s.trace lock) ∧
      (r = true → (∀ l ∈ links.dropLast, l.wait_queue ≠ none) ∧
        s1.Links.Perm (Path_registered links ++ s.Links) ∧
        ∀ lock, locks_held s1.trace lock = locks_held s.trace lock + Path_locks links lock) := by
    unfold _Thread_queue_Path_acquire _Thread_queue_Path_acquire_SMP at hrun
    simp only [if_true] at hrun
    cases ho : (s.queues queue).owner with
    | none =>
      simp only [ho, Option.some.injEq, Prod.mk.injEq] at hrun
      obtain ⟨hr, hl, hs⟩ := hrun
      subst hr hl hs
      refine ⟨fun hb => (by cases hb), fun _ => ⟨?_, ?_, ?_⟩⟩
      · intro l hl
        cases hl
      · simp [Path_registered]
      · intro lock
        simp [Path_locks]
    | some owner =>
      simp only [ho] at hrun
      by_cases hot : owner = the_thread
      · simp only [hot, if_true, Option.some.injEq, Prod.mk.injEq] at hrun
        obtain ⟨hr, hl, hs⟩ := hrun
        subst hr hl hs
        exact ⟨fun _ => ⟨List.Perm.refl _, fun _ => rfl⟩, fun hb => (by cases hb)⟩
      · simp only [hot, if_false] at hrun
        exact Path_acquire_SMP_loop_restores s.Links (fun lock => locks_held s.trace lock)
          _ _ _ _ _ _ _ _ _ hrun (fun l hl => (by cases hl)) (by simp)
          (fun lock => by simp [Path_locks])
  refine ⟨f1, f2, fun hr => ?_, fun hr s2 update_priority h2 => ?_⟩
  · obtain ⟨k1, k2⟩ := key.1 hr
    exact ⟨k1, fun hstrict => Registry_eq_of_perm k1 (hord1 hstrict) hstrict, k2⟩
  · obtain ⟨k1, k2, k3⟩ := key.2 hr
    obtain ⟨g1, g2, -⟩ := Path_release_frame { RTEMS_SMP := true } s2
      { Links := links, update_priority := update_priority }
    have hrel := Path_release_SMP_run s2 { Links := links, update_priority := update_priority }
      s.Links k1 (by rw [h2]; exact k2)
    have hdef : _Thread_queue_Path_release { RTEMS_SMP := true } s2
        { Links := links, update_priority := update_priority }
        = _Thread_queue_Path_release_SMP s2
          { Links := links, update_priority := update_priority } := rfl
    rw [hdef] at g1 g2 ⊢
    refine ⟨hrel.1, fun hstrict => ?_, fun lock => ?_, g1, g2⟩
    · refine Registry_eq_of_perm hrel.1 (Path_release_SMP_ordered s2 _ ?_) hstrict
      rw [h2]
      exact hord1 hstrict
    · have h3 := hrel.2 lock
      simp only at h3
      rw [h3, k3 lock]
      omega

/-- Witness of C14.  On the two hop cycle, thread 1 having claimed queue 1, the
walk reports deadlock and leaves the registry empty and no lock held.  On
`two_hop_kernel` thread 3 asks for queue 1: the walk succeeds with a path
through the threads 2 and 1, and after the release of the path the registry is
empty again. -/
theorem Path_acquire_SMP_restores_witness :
    (∃ links s1,
      _Thread_queue_Path_acquire { RTEMS_SMP := true } 3 claimed_two_hop_kernel 1 1
        = some (false, links, s1) ∧
      s1.Links = [] ∧
      ∀ lock, locks_held s1.trace lock = locks_held claimed_two_hop_kernel.trace lock) ∧
    (∃ links s1,
      _Thread_queue_Path_acquire { RTEMS_SMP := true } 3 two_hop_kernel 3 1
        = some (true, links, s1) ∧
      links.length = 2 ∧ s1.Links.length = 1 ∧
      (_Thread_queue_Path_release { RTEMS_SMP := true } s1
        { Links := links, update_priority := none }).Links = []) :=
  ⟨⟨_, _, rfl,
    ((Path_acquire_SMP_restores 3 claimed_two_hop_kernel 1 1 false _ _ rfl).2.2.1 rfl).2.1
      List.Pairwise.nil,
    ((Path_acquire_SMP_restores 3 claimed_two_hop_kernel 1 1 false _ _ rfl).2.2.1 rfl).2.2⟩,
   ⟨_, _, rfl, rfl, rfl,
    ((Path_acquire_SMP_restores 3 two_hop_kernel 3 1 true _ _ rfl).2.2.2 rfl _ none rfl).2.1
      List.Pairwise.nil⟩⟩

theorem Thread_Wait_flags_class_INTEND_TO_BLOCK :
    Thread_Wait_flags_class THREAD_QUEUE_INTEND_TO_BLOCK = THREAD_WAIT_CLASS_OBJECT := by
  decide

theorem Thread_Wait_flags_class_BLOCKED :
    Thread_Wait_flags_class THREAD_QUEUE_BLOCKED = THREAD_WAIT_CLASS_OBJECT := by
  decide

theorem Thread_Wait_flags_class_READY_AGAIN :
    Thread_Wait_flags_class THREAD_QUEUE_READY_AGAIN = THREAD_WAIT_CLASS_OBJECT := by
  decide

/-- A step that touches one thread only, and leaves it without wait queue or
with flags of the object class, keeps `Wait_queue_has_object_class`. -/
theorem Wait_queue_has_object_class.step {s s1 : Kernel H} (t : ThreadId)
    (hinv : Wait_queue_has_object_class s)
    (hother : ∀ t1, t1 ≠ t → s1.threads t1 = s.threads t1)
    (hthread : (s1.threads t).Wait.queue = none ∨
      Thread_Wait_flags_class (s1.threads t).Wait.flags = THREAD_WAIT_CLASS_OBJECT ∨
      s1.threads t = s.threads t) :
    Wait_queue_has_object_class s1 := by
  intro t1 hq
  by_cases ht : t1 = t
  · subst ht
    rcases hthread with h | h | h
    · exact absurd h hq
    · exact h
    · rw [h] at hq ⊢
      exact hinv t1 hq
  · rw [hother t1 ht] at hq ⊢
    exact hinv t1 hq

theorem Wait_queue_has_object_class.update {s s1 : Kernel H} {t : ThreadId}
    {c : Thread_Control H} (hinv : Wait_queue_has_object_class s)
    (h : s1.threads = Function.update s.threads t c)
    (hc : c.Wait.queue = none ∨
      Thread_Wait_flags_class c.Wait.flags = THREAD_WAIT_CLASS_OBJECT) :
    Wait_queue_has_object_class s1 := by
  refine hinv.step t (fun t1 ht => ?_) ?_
  · rw [h]
    simp [Function.update, ht]
  · rw [h]
    simp only [Function.update_same]
    rcases hc with hc | hc
    · exact Or.inl hc
    · exact Or.inr (Or.inl hc)

theorem Wait_queue_has_object_class.same {s s1 : Kernel H}
    (hinv : Wait_queue_has_object_class s) (h : s1.threads = s.threads) :
    Wait_queue_has_object_class s1 := by
  intro t hq
  rw [h] at hq ⊢
  exact hinv t hq

theorem Enqueue_critical_reconcile_class (s : Kernel H) (queue : QueueId)
    (the_thread : ThreadId) (path : Thread_queue_Path)
    (hinv : Wait_queue_has_object_class s) :
    Wait_queue_has_object_class
      (_Thread_queue_Enqueue_critical_reconcile s queue the_thread path) := by
  have h := (Enqueue_critical_reconcile_run s queue the_thread path).1
  by_cases hf : (s.threads the_thread).Wait.flags = THREAD_QUEUE_INTEND_TO_BLOCK
  · simp only [hf, if_true] at h
    exact hinv.update h (Or.inr Thread_Wait_flags_class_BLOCKED)
  · simp only [hf, if_false] at h
    exact hinv.same h

theorem Enqueue_critical_block_class (b : Build) (fuel : Nat) (s : Kernel H) (queue : QueueId)
    (operations : Thread_queue_Operations H) (the_thread : ThreadId) (state : Nat)
    (queue_context : Thread_queue_Context H) (stage : Enqueue_stage H)
    (hcallout : Standard_callout queue_context)
    (hrun : _Thread_queue_Enqueue_critical_block b fuel s queue operations the_thread state
      queue_context = some stage)
    (hinv : Wait_queue_has_object_class s) :
    Wait_queue_has_object_class stage.state := by
  unfold _Thread_queue_Enqueue_critical_block at hrun
  cases hp : _Thread_queue_Path_acquire b fuel
      (_Thread_Wait_claim s the_thread queue operations) the_thread queue with
  | none => simp [hp] at hrun
  | some ra =>
    obtain ⟨r, links, s2⟩ := ra
    obtain ⟨f1, -⟩ := Path_acquire_frame hp
    simp only at f1
    cases r with
    | false =>
      simp only [hp, Option.some.injEq] at hrun
      subst hrun
      rcases hcallout with hc | hc
      · rw [hc]
        refine hinv.step the_thread (fun t1 ht => ?_) (Or.inl ?_)
        · simp [Enqueue_stage.state, Outcome.state, _Thread_queue_Deadlock_status,
            _Thread_Wait_tranquilize, _Thread_queue_Queue_release, _Thread_Wait_restore_default,
            Kernel.updThread, Function.update, ht, f1, _Thread_Wait_claim]
        · simp [Enqueue_stage.state, Outcome.state, _Thread_queue_Deadlock_status,
            _Thread_Wait_tranquilize, _Thread_queue_Queue_release, _Thread_Wait_restore_default,
            Kernel.updThread]
      · rw [hc]
        refine hinv.step the_thread (fun t1 ht => ?_) (Or.inl ?_)
        · simp [Enqueue_stage.state, Outcome.state, _Thread_queue_Deadlock_fatal,
            _Thread_Wait_tranquilize, _Thread_queue_Queue_release, _Thread_Wait_restore_default,
            Kernel.updThread, Function.update, ht, f1, _Thread_Wait_claim]
        · simp [Enqueue_stage.state, Outcome.state, _Thread_queue_Deadlock_fatal,
            _Thread_Wait_tranquilize, _Thread_queue_Queue_release, _Thread_Wait_restore_default,
            Kernel.updThread]
    | true =>
      obtain ⟨-, p2, -⟩ := Enqueue_critical_publish_run b s2 queue operations the_thread links
      obtain ⟨t1, -⟩ := Enqueue_timer_run
        (_Thread_Set_state
          (_Thread_queue_Enqueue_critical_publish b s2 queue operations the_thread links).1
          the_thread state) the_thread queue_context
      have hpub : ∀ k : Kernel H,
          k.threads = (_Thread_queue_Enqueue_critical_publish b s2 queue operations the_thread
            links).1.threads → Wait_queue_has_object_class k := by
        intro k hk
        refine hinv.step the_thread (fun t1 ht => ?_) (Or.inr (Or.inl ?_))
        · rw [hk, p2, f1]
          simp [Function.update, ht, _Thread_Wait_claim, Kernel.updThread]
        · rw [hk, p2]
          simp only [Function.update_same]
          exact Thread_Wait_flags_class_INTEND_TO_BLOCK
      simp only [hp] at hrun
      split at hrun
      · simp only [Option.some.injEq] at hrun
        subst hrun
        exact hpub _ rfl
      · simp only [Option.some.injEq] at hrun
        subst hrun
        exact hpub _ (by rw [Enqueue_stage.state, t1]; rfl)

theorem Thread_queue_Step.class {s s1 : Kernel H} (hstep : Thread_queue_Step s s1)
    (hinv : Wait_queue_has_object_class s) : Wait_queue_has_object_class s1 := by
  cases hstep with
  | block b fuel _ queue operations the_thread state queue_context stage hc hrun =>
    exact Enqueue_critical_block_class b fuel s queue operations the_thread state
      queue_context stage hc hrun hinv
  | reconcile _ queue the_thread path =>
    exact Enqueue_critical_reconcile_class s queue the_thread path hinv
  | enqueue b fuel _ queue operations the_thread state queue_context o hc hrun =>
    unfold _Thread_queue_Enqueue_critical at hrun
    cases hb : _Thread_queue_Enqueue_critical_block b fuel s queue operations the_thread state
        queue_context with
    | none => simp [hb] at hrun
    | some stage =>
      have hstage := Enqueue_critical_block_class b fuel s queue operations the_thread state
        queue_context stage hc hb hinv
      cases stage with
      | finished o1 =>
        simp only [hb, Option.some.injEq] at hrun
        subst hrun
        exact hstage
      | blocking k path =>
        simp only [hb, Option.some.injEq] at hrun
        subst hrun
        exact Enqueue_critical_reconcile_class k queue the_thread path hstage
  | make_ready_again _ the_thread =>
    exact hinv.update (Make_ready_again_run s the_thread).2.1 (Or.inl rfl)
  | do_extract_locked _ queue operations the_thread =>
    exact hinv.update (Extract_locked_run s queue operations the_thread).2.1 (Or.inl rfl)
  | extract_critical _ queue operations the_thread =>
    exact hinv.update (Extract_critical_run s queue operations the_thread).1 (Or.inl rfl)
  | extract _ the_thread =>
    cases hq : (s.threads the_thread).Wait.queue with
    | none =>
      refine hinv.same ?_
      unfold _Thread_queue_Extract
      simp only [emit_threads, hq]
    | some queue1 =>
      rw [Extract_waiting_run s the_thread queue1 hq]
      exact hinv.update (s := s) (Extract_critical_run _ queue1 _ the_thread).1 (Or.inl rfl)
  | surrender _ queue operations heads previous_owner keep_priority =>
    have h := (Surrender_trace s queue operations heads previous_owner keep_priority).2.1
    cases heads with
    | none =>
      refine hinv.same ?_
      rw [h]
      simp [_Thread_queue_Surrender, _Thread_queue_Queue_release]
    | some hd =>
      exact hinv.update (h.trans (Surrender_some_run s queue operations hd previous_owner).2.1)
        (Or.inl rfl)
  | do_dequeue _ the_thread_queue operations =>
    rw [(Do_dequeue_run s the_thread_queue operations).2]
    cases operations.first s.heads the_thread_queue with
    | none => exact hinv.same rfl
    | some t2 =>
      exact hinv.update (s := s) (Extract_critical_run _ the_thread_queue operations t2).1
        (Or.inl rfl)

/-- C12 (as amended): in every state reached from a state with the property
by steps of `_Thread_queue_Enqueue_critical` (as a whole, or its two halves
with other steps in between), `_Thread_queue_Make_ready_again`,
`_Thread_queue_Do_extract_locked`, `_Thread_queue_Extract_critical`,
`_Thread_queue_Extract`, `_Thread_queue_Surrender` and
`_Thread_queue_Do_dequeue`, every thread with `Wait.queue != none` has wait
flags of the object class.  (The converse does not hold.) -/
theorem Wait_queue_class_invariant (s s1 : Kernel H)
    (hinv : Wait_queue_has_object_class s)
    (hreach : Relation.ReflTransGen Thread_queue_Step s s1) :
    Wait_queue_has_object_class s1 := by
  induction hreach with
  | refl => exact hinv
  | tail _ hstep ih => exact hstep.class ih

/-- Witness of C12: thread 1 blocks on the free queue 1 of the idle kernel. -/
theorem Wait_queue_class_invariant_witness :
    ∃ s1, _Thread_queue_Enqueue_critical { RTEMS_SMP := true } 1 idle_kernel 1 fifo_operations
        1 0 (status_context Watchdog_Discipline.WATCHDOG_NO_TIMEOUT 0)
        = some (Outcome.returned s1) ∧
      (s1.threads 1).Wait.queue = some 1 ∧ Wait_queue_has_object_class s1 :=
  ⟨_, rfl, rfl,
   Wait_queue_class_invariant idle_kernel _ (fun _ h => absurd rfl h)
     (Relation.ReflTransGen.single
       (Thread_queue_Step.enqueue { RTEMS_SMP := true } 1 idle_kernel 1 fifo_operations 1 0
         (status_context Watchdog_Discipline.WATCHDOG_NO_TIMEOUT 0) _ (Or.inl rfl) rfl))⟩

/-- C12, counterexample to the claim as stated.  Thread 1 blocks on the free
queue 1 of the idle kernel and is dequeued: in the state reached it has
`Wait.queue = none` and wait flags of the object class (READY_AGAIN).  And
inside `_Thread_queue_Enqueue_critical`, after the claim of the queue,
`Wait.queue` is set while the wait flags are still the old ones, here 0. -/
theorem Wait_queue_none_with_object_class :
    (∃ s1 s2,
      _Thread_queue_Enqueue_critical { RTEMS_SMP := true } 1 idle_kernel 1 fifo_operations
        1 0 (status_context Watchdog_Discipline.WATCHDOG_NO_TIMEOUT 0)
        = some (Outcome.returned s1) ∧
      _Thread_queue_Do_dequeue s1 1 fifo_operations = (some 1, s2) ∧
      Relation.ReflTransGen Thread_queue_Step idle_kernel s2 ∧
      (s2.threads 1).Wait.queue = none ∧
      (s2.threads 1).Wait.flags = THREAD_QUEUE_READY_AGAIN ∧
      Thread_Wait_flags_class (s2.threads 1).Wait.flags = THREAD_WAIT_CLASS_OBJECT) ∧
    (((_Thread_Wait_claim idle_kernel 1 1 fifo_operations).threads 1).Wait.queue = some 1 ∧
      Thread_Wait_flags_class
        ((_Thread_Wait_claim idle_kernel 1 1 fifo_operations).threads 1).Wait.flags
        ≠ THREAD_WAIT_CLASS_OBJECT) :=
  ⟨⟨_, _, rfl, rfl,
    Relation.ReflTransGen.tail
      (Relation.ReflTransGen.single
        (Thread_queue_Step.enqueue { RTEMS_SMP := true } 1 idle_kernel 1 fifo_operations 1 0
          (status_context Watchdog_Discipline.WATCHDOG_NO_TIMEOUT 0) _ (Or.inl rfl) rfl))
      (Thread_queue_Step.do_dequeue _ 1 fifo_operations),
    rfl, rfl, by decide⟩,
   rfl, by decide⟩

/-- What `_Thread_queue_Link_add` returns, in terms of its walk. -/
theorem Link_add_result {fuel : Nat} {s : Kernel H} {link : Thread_queue_Link}
    {source target : QueueId} {b : Bool} {link1 : Thread_queue_Link} {s2 : Kernel H}
    (h : _Thread_queue_Link_add fuel s link source target = some (b, link1, s2)) :
    _Thread_queue_Link_add_walk s.Links source fuel target = some b ∧
    (b = false → s2.Links = s.Links) ∧
    (b = true →
      s2.Links = _RBTree_Insert_inline s.Links { link with source := source, target := target }
        source _Thread_queue_Link_less) := by
  unfold _Thread_queue_Link_add at h
  simp only [emit_Links] at h
  cases hw : _Thread_queue_Link_add_walk s.Links source fuel target with
  | none => simp [hw] at h
  | some b1 =>
    cases b1 with
    | false =>
      simp only [hw, Option.some.injEq, Prod.mk.injEq] at h
      obtain ⟨hb, -, hs⟩ := h
      subst hb hs
      exact ⟨rfl, fun _ => rfl, fun hb => (by cases hb)⟩
    | true =>
      simp only [hw, Option.some.injEq, Prod.mk.injEq] at h
      obtain ⟨hb, -, hs⟩ := h
      subst hb hs
      exact ⟨rfl, fun hb => (by cases hb), fun _ => rfl⟩

/-- C21 (as amended): on a registry with at most one link per source queue,
`_Thread_queue_Link_remove(link)` leaves at most one link per source queue, and
so does `_Thread_queue_Link_add(link, source, target)` when it returns false
(the registry is unchanged); when it returns true, the registry afterwards has
at most one link per source queue exactly when no link of the registry before
had the source queue `source`. -/
theorem Link_registry_unique_sources (s : Kernel H) (link : Thread_queue_Link)
    (source target : QueueId) (huniq : One_link_per_source s.Links) :
    One_link_per_source (_Thread_queue_Link_remove s link).Links ∧
    (∀ m r, _Thread_queue_Link_add m s link source target = some r →
      (r.1 = false → One_link_per_source r.2.2.Links) ∧
      (r.1 = true →
        (One_link_per_source r.2.2.Links ↔ ∀ l ∈ s.Links, l.source ≠ source))) := by
  constructor
  · unfold _Thread_queue_Link_remove _RBTree_Extract One_link_per_source
    simp only [emit_Links, setLinks_Links]
    exact List.Pairwise.sublist (List.erase_sublist link s.Links) huniq
  · intro m r hrun
    obtain ⟨b, link1, s2⟩ := r
    obtain ⟨-, hfalse, htrue⟩ := Link_add_result hrun
    refine ⟨fun hb => ?_, fun hb => ?_⟩
    · simp only at hb ⊢
      rw [hfalse hb]
      exact huniq
    · simp only at hb ⊢
      rw [htrue hb]
      constructor
      · intro hres l hl hs
        unfold One_link_per_source at hres
        have hp := RBTree_Insert_inline_perm s.Links
          { link with source := source, target := target } source _Thread_queue_Link_less
        have hcons := (List.Perm.pairwise_iff (fun {a b} hab => fun e => hab e.symm) hp).mp hres
        exact (List.pairwise_cons.mp hcons).1 l hl hs.symm
      · intro hnew
        exact One_link_per_source.insert huniq _ (fun l hl hs => hnew l hl hs.symm) _ _

/-- Witness of C21: the registry holds the link 1 -> 2; a link 2 -> 3 is added
and the registry keeps one link per source queue. -/
theorem Link_registry_unique_sources_witness :
    One_link_per_source one_link_kernel.Links ∧
    One_link_per_source (_Thread_queue_Link_remove one_link_kernel fresh_link).Links ∧
    ∃ r, _Thread_queue_Link_add 1 one_link_kernel fresh_link 2 3 = some r ∧ r.1 = true ∧
      One_link_per_source r.2.2.Links :=
  ⟨List.pairwise_singleton _ _,
   (Link_registry_unique_sources one_link_kernel fresh_link 2 3
      (List.pairwise_singleton _ _)).1,
   _, rfl, rfl,
   (((Link_registry_unique_sources one_link_kernel fresh_link 2 3
      (List.pairwise_singleton _ _)).2 1 _ rfl).2 rfl).mpr (by decide)⟩

/-- C21, counterexample to the claim as stated: the registry holds the one link
1 -> 2, so it has one link per source queue; `_Thread_queue_Link_add(link, 1,
3)` finds no link with source 3, returns true and inserts a second link with
source 1. -/
theorem Link_add_second_link_per_source :
    One_link_per_source one_link_kernel.Links ∧
    ∃ r, _Thread_queue_Link_add 1 one_link_kernel fresh_link 1 3 = some r ∧ r.1 = true ∧
      r.2.2.Links.map (fun l => (l.source, l.target)) = [(1, 2), (1, 3)] ∧
      ¬ One_link_per_source r.2.2.Links :=
  ⟨List.pairwise_singleton _ _, _, rfl, rfl, rfl, by
    unfold One_link_per_source
    decide⟩

theorem Registry_reaches.append_walk {links : List Thread_queue_Link} {a b c : QueueId}
    (h1 : Registry_reaches links b c) (h2 : Registry_reaches links a b) :
    Registry_reaches links a c := by
  induction h1 with
  | @last q l hm hs ht =>
    refine Registry_reaches.step hm hs ?_
    rw [ht]
    exact h2
  | step hm hs _ ih => exact Registry_reaches.step hm hs ih

/-- On a registry without cycle every forward walk comes to an end: the queues
a walk has left behind are pairwise distinct sources of links, so there are at
most as many as links. -/
theorem Registry_acyclic.walk_ends_aux {links : List Thread_queue_Link}
    (hacyc : Registry_acyclic links) :
    ∀ (k : Nat) (visited : List QueueId) (q : QueueId),
      visited.Nodup → (∀ v ∈ visited, v ∈ links.map (fun l => l.source)) →
      (∀ v ∈ visited, Registry_reaches links q v) →
      links.length - visited.length ≤ k → Registry_walk_ends links q := by
  intro k
  induction k with
  | zero =>
    intro visited q hnd hsub hreach hk
    by_cases hex : ∃ l ∈ links, l.source = q
    · obtain ⟨l, hl, hs⟩ := hex
      have hq : q ∉ visited := fun hv => hacyc q (hreach q hv)
      have hnd1 : (q :: visited).Nodup := List.nodup_cons.mpr ⟨hq, hnd⟩
      have hsub1 : (q :: visited) ⊆ links.map (fun l => l.source) := by
        intro v hv
        rcases List.mem_cons.mp hv with hv | hv
        · subst hv
          exact List.mem_map.mpr ⟨l, hl, hs⟩
        · exact hsub v hv
      have hlen := (hnd1.subperm hsub1).length_le
      simp only [List.length_cons, List.length_map] at hlen
      omega
    · exact Registry_walk_ends.stop (fun l hl hs => hex ⟨l, hl, hs⟩)
  | succ k ih =>
    intro visited q hnd hsub hreach hk
    by_cases hex : ∃ l ∈ links, l.source = q
    · obtain ⟨l, hl, hs⟩ := hex
      have hq : q ∉ visited := fun hv => hacyc q (hreach q hv)
      have hnd1 : (q :: visited).Nodup := List.nodup_cons.mpr ⟨hq, hnd⟩
      have hsub1 : ∀ v ∈ q :: visited, v ∈ links.map (fun l => l.source) := by
        intro v hv
        rcases List.mem_cons.mp hv with hv | hv
        · subst hv
          exact List.mem_map.mpr ⟨l, hl, hs⟩
        · exact hsub v hv
      refine Registry_walk_ends.step hl hs (ih (q :: visited) l.target hnd1 hsub1 ?_ ?_)
      · intro v hv
        rcases List.mem_cons.mp hv with hv | hv
        · subst hv
          exact Registry_reaches.last hl hs rfl
        · exact Registry_reaches.extend hl hs rfl (hreach v hv)
      · simp only [List.length_cons]
        omega
    · exact Registry_walk_ends.stop (fun l hl hs => hex ⟨l, hl, hs⟩)

theorem Registry_acyclic.walk_ends {links : List Thread_queue_Link}
    (hacyc : Registry_acyclic links) (q : QueueId) : Registry_walk_ends links q :=
  hacyc.walk_ends_aux links.length [] q List.nodup_nil (fun v hv => (by cases hv))
    (fun v hv => (by cases hv)) (by simp)

/-- A walk in the registry with one more link is a walk in the old registry,
or it goes in the old registry from its start to the source of the new link (or
starts there) and from the target of the new link to its end (or ends
there). -/
theorem Registry_reaches.of_cons {links : List Thread_queue_Link} {node : Thread_queue_Link}
    {a b : QueueId} (h : Registry_reaches (node :: links) a b) :
    Registry_reaches links a b ∨
    ((b = node.source ∨ Registry_reaches links node.source b) ∧
      (node.target = a ∨ Registry_reaches links a node.target)) := by
  induction h with
  | @last q l hm hs ht =>
    rcases List.mem_cons.mp hm with hl | hl
    · subst hl
      exact Or.inr ⟨Or.inl hs.symm, Or.inl ht⟩
    · exact Or.inl (Registry_reaches.last hl hs ht)
  | @step q l hm hs _ ih =>
    rcases List.mem_cons.mp hm with hl | hl
    · subst hl
      rcases ih with h1 | ⟨-, h2⟩
      · exact Or.inr ⟨Or.inl hs.symm, Or.inr h1⟩
      · exact Or.inr ⟨Or.inl hs.symm, h2⟩
    · rcases ih with h1 | ⟨h1, h2⟩
      · exact Or.inl (Registry_reaches.step hl hs h1)
      · refine Or.inr ⟨Or.inr ?_, h2⟩
        rcases h1 with h1 | h1
        · exact Registry_reaches.last hl hs h1
        · exact Registry_reaches.step hl hs h1

/-- A link from `source` to a different queue `target` closes no cycle when
the walk from `target` does not reach `source`. -/
theorem Registry_acyclic.cons {links : List Thread_queue_Link}
    (hacyc : Registry_acyclic links) {node : Thread_queue_Link}
    (hne : node.source ≠ node.target)
    (hno : ¬ Registry_reaches links node.source node.target) :
    Registry_acyclic (node :: links) := by
  intro q hq
  rcases hq.of_cons with h | ⟨h1, h2⟩
  · exact hacyc q h
  · rcases h1 with h1 | h1 <;> rcases h2 with h2 | h2
    · exact hne (h1.symm.trans h2.symm)
    · rw [h1] at h2
      exact hno h2
    · rw [← h2] at h1
      exact hno h1
    · exact hno (h2.append_walk h1)

theorem Registry_acyclic.perm {links links1 : List Thread_queue_Link}
    (hacyc : Registry_acyclic links) (hp : links1.Perm links) : Registry_acyclic links1 :=
  fun q hq => hacyc q (hq.mono (fun _ hl => hp.mem_iff.mp hl))

/-- C22: on a registry with at most one link per source queue and without
cycle, `_Thread_queue_Link_add(link, source, target)` with `source != target`
returns (given enough fuel for its walk), and the registry it leaves, with the
link `source -> target` added when it returns true and unchanged when it
returns false, has no cycle. -/
theorem Link_add_acyclic (s : Kernel H) (link : Thread_queue_Link) (source target : QueueId)
    (huniq : One_link_per_source s.Links) (hacyc : Registry_acyclic s.Links)
    (hne : source ≠ target) :
    (∃ n r, ∀ m, n ≤ m → _Thread_queue_Link_add m s link source target = some r) ∧
    (∀ m r, _Thread_queue_Link_add m s link source target = some r →
      Registry_acyclic r.2.2.Links ∧
      (r.1 = true →
        r.2.2.Links.Perm ({ link with source := source, target := target } :: s.Links))) := by
  constructor
  · obtain ⟨n, b, hn⟩ := Link_add_walk_of_ends huniq source (hacyc.walk_ends target)
    cases b with
    | false =>
      refine ⟨n, (false, link, (s.emit Event.registry_acquire).emit Event.registry_release),
        fun m hle => ?_⟩
      unfold _Thread_queue_Link_add
      simp only [emit_Links, hn m hle]
    | true =>
      refine ⟨n, (true, { link with source := source, target := target },
        ((s.emit Event.registry_acquire).setLinks
          (_RBTree_Insert_inline s.Links { link with source := source, target := target }
            source _Thread_queue_Link_less)).emit Event.registry_release),
        fun m hle => ?_⟩
      unfold _Thread_queue_Link_add
      simp only [emit_Links, hn m hle]
  · intro m r hrun
    obtain ⟨b, link1, s2⟩ := r
    obtain ⟨hwalk, hfalse, htrue⟩ := Link_add_result hrun
    cases b with
    | false =>
      refine ⟨?_, fun hb => (by cases hb)⟩
      simp only
      rw [hfalse rfl]
      exact hacyc
    | true =>
      have hp := RBTree_Insert_inline_perm s.Links
        { link with source := source, target := target } source _Thread_queue_Link_less
      simp only
      rw [htrue rfl]
      refine ⟨Registry_acyclic.perm (Registry_acyclic.cons hacyc hne ?_) hp, fun _ => hp⟩
      exact Link_add_walk_true huniq m target hwalk

theorem one_link_registry_acyclic : Registry_acyclic one_link_registry := by
  intro q h
  have hmem : ∀ l ∈ one_link_registry, l.source = 1 ∧ l.target = 2 := by
    intro l hl
    simp only [one_link_registry, List.mem_singleton] at hl
    subst hl
    exact ⟨rfl, rfl⟩
  cases h with
  | last hm hs ht =>
    obtain ⟨h1, h2⟩ := hmem _ hm
    exact absurd (h1.symm.trans (hs.trans (ht.symm.trans h2))) (by decide)
  | step hm hs hrest =>
    obtain ⟨h1, h2⟩ := hmem _ hm
    rw [h2] at hrest
    cases hrest with
    | last hm1 hs1 _ =>
      obtain ⟨h3, -⟩ := hmem _ hm1
      exact absurd (h3.symm.trans hs1) (by decide)
    | step hm1 hs1 _ =>
      obtain ⟨h3, -⟩ := hmem _ hm1
      exact absurd (h3.symm.trans hs1) (by decide)

/-- Witness of C22: the registry holds the link 1 -> 2 and a link 2 -> 3 is
added: the call returns true and the registry with the two links has no
cycle. -/
theorem Link_add_acyclic_witness :
    (∃ n r, ∀ m, n ≤ m → _Thread_queue_Link_add m one_link_kernel fresh_link 2 3 = some r) ∧
    ∃ r, _Thread_queue_Link_add 1 one_link_kernel fresh_link 2 3 = some r ∧ r.1 = true ∧
      r.2.2.Links.map (fun l => (l.source, l.target)) = [(1, 2), (2, 3)] ∧
      Registry_acyclic r.2.2.Links :=
  ⟨(Link_add_acyclic one_link_kernel fresh_link 2 3 (List.pairwise_singleton _ _)
      one_link_registry_acyclic (by decide)).1,
   _, rfl, rfl, rfl,
   ((Link_add_acyclic one_link_kernel fresh_link 2 3 (List.pairwise_singleton _ _)
      one_link_registry_acyclic (by decide)).2 1 _ rfl).1⟩

/-- A step that touches one thread only, and leaves it without wait queue or
with flags INTEND_TO_BLOCK or BLOCKED, keeps `Wait_flags_admissible`. -/
theorem Wait_flags_admissible.step_one {s s1 : Kernel H} (t : ThreadId)
    (hinv : Wait_flags_admissible s)
    (hother : ∀ t1, t1 ≠ t → s1.threads t1 = s.threads t1)
    (hthread : (s1.threads t).Wait.queue = none ∨
      ((s1.threads t).Wait.flags = THREAD_QUEUE_INTEND_TO_BLOCK ∨
        (s1.threads t).Wait.flags = THREAD_QUEUE_BLOCKED) ∨
      s1.threads t = s.threads t) :
    Wait_flags_admissible s1 := by
  intro t1 hq
  by_cases ht : t1 = t
  · subst ht
    rcases hthread with h | h | h
    · exact absurd h hq
    · exact h
    · rw [h] at hq ⊢
      exact hinv t1 hq
  · rw [hother t1 ht] at hq ⊢
    exact hinv t1 hq

theorem Wait_flags_admissible.update_one {s s1 : Kernel H} {t : ThreadId}
    {c : Thread_Control H} (hinv : Wait_flags_admissible s)
    (h : s1.threads = Function.update s.threads t c)
    (hc : c.Wait.queue = none ∨
      (c.Wait.flags = THREAD_QUEUE_INTEND_TO_BLOCK ∨ c.Wait.flags = THREAD_QUEUE_BLOCKED)) :
    Wait_flags_admissible s1 := by
  refine hinv.step_one t (fun t1 ht => ?_) ?_
  · rw [h]
    simp [Function.update, ht]
  · rw [h]
    simp only [Function.update_same]
    rcases hc with hc | hc
    · exact Or.inl hc
    · exact Or.inr (Or.inl hc)

theorem Wait_flags_admissible.same_threads {s s1 : Kernel H}
    (hinv : Wait_flags_admissible s) (h : s1.threads = s.threads) :
    Wait_flags_admissible s1 := by
  intro t hq
  rw [h] at hq ⊢
  exact hinv t hq

theorem Enqueue_critical_reconcile_admissible (s : Kernel H) (queue : QueueId)
    (the_thread : ThreadId) (path : Thread_queue_Path)
    (hinv : Wait_flags_admissible s) :
    Wait_flags_admissible
      (_Thread_queue_Enqueue_critical_reconcile s queue the_thread path) := by
  have h := (Enqueue_critical_reconcile_run s queue the_thread path).1
  by_cases hf : (s.threads the_thread).Wait.flags = THREAD_QUEUE_INTEND_TO_BLOCK
  · simp only [hf, if_true] at h
    exact hinv.update_one h (Or.inr (Or.inr rfl))
  · simp only [hf, if_false] at h
    exact hinv.same_threads h

theorem Enqueue_critical_block_admissible (b : Build) (fuel : Nat) (s : Kernel H)
    (queue : QueueId)
    (operations : Thread_queue_Operations H) (the_thread : ThreadId) (state : Nat)
    (queue_context : Thread_queue_Context H) (stage : Enqueue_stage H)
    (hcallout : Standard_callout queue_context)
    (hrun : _Thread_queue_Enqueue_critical_block b fuel s queue operations the_thread state
      queue_context = some stage)
    (hinv : Wait_flags_admissible s) :
    Wait_flags_admissible stage.state := by
  unfold _Thread_queue_Enqueue_critical_block at hrun
  cases hp : _Thread_queue_Path_acquire b fuel
      (_Thread_Wait_claim s the_thread queue operations) the_thread queue with
  | none => simp [hp] at hrun
  | some ra =>
    obtain ⟨r, links, s2⟩ := ra
    obtain ⟨f1, -⟩ := Path_acquire_frame hp
    simp only at f1
    cases r with
    | false =>
      simp only [hp, Option.some.injEq] at hrun
      subst hrun
      rcases hcallout with hc | hc
      · rw [hc]
        refine hinv.step_one the_thread (fun t1 ht => ?_) (Or.inl ?_)
        · simp [Enqueue_stage.state, Outcome.state, _Thread_queue_Deadlock_status,
            _Thread_Wait_tranquilize, _Thread_queue_Queue_release, _Thread_Wait_restore_default,
            Kernel.updThread, Function.update, ht, f1, _Thread_Wait_claim]
        · simp [Enqueue_stage.state, Outcome.state, _Thread_queue_Deadlock_status,
            _Thread_Wait_tranquilize, _Thread_queue_Queue_release, _Thread_Wait_restore_default,
            Kernel.updThread]
      · rw [hc]
        refine hinv.step_one the_thread (fun t1 ht => ?_) (Or.inl ?_)
        · simp [Enqueue_stage.state, Outcome.state, _Thread_queue_Deadlock_fatal,
            _Thread_Wait_tranquilize, _Thread_queue_Queue_release, _Thread_Wait_restore_default,
            Kernel.updThread, Function.update, ht, f1, _Thread_Wait_claim]
        · simp [Enqueue_stage.state, Outcome.state, _Thread_queue_Deadlock_fatal,
            _Thread_Wait_tranquilize, _Thread_queue_Queue_release, _Thread_Wait_restore_default,
            Kernel.updThread]
    | true =>
      obtain ⟨-, p2, -⟩ := Enqueue_critical_publish_run b s2 queue operations the_thread links
      obtain ⟨t1, -⟩ := Enqueue_timer_run
        (_Thread_Set_state
          (_Thread_queue_Enqueue_critical_publish b s2 queue operations the_thread links).1
          the_thread state) the_thread queue_context
      have hpub : ∀ k : Kernel H,
          k.threads = (_Thread_queue_Enqueue_critical_publish b s2 queue operations the_thread
            links).1.threads → Wait_flags_admissible k := by
        intro k hk
        refine hinv.step_one the_thread (fun t1 ht => ?_) (Or.inr (Or.inl ?_))
        · rw [hk, p2, f1]
          simp [Function.update, ht, _Thread_Wait_claim, Kernel.updThread]
        · rw [hk, p2]
          simp only [Function.update_same]
          exact Or.inl trivial
      simp only [hp] at hrun
      split at hrun
      · simp only [Option.some.injEq] at hrun
        subst hrun
        exact hpub _ rfl
      · simp only [Option.some.injEq] at hrun
        subst hrun
        exact hpub _ (by rw [Enqueue_stage.state, t1]; rfl)

/-- Every step keeps `Wait_flags_admissible`: a thread gets `Wait.queue` set
with flags INTEND_TO_BLOCK, the reconciliation takes INTEND_TO_BLOCK to
BLOCKED, and each call that makes the flags READY_AGAIN clears `Wait.queue`. -/
theorem Thread_queue_Step.admissible {s s1 : Kernel H} (hstep : Thread_queue_Step s s1)
    (hinv : Wait_flags_admissible s) : Wait_flags_admissible s1 := by
  cases hstep with
  | block b fuel _ queue operations the_thread state queue_context stage hc hrun =>
    exact Enqueue_critical_block_admissible b fuel s queue operations the_thread state
      queue_context stage hc hrun hinv
  | reconcile _ queue the_thread path =>
    exact Enqueue_critical_reconcile_admissible s queue the_thread path hinv
  | enqueue b fuel _ queue operations the_thread state queue_context o hc hrun =>
    unfold _Thread_queue_Enqueue_critical at hrun
    cases hb : _Thread_queue_Enqueue_critical_block b fuel s queue operations the_thread state
        queue_context with
    | none => simp [hb] at hrun
    | some stage =>
      have hstage := Enqueue_critical_block_admissible b fuel s queue operations the_thread
        state queue_context stage hc hb hinv
      cases stage with
      | finished o1 =>
        simp only [hb, Option.some.injEq] at hrun
        subst hrun
        exact hstage
      | blocking k path =>
        simp only [hb, Option.some.injEq] at hrun
        subst hrun
        exact Enqueue_critical_reconcile_admissible k queue the_thread path hstage
  | make_ready_again _ the_thread =>
    exact hinv.update_one (Make_ready_again_run s the_thread).2.1 (Or.inl rfl)
  | do_extract_locked _ queue operations the_thread =>
    exact hinv.update_one (Extract_locked_run s queue operations the_thread).2.1 (Or.inl rfl)
  | extract_critical _ queue operations the_thread =>
    exact hinv.update_one (Extract_critical_run s queue operations the_thread).1 (Or.inl rfl)
  | extract _ the_thread =>
    cases hq : (s.threads the_thread).Wait.queue with
    | none =>
      refine hinv.same_threads ?_
      unfold _Thread_queue_Extract
      simp only [emit_threads, hq]
    | some queue1 =>
      rw [Extract_waiting_run s the_thread queue1 hq]
      exact hinv.update_one (s := s) (Extract_critical_run _ queue1 _ the_thread).1 (Or.inl rfl)
  | surrender _ queue operations heads previous_owner keep_priority =>
    have h := (Surrender_trace s queue operations heads previous_owner keep_priority).2.1
    cases heads with
    | none =>
      refine hinv.same_threads ?_
      rw [h]
      simp [_Thread_queue_Surrender, _Thread_queue_Queue_release]
    | some hd =>
      exact hinv.update_one
        (h.trans (Surrender_some_run s queue operations hd previous_owner).2.1) (Or.inl rfl)
  | do_dequeue _ the_thread_queue operations =>
    rw [(Do_dequeue_run s the_thread_queue operations).2]
    cases operations.first s.heads the_thread_queue with
    | none => exact hinv.same_threads rfl
    | some t2 =>
      exact hinv.update_one (s := s) (Extract_critical_run _ the_thread_queue operations t2).1
        (Or.inl rfl)

/-- The wait flags stay admissible in every state reached by steps of the
operations from an admissible state, such as one where nobody waits. -/
theorem Wait_flags_admissible.reachable {s s1 : Kernel H}
    (hinv : Wait_flags_admissible s)
    (hreach : Relation.ReflTransGen Thread_queue_Step s s1) :
    Wait_flags_admissible s1 := by
  induction hreach with
  | refl => exact hinv
  | tail _ hstep ih => exact hstep.admissible ih

/-- In the idle kernel nobody waits: it is admissible. -/
theorem idle_kernel_admissible : Wait_flags_admissible idle_kernel :=
  fun _ h => absurd rfl h

end ThreadQ
